import Mathlib

/-!
# A shallow embedding of the 6502 emulator core (`6502.c`)

The C functions `fetch_byte`, `fetch_word`, `push_byte`, `pull_byte`,
`set_zero_and_negative_flags`, `get_address`, `reset` and
`execute_instruction` are rendered as pure functions on an explicit machine
state.  Machine integers are natural numbers: a `uint8_t` is a number below
256, a `uint16_t` a number below 65536, and every store into such a variable
is followed by the reduction modulo `2^8` or `2^16` that C performs.
-/

namespace Emu6502

/-! ## Machine integers -/

/-- Conversion of a non-negative C `int` to `uint8_t`. -/
def u8 (n : Nat) : Nat := n % 256

/-- Conversion of a non-negative C `int` to `uint16_t`. -/
def u16 (n : Nat) : Nat := n % 65536

/-- Conversion of a possibly negative C `int` to `uint8_t`. -/
def u8i (i : Int) : Nat := (i % 256).toNat

/-- Conversion of a possibly negative C `int` to `uint16_t`. -/
def u16i (i : Int) : Nat := (i % 65536).toNat

/-- C's `~x` on an `int` holding a small non-negative value, as the 32-bit
two's-complement bit pattern of the (negative) result. -/
def cnot (x : Nat) : Nat := 0xFFFFFFFF - x

/-- C's `(int8_t)b` for a byte `b`. -/
def int8 (b : Nat) : Int := if b % 256 < 128 then (b % 256 : Nat) else ((b % 256 : Nat) : Int) - 256

/-! ## Status register flags (`#define FLAG_*`) -/

abbrev FLAG_N : Nat := 0x80
abbrev FLAG_V : Nat := 0x40
abbrev FLAG_B : Nat := 0x10
abbrev FLAG_D : Nat := 0x08
abbrev FLAG_I : Nat := 0x04
abbrev FLAG_Z : Nat := 0x02
abbrev FLAG_C : Nat := 0x01

abbrev SCREEN_WIDTH : Nat := 128
abbrev SCREEN_HEIGHT : Nat := 128

/-- Addressing mode constants (`#define AM_*`). -/
inductive Mode where
  | AM_IMM | AM_ZP | AM_ZPX | AM_ZPY | AM_IZX | AM_IZY
  | AM_ABS | AM_ABX | AM_ABY | AM_IND | AM_REL | AM_IMP
  deriving DecidableEq, Repr

/-- Lines that `execute_instruction` prints on standard output. -/
inductive Msg where
  | kil
  | unknownOpcode (opcode : Nat) (addr : Int)
  deriving DecidableEq, Repr

/-- C leaves open which operand of `cpu->PC + (int8_t)fetch_byte(cpu)` (the
`AM_REL` case of `get_address`) is evaluated first: the call, which advances
`PC`, or the read of `cpu->PC`.  Both orders are modelled. -/
inductive EvalOrder where
  | callFirst
  | readFirst
  deriving DecidableEq, Repr

/-- The `CPU` struct of the source, together with the module-scope variables
the core touches while it runs on it: the `pixels` framebuffer, the
`keyboard_input` latch, the C library's `rand()` (the sequence of values its
successive calls return and the number of calls made so far) and standard
output.  A pixel is `none` when the value stored in it was read past the end
of the `palette` array. -/
structure CPU where
  A : Nat
  X : Nat
  Y : Nat
  SP : Nat
  PC : Nat
  P : Nat
  mem : Nat → Nat
  pixels : Nat → Option Nat
  keyboard_input : Nat
  rand_seq : Nat → Nat
  rand_calls : Nat
  out : List Msg

/-- The values of the C types: every register and memory byte fits its width. -/
structure CPU.WF (cpu : CPU) : Prop where
  hA : cpu.A < 256
  hX : cpu.X < 256
  hY : cpu.Y < 256
  hSP : cpu.SP < 256
  hPC : cpu.PC < 65536
  hP : cpu.P < 256
  hmem : ∀ a, cpu.mem a < 256
  hkey : cpu.keyboard_input < 256

/-- The assignment `cpu->mem[address] = value` (a `uint8_t` store). -/
def CPU.store (cpu : CPU) (address value : Nat) : CPU :=
  { cpu with mem := fun a => if a = address then value % 256 else cpu.mem a }

/-- The statement `cpu->P |= m`. -/
def CPU.orP (cpu : CPU) (m : Nat) : CPU := { cpu with P := u8 (cpu.P ||| m) }

/-- The statement `cpu->P &= ~m`. -/
def CPU.andNotP (cpu : CPU) (m : Nat) : CPU := { cpu with P := u8 (cpu.P &&& cnot m) }

/-- The table `palette[16]`. -/
def palette : List Nat :=
  [0xff000000, 0xffffffff, 0xffff0000, 0xff00ffff,
   0xffff00ff, 0xff00ff00, 0xff0000ff, 0xffffff00,
   0xffffa500, 0xffa52a2a, 0xffff69b4, 0xff696969,
   0xff808080, 0xff90ee90, 0xffadd8e6, 0xffd3d3d3]

/-! ## Helpers of the interpreter -/

/-- Source `fetch_byte`: the byte at `PC`, with `PC` advanced; the addresses
`0x00FE` and `0x00FF` answer with a random byte and the keyboard latch. -/
def fetch_byte (cpu : CPU) : Nat × CPU :=
  let address := cpu.PC
  let cpu := { cpu with PC := u16 (cpu.PC + 1) }
  if address = 0x00FE then
    (u8 (cpu.rand_seq cpu.rand_calls &&& 0xff), { cpu with rand_calls := cpu.rand_calls + 1 })
  else if address = 0x00FF then
    (cpu.keyboard_input, cpu)
  else
    (cpu.mem address, cpu)

/-- Source `fetch_word`: the little-endian word at `PC`, read from memory
directly, with `PC` advanced twice. -/
def fetch_word (cpu : CPU) : Nat × CPU :=
  let low := cpu.mem cpu.PC
  let cpu := { cpu with PC := u16 (cpu.PC + 1) }
  let high := cpu.mem cpu.PC
  let cpu := { cpu with PC := u16 (cpu.PC + 1) }
  (u16 ((high <<< 8) ||| low), cpu)

/-- Source `push_byte`; `val` is converted to `uint8_t` as the argument is passed. -/
def push_byte (cpu : CPU) (val : Nat) : CPU :=
  let cpu := cpu.store (0x100 + cpu.SP) (u8 val)
  { cpu with SP := u8i ((cpu.SP : Int) - 1) }

/-- Source `pull_byte`. -/
def pull_byte (cpu : CPU) : Nat × CPU :=
  let cpu := { cpu with SP := u8 (cpu.SP + 1) }
  (cpu.mem (0x100 + cpu.SP), cpu)

/-- Source `set_zero_and_negative_flags`. -/
def set_zero_and_negative_flags (cpu : CPU) (value : Nat) : CPU :=
  let cpu := cpu.andNotP (FLAG_N ||| FLAG_Z)
  let cpu := if value = 0 then cpu.orP FLAG_Z else cpu
  if value &&& 0x80 ≠ 0 then cpu.orP FLAG_N else cpu

/-- Source `get_address`: the effective address of `mode`, with the operand
bytes consumed.  `AM_IMP` falls to the `default` label of the switch. -/
def get_address (ord : EvalOrder) (cpu : CPU) (mode : Mode) : Nat × CPU :=
  match mode with
  | .AM_IMM => (cpu.PC, { cpu with PC := u16 (cpu.PC + 1) })
  | .AM_ZP =>
    let (zp_addr, cpu) := fetch_byte cpu
    (zp_addr, cpu)
  | .AM_ZPX =>
    let (zp_addr, cpu) := fetch_byte cpu
    ((zp_addr + cpu.X) &&& 0xFF, cpu)
  | .AM_ZPY =>
    let (zp_addr, cpu) := fetch_byte cpu
    ((zp_addr + cpu.Y) &&& 0xFF, cpu)
  | .AM_IZX =>
    let (zp_addr, cpu) := fetch_byte cpu
    let temp_byte := u8 ((zp_addr + cpu.X) &&& 0xFF)
    (u16 (cpu.mem temp_byte ||| (cpu.mem ((temp_byte + 1) &&& 0xFF) <<< 8)), cpu)
  | .AM_IZY =>
    let (zp_addr, cpu) := fetch_byte cpu
    let address := u16 (cpu.mem zp_addr ||| (cpu.mem ((zp_addr + 1) &&& 0xFF) <<< 8))
    (u16 (address + cpu.Y), cpu)
  | .AM_ABS => fetch_word cpu
  | .AM_ABX =>
    let (address, cpu) := fetch_word cpu
    (u16 (address + cpu.X), cpu)
  | .AM_ABY =>
    let (address, cpu) := fetch_word cpu
    (u16 (address + cpu.Y), cpu)
  | .AM_IND =>
    let (abs_addr, cpu) := fetch_word cpu
    (u16 (cpu.mem abs_addr ||| (cpu.mem ((abs_addr &&& 0xFF00) ||| ((abs_addr + 1) &&& 0xFF)) <<< 8)), cpu)
  | .AM_REL =>
    let pc_before := cpu.PC
    let (b, cpu) := fetch_byte cpu
    match ord with
    | .callFirst => (u16i ((cpu.PC : Int) + int8 b), cpu)
    | .readFirst => (u16i ((pc_before : Int) + int8 b), cpu)
  | .AM_IMP => (0, cpu)

/-- Source `reset`: `memset` of the whole struct, then `SP`, bit 5 of `P`,
the reset vector, and the keyboard latch.  `srand` re-seeds the C library:
the values later calls of `rand()` return are those of `seeded`. -/
def reset (cpu : CPU) (seeded : Nat → Nat) : CPU :=
  let cpu : CPU := { cpu with A := 0, X := 0, Y := 0, SP := 0, PC := 0, P := 0, mem := fun _ => 0 }
  let cpu := { cpu with SP := 0xFF }
  let cpu := { cpu with P := u8 (cpu.P ||| 0x20) }
  let cpu := { cpu with PC := u16 (cpu.mem 0xFFFC ||| (cpu.mem 0xFFFD <<< 8)) }
  { cpu with rand_seq := seeded, rand_calls := 0, keyboard_input := 0 }

/-! ## Instruction bodies

One definition per distinct `case` body of the switch in
`execute_instruction`; bodies that differ only in the addressing-mode constant
share a definition that takes the mode.  Each returns the final value of the
local variable `address` (0 when the body does not assign it) and the CPU. -/

/-- Body `case 0x00`. -/
def op_BRK (cpu : CPU) : Nat × CPU :=
  let cpu := push_byte cpu (cpu.PC >>> 8)
  let cpu := push_byte cpu (cpu.PC &&& 0xFF)
  let cpu := push_byte cpu (cpu.P ||| FLAG_B)
  let cpu := cpu.orP FLAG_I
  (0, { cpu with PC := u16 (cpu.mem 0xFFFE ||| (cpu.mem 0xFFFF <<< 8)) })

/-- Body of the twelve KIL labels. -/
def op_KIL (cpu : CPU) : Nat × CPU :=
  let cpu := { cpu with out := cpu.out ++ [Msg.kil] }
  (0, { cpu with PC := 0xFFFF })

/-- Body of the `default` label. -/
def op_unknown (opcode : Nat) (cpu : CPU) : Nat × CPU :=
  let cpu := { cpu with out := cpu.out ++ [Msg.unknownOpcode opcode ((cpu.PC : Int) - 1)] }
  (0, { cpu with PC := 0xFFFF })

/-- Bodies `get_address(cpu, MODE); break;` (the NOPs with an operand). -/
def op_NOP_mode (ord : EvalOrder) (mode : Mode) (cpu : CPU) : Nat × CPU :=
  let (_, cpu) := get_address ord cpu mode
  (0, cpu)

/-- Bodies `ORA`. -/
def op_ORA (ord : EvalOrder) (mode : Mode) (cpu : CPU) : Nat × CPU :=
  let (address, cpu) := get_address ord cpu mode
  let cpu := { cpu with A := u8 (cpu.A ||| cpu.mem address) }
  (address, set_zero_and_negative_flags cpu cpu.A)

/-- Bodies `AND`. -/
def op_AND (ord : EvalOrder) (mode : Mode) (cpu : CPU) : Nat × CPU :=
  let (address, cpu) := get_address ord cpu mode
  let cpu := { cpu with A := u8 (cpu.A &&& cpu.mem address) }
  (address, set_zero_and_negative_flags cpu cpu.A)

/-- Bodies `EOR`. -/
def op_EOR (ord : EvalOrder) (mode : Mode) (cpu : CPU) : Nat × CPU :=
  let (address, cpu) := get_address ord cpu mode
  let cpu := { cpu with A := u8 (cpu.A ^^^ cpu.mem address) }
  (address, set_zero_and_negative_flags cpu cpu.A)

/-- The shared tail of the ADC and RRA bodies, from `result = ...` on. -/
def adc_core (cpu : CPU) (value : Nat) : CPU :=
  let result := u16 (cpu.A + value + (if cpu.P &&& FLAG_C ≠ 0 then 1 else 0))
  let cpu := cpu.andNotP (FLAG_N ||| FLAG_V ||| FLAG_Z ||| FLAG_C)
  let cpu := if result &&& 0x100 ≠ 0 then cpu.orP FLAG_C else cpu
  let cpu := if (cpu.A ^^^ result) &&& (value ^^^ result) &&& 0x80 ≠ 0 then cpu.orP FLAG_V else cpu
  let cpu := { cpu with A := u8 (result &&& 0xFF) }
  set_zero_and_negative_flags cpu cpu.A

/-- The shared tail of the SBC and ISC bodies, from `result = ...` on. -/
def sbc_core (cpu : CPU) (value : Nat) : CPU :=
  let result := u16i ((cpu.A : Int) - value - (if cpu.P &&& FLAG_C ≠ 0 then 0 else 1))
  let cpu := cpu.andNotP (FLAG_N ||| FLAG_V ||| FLAG_Z ||| FLAG_C)
  let cpu := if ¬ (result &&& 0x100 ≠ 0) then cpu.orP FLAG_C else cpu
  let cpu := if (cpu.A ^^^ result) &&& (cnot value ^^^ result) &&& 0x80 ≠ 0 then cpu.orP FLAG_V else cpu
  let cpu := { cpu with A := u8 (result &&& 0xFF) }
  set_zero_and_negative_flags cpu cpu.A

/-- Bodies `ADC`. -/
def op_ADC (ord : EvalOrder) (mode : Mode) (cpu : CPU) : Nat × CPU :=
  let (address, cpu) := get_address ord cpu mode
  let value := cpu.mem address
  (address, adc_core cpu value)

/-- Bodies `SBC`. -/
def op_SBC (ord : EvalOrder) (mode : Mode) (cpu : CPU) : Nat × CPU :=
  let (address, cpu) := get_address ord cpu mode
  let value := cpu.mem address
  (address, sbc_core cpu value)

/-- The compare tail shared by CMP, CPX, CPY and DCP, for register value `r`. -/
def cmp_core (cpu : CPU) (r value : Nat) : CPU :=
  let cpu := cpu.andNotP (FLAG_N ||| FLAG_Z ||| FLAG_C)
  let cpu := if r ≥ value then cpu.orP FLAG_C else cpu
  set_zero_and_negative_flags cpu (u8i ((r : Int) - value))

/-- Bodies `CMP`. -/
def op_CMP (ord : EvalOrder) (mode : Mode) (cpu : CPU) : Nat × CPU :=
  let (address, cpu) := get_address ord cpu mode
  let value := cpu.mem address
  (address, cmp_core cpu cpu.A value)

/-- Bodies `CPX`. -/
def op_CPX (ord : EvalOrder) (mode : Mode) (cpu : CPU) : Nat × CPU :=
  let (address, cpu) := get_address ord cpu mode
  let value := cpu.mem address
  (address, cmp_core cpu cpu.X value)

/-- Bodies `CPY`. -/
def op_CPY (ord : EvalOrder) (mode : Mode) (cpu : CPU) : Nat × CPU :=
  let (address, cpu) := get_address ord cpu mode
  let value := cpu.mem address
  (address, cmp_core cpu cpu.Y value)

/-- Carry from a tested bit: `cpu->P &= ~FLAG_C; if (value & bit) cpu->P |= FLAG_C;`. -/
def carry_from (cpu : CPU) (value bit : Nat) : CPU :=
  let cpu := cpu.andNotP FLAG_C
  if value &&& bit ≠ 0 then cpu.orP FLAG_C else cpu

/-- The local `temp_carry = (cpu->P & FLAG_C) ? 1 : 0`. -/
def temp_carry_of (cpu : CPU) : Nat := if cpu.P &&& FLAG_C ≠ 0 then 1 else 0

/-- Bodies `ASL` on memory. -/
def op_ASL (ord : EvalOrder) (mode : Mode) (cpu : CPU) : Nat × CPU :=
  let (address, cpu) := get_address ord cpu mode
  let value := cpu.mem address
  let cpu := carry_from cpu value 0x80
  let cpu := cpu.store address (value <<< 1)
  (address, set_zero_and_negative_flags cpu (cpu.mem address))

/-- Bodies `SLO`. -/
def op_SLO (ord : EvalOrder) (mode : Mode) (cpu : CPU) : Nat × CPU :=
  let (address, cpu) := get_address ord cpu mode
  let value := cpu.mem address
  let cpu := carry_from cpu value 0x80
  let cpu := cpu.store address (value <<< 1)
  let cpu := { cpu with A := u8 (cpu.A ||| cpu.mem address) }
  (address, set_zero_and_negative_flags cpu cpu.A)

/-- Body `case 0x0A` (ASL on the accumulator). -/
def op_ASL_A (cpu : CPU) : Nat × CPU :=
  let cpu := carry_from cpu cpu.A 0x80
  let cpu := { cpu with A := u8 (cpu.A <<< 1) }
  (0, set_zero_and_negative_flags cpu cpu.A)

/-- Bodies `ROL` on memory. -/
def op_ROL (ord : EvalOrder) (mode : Mode) (cpu : CPU) : Nat × CPU :=
  let (address, cpu) := get_address ord cpu mode
  let value := cpu.mem address
  let temp_carry := temp_carry_of cpu
  let cpu := carry_from cpu value 0x80
  let cpu := cpu.store address ((value <<< 1) ||| temp_carry)
  (address, set_zero_and_negative_flags cpu (cpu.mem address))

/-- Bodies `RLA`. -/
def op_RLA (ord : EvalOrder) (mode : Mode) (cpu : CPU) : Nat × CPU :=
  let (address, cpu) := get_address ord cpu mode
  let value := cpu.mem address
  let temp_carry := temp_carry_of cpu
  let cpu := carry_from cpu value 0x80
  let cpu := cpu.store address ((value <<< 1) ||| temp_carry)
  let cpu := { cpu with A := u8 (cpu.A &&& cpu.mem address) }
  (address, set_zero_and_negative_flags cpu cpu.A)

/-- Body `case 0x2A` (ROL on the accumulator). -/
def op_ROL_A (cpu : CPU) : Nat × CPU :=
  let temp_carry := temp_carry_of cpu
  let cpu := carry_from cpu cpu.A 0x80
  let cpu := { cpu with A := u8 ((cpu.A <<< 1) ||| temp_carry) }
  (0, set_zero_and_negative_flags cpu cpu.A)

/-- Bodies `LSR` on memory. -/
def op_LSR (ord : EvalOrder) (mode : Mode) (cpu : CPU) : Nat × CPU :=
  let (address, cpu) := get_address ord cpu mode
  let value := cpu.mem address
  let cpu := carry_from cpu value 0x01
  let cpu := cpu.store address (value >>> 1)
  (address, set_zero_and_negative_flags cpu (cpu.mem address))

/-- Bodies `SRE`. -/
def op_SRE (ord : EvalOrder) (mode : Mode) (cpu : CPU) : Nat × CPU :=
  let (address, cpu) := get_address ord cpu mode
  let value := cpu.mem address
  let cpu := carry_from cpu value 0x01
  let cpu := cpu.store address (value >>> 1)
  let cpu := { cpu with A := u8 (cpu.A ^^^ cpu.mem address) }
  (address, set_zero_and_negative_flags cpu cpu.A)

/-- Body `case 0x4A` (LSR on the accumulator). -/
def op_LSR_A (cpu : CPU) : Nat × CPU :=
  let cpu := carry_from cpu cpu.A 0x01
  let cpu := { cpu with A := u8 (cpu.A >>> 1) }
  (0, set_zero_and_negative_flags cpu cpu.A)

/-- Bodies `ROR` on memory. -/
def op_ROR (ord : EvalOrder) (mode : Mode) (cpu : CPU) : Nat × CPU :=
  let (address, cpu) := get_address ord cpu mode
  let value := cpu.mem address
  let temp_carry := temp_carry_of cpu
  let cpu := carry_from cpu value 0x01
  let cpu := cpu.store address ((value >>> 1) ||| (temp_carry <<< 7))
  (address, set_zero_and_negative_flags cpu (cpu.mem address))

/-- Bodies `RRA`. -/
def op_RRA (ord : EvalOrder) (mode : Mode) (cpu : CPU) : Nat × CPU :=
  let (address, cpu) := get_address ord cpu mode
  let value := cpu.mem address
  let temp_carry := temp_carry_of cpu
  let cpu := carry_from cpu value 0x01
  let cpu := cpu.store address ((value >>> 1) ||| (temp_carry <<< 7))
  let value := cpu.mem address
  (address, adc_core cpu value)

/-- Body `case 0x6A` (ROR on the accumulator). -/
def op_ROR_A (cpu : CPU) : Nat × CPU :=
  let temp_carry := temp_carry_of cpu
  let cpu := carry_from cpu cpu.A 0x01
  let cpu := { cpu with A := u8 ((cpu.A >>> 1) ||| (temp_carry <<< 7)) }
  (0, set_zero_and_negative_flags cpu cpu.A)

/-- Bodies `DEC`. -/
def op_DEC (ord : EvalOrder) (mode : Mode) (cpu : CPU) : Nat × CPU :=
  let (address, cpu) := get_address ord cpu mode
  let value := cpu.mem address
  let value := u8i ((value : Int) - 1)
  let cpu := cpu.store address value
  (address, set_zero_and_negative_flags cpu value)

/-- Bodies `DCP`. -/
def op_DCP (ord : EvalOrder) (mode : Mode) (cpu : CPU) : Nat × CPU :=
  let (address, cpu) := get_address ord cpu mode
  let value := cpu.mem address
  let value := u8i ((value : Int) - 1)
  let cpu := cpu.store address value
  (address, cmp_core cpu cpu.A value)

/-- Bodies `INC`. -/
def op_INC (ord : EvalOrder) (mode : Mode) (cpu : CPU) : Nat × CPU :=
  let (address, cpu) := get_address ord cpu mode
  let value := cpu.mem address
  let value := u8 (value + 1)
  let cpu := cpu.store address value
  (address, set_zero_and_negative_flags cpu value)

/-- Bodies `ISC`. -/
def op_ISC (ord : EvalOrder) (mode : Mode) (cpu : CPU) : Nat × CPU :=
  let (address, cpu) := get_address ord cpu mode
  let value := cpu.mem address
  let value := u8 (value + 1)
  let cpu := cpu.store address value
  (address, sbc_core cpu value)

/-- Bodies `BIT`. -/
def op_BIT (ord : EvalOrder) (mode : Mode) (cpu : CPU) : Nat × CPU :=
  let (address, cpu) := get_address ord cpu mode
  let value := cpu.mem address
  let cpu := cpu.andNotP (FLAG_N ||| FLAG_V ||| FLAG_Z)
  let cpu := if value &&& FLAG_N ≠ 0 then cpu.orP FLAG_N else cpu
  let cpu := if value &&& FLAG_V ≠ 0 then cpu.orP FLAG_V else cpu
  let cpu := if ¬ (cpu.A &&& value ≠ 0) then cpu.orP FLAG_Z else cpu
  (address, cpu)

/-- Bodies `LDA`. -/
def op_LDA (ord : EvalOrder) (mode : Mode) (cpu : CPU) : Nat × CPU :=
  let (address, cpu) := get_address ord cpu mode
  let cpu := { cpu with A := cpu.mem address }
  (address, set_zero_and_negative_flags cpu cpu.A)

/-- Bodies `LDX`. -/
def op_LDX (ord : EvalOrder) (mode : Mode) (cpu : CPU) : Nat × CPU :=
  let (address, cpu) := get_address ord cpu mode
  let cpu := { cpu with X := cpu.mem address }
  (address, set_zero_and_negative_flags cpu cpu.X)

/-- Bodies `LDY`. -/
def op_LDY (ord : EvalOrder) (mode : Mode) (cpu : CPU) : Nat × CPU :=
  let (address, cpu) := get_address ord cpu mode
  let cpu := { cpu with Y := cpu.mem address }
  (address, set_zero_and_negative_flags cpu cpu.Y)

/-- Bodies `LAX`. -/
def op_LAX (ord : EvalOrder) (mode : Mode) (cpu : CPU) : Nat × CPU :=
  let (address, cpu) := get_address ord cpu mode
  let cpu := { cpu with X := cpu.mem address }
  let cpu := { cpu with A := cpu.X }
  (address, set_zero_and_negative_flags cpu cpu.A)

/-- Body `case 0xBB` (LAS). -/
def op_LAS (ord : EvalOrder) (mode : Mode) (cpu : CPU) : Nat × CPU :=
  let (address, cpu) := get_address ord cpu mode
  let cpu := { cpu with SP := u8 (cpu.mem address &&& cpu.SP) }
  let cpu := { cpu with X := cpu.SP }
  let cpu := { cpu with A := cpu.X }
  (address, set_zero_and_negative_flags cpu cpu.A)

/-- Bodies `STA`. -/
def op_STA (ord : EvalOrder) (mode : Mode) (cpu : CPU) : Nat × CPU :=
  let (address, cpu) := get_address ord cpu mode
  (address, cpu.store address cpu.A)

/-- Bodies `STX`. -/
def op_STX (ord : EvalOrder) (mode : Mode) (cpu : CPU) : Nat × CPU :=
  let (address, cpu) := get_address ord cpu mode
  (address, cpu.store address cpu.X)

/-- Bodies `STY`. -/
def op_STY (ord : EvalOrder) (mode : Mode) (cpu : CPU) : Nat × CPU :=
  let (address, cpu) := get_address ord cpu mode
  (address, cpu.store address cpu.Y)

/-- Bodies `SAX`. -/
def op_SAX (ord : EvalOrder) (mode : Mode) (cpu : CPU) : Nat × CPU :=
  let (address, cpu) := get_address ord cpu mode
  (address, cpu.store address (cpu.A &&& cpu.X))

/-- Bodies `AHX`. -/
def op_AHX (ord : EvalOrder) (mode : Mode) (cpu : CPU) : Nat × CPU :=
  let (address, cpu) := get_address ord cpu mode
  (address, cpu.store address (cpu.A &&& cpu.X &&& (address >>> 8)))

/-- Body `case 0x9B` (TAS). -/
def op_TAS (ord : EvalOrder) (mode : Mode) (cpu : CPU) : Nat × CPU :=
  let (address, cpu) := get_address ord cpu mode
  let cpu := { cpu with SP := u8 (cpu.A &&& cpu.X) }
  (address, cpu.store address (cpu.SP &&& (address >>> 8)))

/-- Body `case 0x9C` (SHY). -/
def op_SHY (ord : EvalOrder) (mode : Mode) (cpu : CPU) : Nat × CPU :=
  let (address, cpu) := get_address ord cpu mode
  (address, cpu.store address (cpu.Y &&& (address >>> 8)))

/-- Body `case 0x9E` (SHX). -/
def op_SHX (ord : EvalOrder) (mode : Mode) (cpu : CPU) : Nat × CPU :=
  let (address, cpu) := get_address ord cpu mode
  (address, cpu.store address (cpu.X &&& (address >>> 8)))

/-- Bodies `ANC`. -/
def op_ANC (ord : EvalOrder) (mode : Mode) (cpu : CPU) : Nat × CPU :=
  let (address, cpu) := get_address ord cpu mode
  let cpu := { cpu with A := u8 (cpu.A &&& cpu.mem address) }
  let cpu := if cpu.A &&& 0x80 ≠ 0 then cpu.orP FLAG_C else cpu.andNotP FLAG_C
  (address, set_zero_and_negative_flags cpu cpu.A)

/-- Body `case 0x4B` (ALR). -/
def op_ALR (ord : EvalOrder) (mode : Mode) (cpu : CPU) : Nat × CPU :=
  let (address, cpu) := get_address ord cpu mode
  let cpu := { cpu with A := u8 (cpu.A &&& cpu.mem address) }
  let cpu := carry_from cpu cpu.A 0x01
  let cpu := { cpu with A := u8 (cpu.A >>> 1) }
  (address, set_zero_and_negative_flags cpu cpu.A)

/-- Body `case 0x6B` (ARR). -/
def op_ARR (ord : EvalOrder) (mode : Mode) (cpu : CPU) : Nat × CPU :=
  let (address, cpu) := get_address ord cpu mode
  let cpu := { cpu with A := u8 (cpu.A &&& cpu.mem address) }
  let temp_byte := cpu.A
  let cpu := carry_from cpu cpu.A 0x01
  let cpu := { cpu with A := u8 ((cpu.A >>> 1) ||| ((cpu.P &&& FLAG_C) <<< 7)) }
  let temp_result := u8 (temp_byte + (temp_byte &&& 0x0F))
  let cpu := cpu.andNotP FLAG_V
  let cpu := if (temp_result ^^^ cpu.A) &&& 0x40 ≠ 0 then cpu.orP FLAG_V else cpu
  (address, set_zero_and_negative_flags cpu cpu.A)

/-- Body `case 0x8B` (XAA). -/
def op_XAA (ord : EvalOrder) (mode : Mode) (cpu : CPU) : Nat × CPU :=
  let (address, cpu) := get_address ord cpu mode
  let cpu := { cpu with A := u8 (cpu.X &&& cpu.mem address) }
  (address, set_zero_and_negative_flags cpu cpu.A)

/-- Body `case 0xCB` (AXS). -/
def op_AXS (ord : EvalOrder) (mode : Mode) (cpu : CPU) : Nat × CPU :=
  let (address, cpu) := get_address ord cpu mode
  let value := cpu.mem address
  let cpu := { cpu with X := u8i (((cpu.A &&& cpu.X : Nat) : Int) - value) }
  let cpu := cpu.andNotP (FLAG_N ||| FLAG_Z ||| FLAG_C)
  let cpu := if (cpu.A &&& cpu.X) ≥ value then cpu.orP FLAG_C else cpu
  (address, set_zero_and_negative_flags cpu cpu.X)

/-- Bodies of the eight branches: `address = get_address(cpu, AM_REL);` and
`cpu->PC = address` when `P & flag` is non-zero (`wanted = true`) or zero
(`wanted = false`). -/
def op_branch (ord : EvalOrder) (flag : Nat) (wanted : Bool) (cpu : CPU) : Nat × CPU :=
  let (address, cpu) := get_address ord cpu .AM_REL
  if decide (cpu.P &&& flag ≠ 0) = wanted then (address, { cpu with PC := address })
  else (address, cpu)

/-- Bodies `JMP`: `cpu->PC = get_address(cpu, MODE)`. -/
def op_JMP (ord : EvalOrder) (mode : Mode) (cpu : CPU) : Nat × CPU :=
  let (target, cpu) := get_address ord cpu mode
  (0, { cpu with PC := target })

/-- Body `case 0x20` (JSR). -/
def op_JSR (ord : EvalOrder) (cpu : CPU) : Nat × CPU :=
  let cpu := push_byte cpu (cpu.PC >>> 8)
  let cpu := push_byte cpu (cpu.PC &&& 0xFF)
  let (target, cpu) := get_address ord cpu .AM_ABS
  (0, { cpu with PC := target })

/-- Body `case 0x60` (RTS). -/
def op_RTS (cpu : CPU) : Nat × CPU :=
  let (lo, cpu) := pull_byte cpu
  let cpu := { cpu with PC := lo }
  let (hi, cpu) := pull_byte cpu
  let cpu := { cpu with PC := u16 (cpu.PC ||| (hi <<< 8)) }
  (0, { cpu with PC := u16 (cpu.PC + 1) })

/-- Body `case 0x40` (RTI). -/
def op_RTI (cpu : CPU) : Nat × CPU :=
  let (p, cpu) := pull_byte cpu
  let cpu := { cpu with P := p }
  let cpu := cpu.orP 0x20
  let (lo, cpu) := pull_byte cpu
  let cpu := { cpu with PC := lo }
  let (hi, cpu) := pull_byte cpu
  (0, { cpu with PC := u16 (cpu.PC ||| (hi <<< 8)) })

/-- Body `case 0x28` (PLP). -/
def op_PLP (cpu : CPU) : Nat × CPU :=
  let (p, cpu) := pull_byte cpu
  let cpu := { cpu with P := p }
  (0, cpu.orP 0x20)

/-- Body `case 0x68` (PLA). -/
def op_PLA (cpu : CPU) : Nat × CPU :=
  let (a, cpu) := pull_byte cpu
  let cpu := { cpu with A := a }
  (0, set_zero_and_negative_flags cpu cpu.A)

/-- Body `case 0x88` (DEY). -/
def op_DEY (cpu : CPU) : Nat × CPU :=
  let cpu := { cpu with Y := u8i ((cpu.Y : Int) - 1) }
  (0, set_zero_and_negative_flags cpu cpu.Y)

/-- Body `case 0xCA` (DEX). -/
def op_DEX (cpu : CPU) : Nat × CPU :=
  let cpu := { cpu with X := u8i ((cpu.X : Int) - 1) }
  (0, set_zero_and_negative_flags cpu cpu.X)

/-- Body `case 0xC8` (INY). -/
def op_INY (cpu : CPU) : Nat × CPU :=
  let cpu := { cpu with Y := u8 (cpu.Y + 1) }
  (0, set_zero_and_negative_flags cpu cpu.Y)

/-- Body `case 0xE8` (INX). -/
def op_INX (cpu : CPU) : Nat × CPU :=
  let cpu := { cpu with X := u8 (cpu.X + 1) }
  (0, set_zero_and_negative_flags cpu cpu.X)

/-- Body `case 0x8A` (TXA). -/
def op_TXA (cpu : CPU) : Nat × CPU :=
  let cpu := { cpu with A := cpu.X }
  (0, set_zero_and_negative_flags cpu cpu.A)

/-- Body `case 0x98` (TYA). -/
def op_TYA (cpu : CPU) : Nat × CPU :=
  let cpu := { cpu with A := cpu.Y }
  (0, set_zero_and_negative_flags cpu cpu.A)

/-- Body `case 0xA8` (TAY). -/
def op_TAY (cpu : CPU) : Nat × CPU :=
  let cpu := { cpu with Y := cpu.A }
  (0, set_zero_and_negative_flags cpu cpu.Y)

/-- Body `case 0xAA` (TAX). -/
def op_TAX (cpu : CPU) : Nat × CPU :=
  let cpu := { cpu with X := cpu.A }
  (0, set_zero_and_negative_flags cpu cpu.X)

/-- Body `case 0xBA` (TSX). -/
def op_TSX (cpu : CPU) : Nat × CPU :=
  let cpu := { cpu with X := cpu.SP }
  (0, set_zero_and_negative_flags cpu cpu.X)

/-! ## Dispatch -/

/-- The distinct `case` bodies of the switch, with the addressing-mode
constant each label passes to `get_address`. -/
inductive Instr where
  | BRK | KIL | NOP | JSR | RTS | RTI | PHP | PLP | PHA | PLA
  | BPL | BMI | BVC | BVS | BCC | BCS | BNE | BEQ
  | CLC | SEC | CLI | SEI | CLV | CLD | SED
  | DEY | DEX | INY | INX | TXA | TYA | TAY | TAX | TSX | TXS
  | ASL_A | ROL_A | LSR_A | ROR_A
  | NOPm (mode : Mode) | JMP (mode : Mode)
  | ORA (mode : Mode) | AND (mode : Mode) | EOR (mode : Mode)
  | ADC (mode : Mode) | SBC (mode : Mode)
  | CMP (mode : Mode) | CPX (mode : Mode) | CPY (mode : Mode) | BIT (mode : Mode)
  | ASL (mode : Mode) | ROL (mode : Mode) | LSR (mode : Mode) | ROR (mode : Mode)
  | INC (mode : Mode) | DEC (mode : Mode)
  | LDA (mode : Mode) | LDX (mode : Mode) | LDY (mode : Mode)
  | STA (mode : Mode) | STX (mode : Mode) | STY (mode : Mode)
  | SLO (mode : Mode) | RLA (mode : Mode) | SRE (mode : Mode) | RRA (mode : Mode)
  | DCP (mode : Mode) | ISC (mode : Mode) | LAX (mode : Mode) | SAX (mode : Mode)
  | ANC (mode : Mode) | ALR (mode : Mode) | ARR (mode : Mode) | XAA (mode : Mode)
  | AXS (mode : Mode) | LAS (mode : Mode) | AHX (mode : Mode) | TAS (mode : Mode)
  | SHY (mode : Mode) | SHX (mode : Mode)
  | unknown
  deriving Repr

/-- The `case` labels `0x00` to `0x0F` of the switch, each with the body it selects. -/
def case_labels_0x : List (Nat × Instr) :=
  [(0x00, .BRK), (0x01, .ORA .AM_IZX), (0x02, .KIL), (0x03, .SLO .AM_IZX),
   (0x04, .NOPm .AM_ZP), (0x05, .ORA .AM_ZP), (0x06, .ASL .AM_ZP), (0x07, .SLO .AM_ZP),
   (0x08, .PHP), (0x09, .ORA .AM_IMM), (0x0A, .ASL_A), (0x0B, .ANC .AM_IMM),
   (0x0C, .NOPm .AM_ABS), (0x0D, .ORA .AM_ABS), (0x0E, .ASL .AM_ABS), (0x0F, .SLO .AM_ABS)]

/-- The `case` labels `0x10` to `0x1F` of the switch, each with the body it selects. -/
def case_labels_1x : List (Nat × Instr) :=
  [(0x10, .BPL), (0x11, .ORA .AM_IZY), (0x12, .KIL), (0x13, .SLO .AM_IZY),
   (0x14, .NOPm .AM_ZPX), (0x15, .ORA .AM_ZPX), (0x16, .ASL .AM_ZPX), (0x17, .SLO .AM_ZPX),
   (0x18, .CLC), (0x19, .ORA .AM_ABY), (0x1A, .NOP), (0x1B, .SLO .AM_ABY),
   (0x1C, .NOPm .AM_ABX), (0x1D, .ORA .AM_ABX), (0x1E, .ASL .AM_ABX), (0x1F, .SLO .AM_ABX)]

/-- The `case` labels `0x20` to `0x2F` of the switch, each with the body it selects. -/
def case_labels_2x : List (Nat × Instr) :=
  [(0x20, .JSR), (0x21, .AND .AM_IZX), (0x22, .KIL), (0x23, .RLA .AM_IZX),
   (0x24, .BIT .AM_ZP), (0x25, .AND .AM_ZP), (0x26, .ROL .AM_ZP), (0x27, .RLA .AM_ZP),
   (0x28, .PLP), (0x29, .AND .AM_IMM), (0x2A, .ROL_A), (0x2B, .ANC .AM_IMM),
   (0x2C, .BIT .AM_ABS), (0x2D, .AND .AM_ABS), (0x2E, .ROL .AM_ABS), (0x2F, .RLA .AM_ABS)]

/-- The `case` labels `0x30` to `0x3F` of the switch, each with the body it selects. -/
def case_labels_3x : List (Nat × Instr) :=
  [(0x30, .BMI), (0x31, .AND .AM_IZY), (0x32, .KIL), (0x33, .RLA .AM_IZY),
   (0x34, .NOPm .AM_ZPX), (0x35, .AND .AM_ZPX), (0x36, .ROL .AM_ZPX), (0x37, .RLA .AM_ZPX),
   (0x38, .SEC), (0x39, .AND .AM_ABY), (0x3A, .NOP), (0x3B, .RLA .AM_ABY),
   (0x3C, .NOPm .AM_ABX), (0x3D, .AND .AM_ABX), (0x3E, .ROL .AM_ABX), (0x3F, .RLA .AM_ABX)]

/-- The `case` labels `0x40` to `0x4F` of the switch, each with the body it selects. -/
def case_labels_4x : List (Nat × Instr) :=
  [(0x40, .RTI), (0x41, .EOR .AM_IZX), (0x42, .KIL), (0x43, .SRE .AM_IZX),
   (0x44, .NOPm .AM_ZP), (0x45, .EOR .AM_ZP), (0x46, .LSR .AM_ZP), (0x47, .SRE .AM_ZP),
   (0x48, .PHA), (0x49, .EOR .AM_IMM), (0x4A, .LSR_A), (0x4B, .ALR .AM_IMM),
   (0x4C, .JMP .AM_ABS), (0x4D, .EOR .AM_ABS), (0x4E, .LSR .AM_ABS), (0x4F, .SRE .AM_ABS)]

/-- The `case` labels `0x50` to `0x5F` of the switch, each with the body it selects. -/
def case_labels_5x : List (Nat × Instr) :=
  [(0x50, .BVC), (0x51, .EOR .AM_IZY), (0x52, .KIL), (0x53, .SRE .AM_IZY),
   (0x54, .NOPm .AM_ZPX), (0x55, .EOR .AM_ZPX), (0x56, .LSR .AM_ZPX), (0x57, .SRE .AM_ZPX),
   (0x58, .CLI), (0x59, .EOR .AM_ABY), (0x5A, .NOP), (0x5B, .SRE .AM_ABY),
   (0x5C, .NOPm .AM_ABX), (0x5D, .EOR .AM_ABX), (0x5E, .LSR .AM_ABX), (0x5F, .SRE .AM_ABX)]

/-- The `case` labels `0x60` to `0x6F` of the switch, each with the body it selects. -/
def case_labels_6x : List (Nat × Instr) :=
  [(0x60, .RTS), (0x61, .ADC .AM_IZX), (0x62, .KIL), (0x63, .RRA .AM_IZX),
   (0x64, .NOPm .AM_ZP), (0x65, .ADC .AM_ZP), (0x66, .ROR .AM_ZP), (0x67, .RRA .AM_ZP),
   (0x68, .PLA), (0x69, .ADC .AM_IMM), (0x6A, .ROR_A), (0x6B, .ARR .AM_IMM),
   (0x6C, .JMP .AM_IND), (0x6D, .ADC .AM_ABS), (0x6E, .ROR .AM_ABS), (0x6F, .RRA .AM_ABS)]

/-- The `case` labels `0x70` to `0x7F` of the switch, each with the body it selects. -/
def case_labels_7x : List (Nat × Instr) :=
  [(0x70, .BVS), (0x71, .ADC .AM_IZY), (0x72, .KIL), (0x73, .RRA .AM_IZY),
   (0x74, .NOPm .AM_ZPX), (0x75, .ADC .AM_ZPX), (0x76, .ROR .AM_ZPX), (0x77, .RRA .AM_ZPX),
   (0x78, .SEI), (0x79, .ADC .AM_ABY), (0x7A, .NOP), (0x7B, .RRA .AM_ABY),
   (0x7C, .NOPm .AM_ABX), (0x7D, .ADC .AM_ABX), (0x7E, .ROR .AM_ABX), (0x7F, .RRA .AM_ABX)]

/-- The `case` labels `0x80` to `0x8F` of the switch, each with the body it selects. -/
def case_labels_8x : List (Nat × Instr) :=
  [(0x80, .NOPm .AM_IMM), (0x81, .STA .AM_IZX), (0x82, .NOPm .AM_IMM), (0x83, .SAX .AM_IZX),
   (0x84, .STY .AM_ZP), (0x85, .STA .AM_ZP), (0x86, .STX .AM_ZP), (0x87, .SAX .AM_ZP),
   (0x88, .DEY), (0x8A, .TXA), (0x8B, .XAA .AM_IMM), (0x8C, .STY .AM_ABS),
   (0x8D, .STA .AM_ABS), (0x8E, .STX .AM_ABS), (0x8F, .SAX .AM_ABS)]

/-- The `case` labels `0x90` to `0x9F` of the switch, each with the body it selects. -/
def case_labels_9x : List (Nat × Instr) :=
  [(0x90, .BCC), (0x91, .STA .AM_IZY), (0x92, .KIL), (0x93, .AHX .AM_IZY),
   (0x94, .STY .AM_ZPX), (0x95, .STA .AM_ZPX), (0x96, .STX .AM_ZPY), (0x97, .SAX .AM_ZPY),
   (0x98, .TYA), (0x99, .STA .AM_ABY), (0x9A, .TXS), (0x9B, .TAS .AM_ABY),
   (0x9C, .SHY .AM_ABX), (0x9D, .STA .AM_ABX), (0x9E, .SHX .AM_ABY), (0x9F, .AHX .AM_ABY)]

/-- The `case` labels `0xA0` to `0xAF` of the switch, each with the body it selects. -/
def case_labels_Ax : List (Nat × Instr) :=
  [(0xA0, .LDY .AM_IMM), (0xA1, .LDA .AM_IZX), (0xA2, .LDX .AM_IMM), (0xA3, .LAX .AM_IZX),
   (0xA4, .LDY .AM_ZP), (0xA5, .LDA .AM_ZP), (0xA6, .LDX .AM_ZP), (0xA7, .LAX .AM_ZP),
   (0xA8, .TAY), (0xA9, .LDA .AM_IMM), (0xAA, .TAX), (0xAB, .LAX .AM_IMM),
   (0xAC, .LDY .AM_ABS), (0xAD, .LDA .AM_ABS), (0xAE, .LDX .AM_ABS), (0xAF, .LAX .AM_ABS)]

/-- The `case` labels `0xB0` to `0xBF` of the switch, each with the body it selects. -/
def case_labels_Bx : List (Nat × Instr) :=
  [(0xB0, .BCS), (0xB1, .LDA .AM_IZY), (0xB2, .KIL), (0xB3, .LAX .AM_IZY),
   (0xB4, .LDY .AM_ZPX), (0xB5, .LDA .AM_ZPX), (0xB6, .LDX .AM_ZPY), (0xB7, .LAX .AM_ZPY),
   (0xB8, .CLV), (0xB9, .LDA .AM_ABY), (0xBA, .TSX), (0xBB, .LAS .AM_ABY),
   (0xBC, .LDY .AM_ABX), (0xBD, .LDA .AM_ABX), (0xBE, .LDX .AM_ABY), (0xBF, .LAX .AM_ABY)]

/-- The `case` labels `0xC0` to `0xCF` of the switch, each with the body it selects. -/
def case_labels_Cx : List (Nat × Instr) :=
  [(0xC0, .CPY .AM_IMM), (0xC1, .CMP .AM_IZX), (0xC2, .NOPm .AM_IMM), (0xC3, .DCP .AM_IZX),
   (0xC4, .CPY .AM_ZP), (0xC5, .CMP .AM_ZP), (0xC6, .DEC .AM_ZP), (0xC7, .DCP .AM_ZP),
   (0xC8, .INY), (0xC9, .CMP .AM_IMM), (0xCA, .DEX), (0xCB, .AXS .AM_IMM),
   (0xCC, .CPY .AM_ABS), (0xCD, .CMP .AM_ABS), (0xCE, .DEC .AM_ABS), (0xCF, .DCP .AM_ABS)]

/-- The `case` labels `0xD0` to `0xDF` of the switch, each with the body it selects. -/
def case_labels_Dx : List (Nat × Instr) :=
  [(0xD0, .BNE), (0xD1, .CMP .AM_IZY), (0xD2, .KIL), (0xD3, .DCP .AM_IZY),
   (0xD4, .NOPm .AM_ZPX), (0xD5, .CMP .AM_ZPX), (0xD6, .DEC .AM_ZPX), (0xD7, .DCP .AM_ZPX),
   (0xD8, .CLD), (0xD9, .CMP .AM_ABY), (0xDA, .NOP), (0xDB, .DCP .AM_ABY),
   (0xDC, .NOPm .AM_ABX), (0xDD, .CMP .AM_ABX), (0xDE, .DEC .AM_ABX), (0xDF, .DCP .AM_ABX)]

/-- The `case` labels `0xE0` to `0xEF` of the switch, each with the body it selects. -/
def case_labels_Ex : List (Nat × Instr) :=
  [(0xE0, .CPX .AM_IMM), (0xE1, .SBC .AM_IZX), (0xE2, .NOPm .AM_IMM), (0xE3, .ISC .AM_IZX),
   (0xE4, .CPX .AM_ZP), (0xE5, .SBC .AM_ZP), (0xE6, .INC .AM_ZP), (0xE7, .ISC .AM_ZP),
   (0xE8, .INX), (0xE9, .SBC .AM_IMM), (0xEA, .NOP), (0xEB, .SBC .AM_IMM),
   (0xEC, .CPX .AM_ABS), (0xED, .SBC .AM_ABS), (0xEE, .INC .AM_ABS), (0xEF, .ISC .AM_ABS)]

/-- The `case` labels `0xF0` to `0xFF` of the switch, each with the body it selects. -/
def case_labels_Fx : List (Nat × Instr) :=
  [(0xF0, .BEQ), (0xF1, .SBC .AM_IZY), (0xF2, .KIL), (0xF3, .ISC .AM_IZY),
   (0xF4, .NOPm .AM_ZPX), (0xF5, .SBC .AM_ZPX), (0xF6, .INC .AM_ZPX), (0xF7, .ISC .AM_ZPX),
   (0xF8, .SED), (0xF9, .SBC .AM_ABY), (0xFA, .NOP), (0xFB, .ISC .AM_ABY),
   (0xFC, .NOPm .AM_ABX), (0xFD, .SBC .AM_ABX), (0xFE, .INC .AM_ABX), (0xFF, .ISC .AM_ABX)]

/-- The `case` labels of the switch in `execute_instruction`, in source order. -/
def case_labels : List (Nat × Instr) :=
  case_labels_0x ++ case_labels_1x ++ case_labels_2x ++ case_labels_3x ++
  case_labels_4x ++ case_labels_5x ++ case_labels_6x ++ case_labels_7x ++
  case_labels_8x ++ case_labels_9x ++ case_labels_Ax ++ case_labels_Bx ++
  case_labels_Cx ++ case_labels_Dx ++ case_labels_Ex ++ case_labels_Fx

/-- The switch on the opcode byte: the body of the label equal to the byte, and
`default` for a byte without a label. -/
def decode (opcode : Nat) : Instr :=
  (case_labels.lookup opcode).getD .unknown

/-- Run the body an opcode selected. -/
def exec (ord : EvalOrder) (opcode : Nat) (i : Instr) (cpu : CPU) : Nat × CPU :=
  match i with
  | .BRK => op_BRK cpu
  | .KIL => op_KIL cpu
  | .NOP => (0, cpu)
  | .JSR => op_JSR ord cpu
  | .RTS => op_RTS cpu
  | .RTI => op_RTI cpu
  | .PHP => (0, push_byte cpu cpu.P)
  | .PLP => op_PLP cpu
  | .PHA => (0, push_byte cpu cpu.A)
  | .PLA => op_PLA cpu
  | .BPL => op_branch ord FLAG_N false cpu
  | .BMI => op_branch ord FLAG_N true cpu
  | .BVC => op_branch ord FLAG_V false cpu
  | .BVS => op_branch ord FLAG_V true cpu
  | .BCC => op_branch ord FLAG_C false cpu
  | .BCS => op_branch ord FLAG_C true cpu
  | .BNE => op_branch ord FLAG_Z false cpu
  | .BEQ => op_branch ord FLAG_Z true cpu
  | .CLC => (0, cpu.andNotP FLAG_C)
  | .SEC => (0, cpu.orP FLAG_C)
  | .CLI => (0, cpu.andNotP FLAG_I)
  | .SEI => (0, cpu.orP FLAG_I)
  | .CLV => (0, cpu.andNotP FLAG_V)
  | .CLD => (0, cpu.andNotP FLAG_D)
  | .SED => (0, cpu.orP FLAG_D)
  | .DEY => op_DEY cpu
  | .DEX => op_DEX cpu
  | .INY => op_INY cpu
  | .INX => op_INX cpu
  | .TXA => op_TXA cpu
  | .TYA => op_TYA cpu
  | .TAY => op_TAY cpu
  | .TAX => op_TAX cpu
  | .TSX => op_TSX cpu
  | .TXS => (0, { cpu with SP := cpu.X })
  | .ASL_A => op_ASL_A cpu
  | .ROL_A => op_ROL_A cpu
  | .LSR_A => op_LSR_A cpu
  | .ROR_A => op_ROR_A cpu
  | .NOPm mode => op_NOP_mode ord mode cpu
  | .JMP mode => op_JMP ord mode cpu
  | .ORA mode => op_ORA ord mode cpu
  | .AND mode => op_AND ord mode cpu
  | .EOR mode => op_EOR ord mode cpu
  | .ADC mode => op_ADC ord mode cpu
  | .SBC mode => op_SBC ord mode cpu
  | .CMP mode => op_CMP ord mode cpu
  | .CPX mode => op_CPX ord mode cpu
  | .CPY mode => op_CPY ord mode cpu
  | .BIT mode => op_BIT ord mode cpu
  | .ASL mode => op_ASL ord mode cpu
  | .ROL mode => op_ROL ord mode cpu
  | .LSR mode => op_LSR ord mode cpu
  | .ROR mode => op_ROR ord mode cpu
  | .INC mode => op_INC ord mode cpu
  | .DEC mode => op_DEC ord mode cpu
  | .LDA mode => op_LDA ord mode cpu
  | .LDX mode => op_LDX ord mode cpu
  | .LDY mode => op_LDY ord mode cpu
  | .STA mode => op_STA ord mode cpu
  | .STX mode => op_STX ord mode cpu
  | .STY mode => op_STY ord mode cpu
  | .SLO mode => op_SLO ord mode cpu
  | .RLA mode => op_RLA ord mode cpu
  | .SRE mode => op_SRE ord mode cpu
  | .RRA mode => op_RRA ord mode cpu
  | .DCP mode => op_DCP ord mode cpu
  | .ISC mode => op_ISC ord mode cpu
  | .LAX mode => op_LAX ord mode cpu
  | .SAX mode => op_SAX ord mode cpu
  | .ANC mode => op_ANC ord mode cpu
  | .ALR mode => op_ALR ord mode cpu
  | .ARR mode => op_ARR ord mode cpu
  | .XAA mode => op_XAA ord mode cpu
  | .AXS mode => op_AXS ord mode cpu
  | .LAS mode => op_LAS ord mode cpu
  | .AHX mode => op_AHX ord mode cpu
  | .TAS mode => op_TAS ord mode cpu
  | .SHY mode => op_SHY ord mode cpu
  | .SHX mode => op_SHX ord mode cpu
  | .unknown => op_unknown opcode cpu

/-- The framebuffer lines that close `execute_instruction`:
`pixels[address - 0x200] = palette[cpu->mem[address]]` when `address` lies in
the window.  The table index is the memory byte itself; an index past the end
of the table has no defined value and leaves `none` in the pixel. -/
def framebuffer_shim (address : Nat) (cpu : CPU) : CPU :=
  if address ≥ 0x200 ∧ address < 0x200 + SCREEN_WIDTH * SCREEN_HEIGHT then
    { cpu with pixels := fun i => if i = address - 0x200 then palette[cpu.mem address]? else cpu.pixels i }
  else cpu

/-- Source `execute_instruction`: fetch the opcode, run the body its `case`
label selects, then the framebuffer lines. -/
def execute_instruction (ord : EvalOrder) (cpu : CPU) : CPU :=
  let (opcode, cpu) := fetch_byte cpu
  let (address, cpu) := exec ord opcode (decode opcode) cpu
  framebuffer_shim address cpu

/-! ## Definitions used by the theorems

The value each flag routine leaves in `P` as a function of the old `P` (proved
equal to the routine further down), the opcode lists the statements range over,
and the concrete machines the statements are evaluated on. -/

/-- The value `set_zero_and_negative_flags` leaves in `P`. -/
def snzP (p v : Nat) : Nat :=
  let p := u8 (p &&& cnot (FLAG_N ||| FLAG_Z))
  let p := if v = 0 then u8 (p ||| FLAG_Z) else p
  if v &&& 0x80 ≠ 0 then u8 (p ||| FLAG_N) else p

/-- The value the ADC tail leaves in `P`, from the old `P`, `A` and the operand. -/
def adcP (p a v : Nat) : Nat :=
  let result := u16 (a + v + (if p &&& FLAG_C ≠ 0 then 1 else 0))
  let p := u8 (p &&& cnot (FLAG_N ||| FLAG_V ||| FLAG_Z ||| FLAG_C))
  let p := if result &&& 0x100 ≠ 0 then u8 (p ||| FLAG_C) else p
  let p := if (a ^^^ result) &&& (v ^^^ result) &&& 0x80 ≠ 0 then u8 (p ||| FLAG_V) else p
  snzP p (u8 (result &&& 0xFF))

/-- A machine with `ADC #$50` at `0x8000`, accumulator `0x50`, carry clear. -/
def adcDemo : CPU :=
  { A := 0x50, X := 0, Y := 0, SP := 0xFF, PC := 0x8000, P := 0x20,
    mem := fun a => if a = 0x8000 then 0x69 else if a = 0x8001 then 0x50 else 0,
    pixels := fun _ => some 0, keyboard_input := 0, rand_seq := fun _ => 0, rand_calls := 0,
    out := [] }

/-- The value the SBC tail leaves in `P`, from the old `P`, `A` and the operand. -/
def sbcP (p a v : Nat) : Nat :=
  let result := u16i ((a : Int) - v - (if p &&& FLAG_C ≠ 0 then 0 else 1))
  let p := u8 (p &&& cnot (FLAG_N ||| FLAG_V ||| FLAG_Z ||| FLAG_C))
  let p := if ¬ (result &&& 0x100 ≠ 0) then u8 (p ||| FLAG_C) else p
  let p := if (a ^^^ result) &&& (cnot v ^^^ result) &&& 0x80 ≠ 0 then u8 (p ||| FLAG_V) else p
  snzP p (u8 (result &&& 0xFF))

/-- A machine with `SBC #$F0` at `0x8000`, accumulator `0x50`, carry set. -/
def sbcDemo : CPU :=
  { A := 0x50, X := 0, Y := 0, SP := 0xFF, PC := 0x8000, P := 0x21,
    mem := fun a => if a = 0x8000 then 0xE9 else if a = 0x8001 then 0xF0 else 0,
    pixels := fun _ => some 0, keyboard_input := 0, rand_seq := fun _ => 0, rand_calls := 0,
    out := [] }

/-- A machine with `ADC #$50 ; SBC #$50` at `0x8000`, accumulator `0x50`, carry clear. -/
def roundTripDemo : CPU :=
  { A := 0x50, X := 0, Y := 0, SP := 0xFF, PC := 0x8000, P := 0x20,
    mem := fun a => if a = 0x8000 then 0x69 else if a = 0x8001 then 0x50
      else if a = 0x8002 then 0xE9 else if a = 0x8003 then 0x50 else 0,
    pixels := fun _ => some 0, keyboard_input := 0, rand_seq := fun _ => 0, rand_calls := 0,
    out := [] }

/-- The machine `roundTripDemo` after its `ADC #$50`, with the carry set by hand
(as `SEC` would) before the `SBC #$50`. -/
def roundTripDemoSec : CPU :=
  { A := 0xA0, X := 0, Y := 0, SP := 0xFF, PC := 0x8002, P := 0xE1,
    mem := fun a => if a = 0x8000 then 0x69 else if a = 0x8001 then 0x50
      else if a = 0x8002 then 0xE9 else if a = 0x8003 then 0x50 else 0,
    pixels := fun _ => some 0, keyboard_input := 0, rand_seq := fun _ => 0, rand_calls := 0,
    out := [] }

/-- A machine with `JSR $9000` at `0x8000` and `RTS` at `0x9000`, after reset
values `SP = 0xFF`, `P = 0x20`. -/
def jsrDemo : CPU :=
  { A := 0, X := 0, Y := 0, SP := 0xFF, PC := 0x8000, P := 0x20,
    mem := fun a => if a = 0x8000 then 0x20 else if a = 0x8001 then 0x00
      else if a = 0x8002 then 0x90 else if a = 0x9000 then 0x60 else 0,
    pixels := fun _ => some 0, keyboard_input := 0, rand_seq := fun _ => 0, rand_calls := 0,
    out := [] }

/-- A machine with `BRK` at `0x8000` and the IRQ/BRK vector set to `0x9000`. -/
def brkDemo : CPU :=
  { A := 0, X := 0, Y := 0, SP := 0xFF, PC := 0x8000, P := 0x20,
    mem := fun a => if a = 0x8000 then 0x00 else if a = 0xFFFE then 0x00
      else if a = 0xFFFF then 0x90 else 0,
    pixels := fun _ => some 0, keyboard_input := 0, rand_seq := fun _ => 0, rand_calls := 0,
    out := [] }

/-- A machine with `JMP ($30FF)` at `0x8000`, `0x34` at `0x30FF`, `0x12` at
`0x3000` and `0x77` at `0x3100`. -/
def jmpIndDemo : CPU :=
  { A := 0, X := 0, Y := 0, SP := 0xFF, PC := 0x8000, P := 0x20,
    mem := fun a => if a = 0x8000 then 0x6C else if a = 0x8001 then 0xFF
      else if a = 0x8002 then 0x30 else if a = 0x30FF then 0x34
      else if a = 0x3000 then 0x12 else if a = 0x3100 then 0x77 else 0,
    pixels := fun _ => some 0, keyboard_input := 0, rand_seq := fun _ => 0, rand_calls := 0,
    out := [] }

/-- The eight branch opcodes with the flag each tests and whether it branches
when the flag is set (`true`) or clear (`false`): BPL, BMI, BVC, BVS, BCC, BCS,
BNE, BEQ. -/
def branch_opcodes : List (Nat × Nat × Bool) :=
  [(0x10, FLAG_N, false), (0x30, FLAG_N, true), (0x50, FLAG_V, false), (0x70, FLAG_V, true),
   (0x90, FLAG_C, false), (0xB0, FLAG_C, true), (0xD0, FLAG_Z, false), (0xF0, FLAG_Z, true)]

/-- A machine with `BEQ +4` at `0x8002` and `Z` set. -/
def beqDemo : CPU :=
  { A := 0, X := 0, Y := 0, SP := 0xFF, PC := 0x8002, P := 0x22,
    mem := fun a => if a = 0x8000 then 0xA9 else if a = 0x8001 then 0x00
      else if a = 0x8002 then 0xF0 else if a = 0x8003 then 0x04 else 0,
    pixels := fun _ => some 0, keyboard_input := 0, rand_seq := fun _ => 0, rand_calls := 0,
    out := [] }

/-- Whether an opcode byte falls to the `default` label. -/
def Instr.isUnknown : Instr → Bool
  | Instr.unknown => true
  | _ => false

/-- The twelve KIL opcodes. -/
def kil_opcodes : List Nat :=
  [0x02, 0x12, 0x22, 0x32, 0x42, 0x52, 0x62, 0x72, 0x92, 0xB2, 0xD2, 0xF2]

/-- A machine with the bytes `0x89 0x00` (the immediate-mode NOP of the 6502)
at `0x8000`. -/
def nop89Demo : CPU :=
  { A := 0, X := 0, Y := 0, SP := 0xFF, PC := 0x8000, P := 0x20,
    mem := fun a => if a = 0x8000 then 0x89 else 0,
    pixels := fun _ => some 0, keyboard_input := 0, rand_seq := fun _ => 0, rand_calls := 0,
    out := [] }

/-- A machine with the KIL opcode `0x02` at `0x8000`. -/
def kilDemo : CPU :=
  { A := 0x11, X := 0x22, Y := 0x33, SP := 0xFF, PC := 0x8000, P := 0x20,
    mem := fun a => if a = 0x8000 then 0x02 else 0,
    pixels := fun _ => some 0, keyboard_input := 0, rand_seq := fun _ => 0, rand_calls := 0,
    out := [] }

/-- A machine with `P = 0x61` (V, bit 5 and C set), for the flag routine. -/
def snzDemo : CPU :=
  { A := 0, X := 0, Y := 0, SP := 0xFF, PC := 0x8000, P := 0x61,
    mem := fun _ => 0,
    pixels := fun _ => some 0, keyboard_input := 0, rand_seq := fun _ => 0, rand_calls := 0,
    out := [] }

/-- A machine with `SP = 0x00`, for the stack helpers at the wrap. -/
def stackDemo : CPU :=
  { A := 0, X := 0, Y := 0, SP := 0x00, PC := 0x8000, P := 0x20,
    mem := fun a => if a = 0x0101 then 0x77 else 0,
    pixels := fun _ => some 0, keyboard_input := 0, rand_seq := fun _ => 0, rand_calls := 0,
    out := [] }

/-- A machine with `RTI` at `0x8000`, `SP = 0xFC` and the bytes `0xC1`, `0x34`,
`0x12` on the stack. -/
def rtiDemo : CPU :=
  { A := 0, X := 0, Y := 0, SP := 0xFC, PC := 0x8000, P := 0x20,
    mem := fun a => if a = 0x8000 then 0x40 else if a = 0x01FD then 0xC1
      else if a = 0x01FE then 0x34 else if a = 0x01FF then 0x12 else 0,
    pixels := fun _ => some 0, keyboard_input := 0, rand_seq := fun _ => 0, rand_calls := 0,
    out := [] }

/-- A machine with `PHP` at `0x8000` and `P = 0x20`, as after reset. -/
def phpDemo : CPU :=
  { A := 0, X := 0, Y := 0, SP := 0xFF, PC := 0x8000, P := 0x20,
    mem := fun a => if a = 0x8000 then 0x08 else 0,
    pixels := fun _ => some 0, keyboard_input := 0, rand_seq := fun _ => 0, rand_calls := 0,
    out := [] }

/-- A machine with `STA $0205` at `0x8000` and the given accumulator. -/
def staFbDemo (a : Nat) : CPU :=
  { A := a, X := 0, Y := 0, SP := 0xFF, PC := 0x8000, P := 0x20,
    mem := fun x => if x = 0x8000 then 0x8D else if x = 0x8001 then 0x05
      else if x = 0x8002 then 0x02 else 0,
    pixels := fun _ => some 0, keyboard_input := 0, rand_seq := fun _ => 0, rand_calls := 0,
    out := [] }

/-- The operand byte count of each addressing mode. -/
def operand_bytes : Mode → Nat
  | Mode.AM_IMM => 1 | Mode.AM_ZP => 1 | Mode.AM_ZPX => 1 | Mode.AM_ZPY => 1
  | Mode.AM_IZX => 1 | Mode.AM_IZY => 1 | Mode.AM_REL => 1
  | Mode.AM_ABS => 2 | Mode.AM_ABX => 2 | Mode.AM_ABY => 2 | Mode.AM_IND => 2
  | Mode.AM_IMP => 0

/-- The bodies that assign `cpu->PC` (jumps, calls and returns, the branches,
`BRK`, `KIL` and the `default` label). -/
def Instr.loadsPC : Instr → Bool
  | Instr.BRK | Instr.KIL | Instr.JSR | Instr.RTS | Instr.RTI | Instr.JMP _
  | Instr.BPL | Instr.BMI | Instr.BVC | Instr.BVS | Instr.BCC | Instr.BCS | Instr.BNE
  | Instr.BEQ | Instr.unknown => true
  | _ => false

/-- The addressing-mode constant a body passes to `get_address`, `AM_IMP` for a
body that does not call it. -/
def Instr.mode : Instr → Mode
  | Instr.NOPm m | Instr.JMP m | Instr.ORA m | Instr.AND m | Instr.EOR m | Instr.ADC m
  | Instr.SBC m | Instr.CMP m | Instr.CPX m | Instr.CPY m | Instr.BIT m | Instr.ASL m
  | Instr.ROL m | Instr.LSR m | Instr.ROR m | Instr.INC m | Instr.DEC m | Instr.LDA m
  | Instr.LDX m | Instr.LDY m | Instr.STA m | Instr.STX m | Instr.STY m | Instr.SLO m
  | Instr.RLA m | Instr.SRE m | Instr.RRA m | Instr.DCP m | Instr.ISC m | Instr.LAX m
  | Instr.SAX m | Instr.ANC m | Instr.ALR m | Instr.ARR m | Instr.XAA m | Instr.AXS m
  | Instr.LAS m | Instr.AHX m | Instr.TAS m | Instr.SHY m | Instr.SHX m => m
  | _ => Mode.AM_IMP

/-- A machine with `LDA $40` at `0x8000`. -/
def ldaZpDemo : CPU :=
  { A := 0, X := 0, Y := 0, SP := 0xFF, PC := 0x8000, P := 0x20,
    mem := fun a => if a = 0x8000 then 0xA5 else if a = 0x8001 then 0x40
      else if a = 0x0040 then 0x99 else 0,
    pixels := fun _ => some 0, keyboard_input := 0, rand_seq := fun _ => 0, rand_calls := 0,
    out := [] }

/-- A machine with `PLP` at `0x8000` and the byte `0x00` next on the stack. -/
def plpDemo : CPU :=
  { A := 0, X := 0, Y := 0, SP := 0xFE, PC := 0x8000, P := 0x20,
    mem := fun a => if a = 0x8000 then 0x28 else 0,
    pixels := fun _ => some 0, keyboard_input := 0, rand_seq := fun _ => 0, rand_calls := 0,
    out := [] }

/-- The value the compare tail leaves in `P`, from the old `P`, the register
value and the operand. -/
def cmpP (p r v : Nat) : Nat :=
  let p := u8 (p &&& cnot (FLAG_N ||| FLAG_Z ||| FLAG_C))
  let p := if r ≥ v then u8 (p ||| FLAG_C) else p
  snzP p (u8i ((r : Int) - v))

/-- A machine with `CPX #$30` at `0x8000`, `X = 0x20` and `V` set. -/
def cpxDemo : CPU :=
  { A := 0x11, X := 0x20, Y := 0x33, SP := 0xFF, PC := 0x8000, P := 0x61,
    mem := fun a => if a = 0x8000 then 0xE0 else if a = 0x8001 then 0x30 else 0,
    pixels := fun _ => some 0, keyboard_input := 0, rand_seq := fun _ => 0, rand_calls := 0,
    out := [] }

/-- A machine with `LDA #M ; STA $40 ; LDA #0 ; ORA $40` at `0x8000`. -/
def progDemo (M : Nat) : CPU :=
  { A := 0x55, X := 0, Y := 0, SP := 0xFF, PC := 0x8000, P := 0x20,
    mem := fun a => if a = 0x8000 then 0xA9 else if a = 0x8001 then M
      else if a = 0x8002 then 0x85 else if a = 0x8003 then 0x40
      else if a = 0x8004 then 0xA9 else if a = 0x8005 then 0x00
      else if a = 0x8006 then 0x05 else if a = 0x8007 then 0x40 else 0,
    pixels := fun _ => some 0, keyboard_input := 0, rand_seq := fun _ => 0, rand_calls := 0,
    out := [] }

/-- A machine with `LDA z` (zero page) at `0x8000`, distinct bytes at `0x00FE`
and `0x00FF`, and other values in the keyboard latch and the random source. -/
def ldaPortDemo (z : Nat) : CPU :=
  { A := 0, X := 0, Y := 0, SP := 0xFF, PC := 0x8000, P := 0x20,
    mem := fun a => if a = 0x8000 then 0xA5 else if a = 0x8001 then z
      else if a = 0x00FE then 0x42 else if a = 0x00FF then 0x43 else 0,
    pixels := fun _ => some 0, keyboard_input := 0x99, rand_seq := fun _ => 0x77,
    rand_calls := 0, out := [] }

/-- A machine about to resolve a zero-page operand `0xF0` at `0x8001`, with
`X = 0x0F`, `Y = 0x30` and a pointer stored across the end of the zero page. -/
def zpDemo : CPU :=
  { A := 0, X := 0x0F, Y := 0x30, SP := 0xFF, PC := 0x8001, P := 0x20,
    mem := fun a => if a = 0x8001 then 0xF0 else if a = 0x00FF then 0x34
      else if a = 0x0000 then 0x12 else if a = 0x0100 then 0x56
      else if a = 0x00F0 then 0xF0 else if a = 0x00F1 then 0xFF else 0,
    pixels := fun _ => some 0, keyboard_input := 0, rand_seq := fun _ => 0, rand_calls := 0,
    out := [] }

/-- A machine about to resolve the zero-page operand `0xFF` at `0x8001`, with
`Y = 0x30` and a pointer stored across the end of the zero page. -/
def izyDemo : CPU :=
  { A := 0, X := 0, Y := 0x30, SP := 0xFF, PC := 0x8001, P := 0x20,
    mem := fun a => if a = 0x8001 then 0xFF else if a = 0x00FF then 0xF0
      else if a = 0x0000 then 0xFF else if a = 0x0100 then 0x56 else 0,
    pixels := fun _ => some 0, keyboard_input := 0, rand_seq := fun _ => 0, rand_calls := 0,
    out := [] }

/-- The value `carry_from` leaves in `P`. -/
def carryP (p v bit : Nat) : Nat :=
  let p := u8 (p &&& cnot FLAG_C)
  if v &&& bit ≠ 0 then u8 (p ||| FLAG_C) else p

/-- A machine with `RLA $10` at `0x8000`, `mem[0x10] = 0x81`, `A = 0x0F`, carry clear. -/
def rlaDemo : CPU :=
  { A := 0x0F, X := 0, Y := 0, SP := 0xFF, PC := 0x8000, P := 0x20,
    mem := fun a => if a = 0x8000 then 0x27 else if a = 0x8001 then 0x10
      else if a = 0x0010 then 0x81 else 0,
    pixels := fun _ => some 0, keyboard_input := 0, rand_seq := fun _ => 0, rand_calls := 0,
    out := [] }

/-- A machine with `RRA $10` at `0x8000`, `mem[0x10] = 0x03`, `A = 0x10`, carry set. -/
def rraDemo : CPU :=
  { A := 0x10, X := 0, Y := 0, SP := 0xFF, PC := 0x8000, P := 0x21,
    mem := fun a => if a = 0x8000 then 0x67 else if a = 0x8001 then 0x10
      else if a = 0x0010 then 0x03 else 0,
    pixels := fun _ => some 0, keyboard_input := 0, rand_seq := fun _ => 0, rand_calls := 0,
    out := [] }

/-- A machine with `DCP $10` at `0x8000`, `mem[0x10] = 0x00`, `A = 0x40`, `V` set. -/
def dcpDemo : CPU :=
  { A := 0x40, X := 0, Y := 0, SP := 0xFF, PC := 0x8000, P := 0x60,
    mem := fun a => if a = 0x8000 then 0xC7 else if a = 0x8001 then 0x10
      else if a = 0x0010 then 0x00 else 0,
    pixels := fun _ => some 0, keyboard_input := 0, rand_seq := fun _ => 0, rand_calls := 0,
    out := [] }

/-- A machine with `ISC $10` at `0x8000`, `mem[0x10] = 0xFF`, `A = 0x50`, carry set. -/
def iscDemo : CPU :=
  { A := 0x50, X := 0, Y := 0, SP := 0xFF, PC := 0x8000, P := 0x21,
    mem := fun a => if a = 0x8000 then 0xE7 else if a = 0x8001 then 0x10
      else if a = 0x0010 then 0xFF else 0,
    pixels := fun _ => some 0, keyboard_input := 0, rand_seq := fun _ => 0, rand_calls := 0,
    out := [] }

/-- A machine with `ARR #imm` at `0x8000`, accumulator `a` and status `p`. -/
def arrDemo (a imm p : Nat) : CPU :=
  { A := a, X := 0, Y := 0, SP := 0xFF, PC := 0x8000, P := p,
    mem := fun b => if b = 0x8000 then 0x6B else if b = 0x8001 then imm else 0,
    pixels := fun _ => some 0, keyboard_input := 0, rand_seq := fun _ => 0, rand_calls := 0,
    out := [] }

/-- A machine with `AXS #$03` at `0x8000`, `A = 0xFF`, `X = 0x05`, carry clear. -/
def axsDemo : CPU :=
  { A := 0xFF, X := 0x05, Y := 0, SP := 0xFF, PC := 0x8000, P := 0x20,
    mem := fun b => if b = 0x8000 then 0xCB else if b = 0x8001 then 0x03 else 0,
    pixels := fun _ => some 0, keyboard_input := 0, rand_seq := fun _ => 0, rand_calls := 0,
    out := [] }

/-- A machine with the three bytes `op 10 50` at `0x8000` and the pointer
`0x5010` stored at `0x0010`, so that the absolute modes and `AM_IZY` with a
zero index all resolve to `0x5010`. -/
def shDemo (op a x y : Nat) : CPU :=
  { A := a, X := x, Y := y, SP := 0x80, PC := 0x8000, P := 0x20,
    mem := fun b => if b = 0x8000 then op else if b = 0x8001 then 0x10
      else if b = 0x8002 then 0x50 else if b = 0x0010 then 0x10
      else if b = 0x0011 then 0x50 else 0,
    pixels := fun _ => some 0, keyboard_input := 0, rand_seq := fun _ => 0, rand_calls := 0,
    out := [] }

/-- A machine with `STX $1234` at `0x8000`, distinct registers and flags set. -/
def stxDemo : CPU :=
  { A := 0x11, X := 0x22, Y := 0x33, SP := 0xF0, PC := 0x8000, P := 0xE3,
    mem := fun b => if b = 0x8000 then 0x8E else if b = 0x8001 then 0x34
      else if b = 0x8002 then 0x12 else 0,
    pixels := fun _ => some 0, keyboard_input := 0, rand_seq := fun _ => 0, rand_calls := 0,
    out := [] }

/-- A machine with `PHA ; PLA` at `0x8000` and `SP = 0x00`. -/
def phaPlaDemo : CPU :=
  { A := 0xAB, X := 0, Y := 0, SP := 0x00, PC := 0x8000, P := 0x20,
    mem := fun b => if b = 0x8000 then 0x48 else if b = 0x8001 then 0x68 else 0,
    pixels := fun _ => some 0, keyboard_input := 0, rand_seq := fun _ => 0, rand_calls := 0,
    out := [] }

/-- The value the BIT body leaves in `P`, from the old `P`, `A` and the operand. -/
def bitP (p a v : Nat) : Nat :=
  let p := u8 (p &&& cnot (FLAG_N ||| FLAG_V ||| FLAG_Z))
  let p := if v &&& FLAG_N ≠ 0 then u8 (p ||| FLAG_N) else p
  let p := if v &&& FLAG_V ≠ 0 then u8 (p ||| FLAG_V) else p
  if ¬ (a &&& v ≠ 0) then u8 (p ||| FLAG_Z) else p

/-- The value the ANC body leaves in `P`, from the old `P` and the new `A`. -/
def ancP (p a : Nat) : Nat :=
  snzP (if a &&& 0x80 ≠ 0 then u8 (p ||| FLAG_C) else u8 (p &&& cnot FLAG_C)) a

/-- A machine with `ANC #$F0` at `0x8000` and `A = 0x8F`, carry clear. -/
def ancDemo : CPU :=
  { A := 0x8F, X := 0, Y := 0, SP := 0xFF, PC := 0x8000, P := 0x20,
    mem := fun b => if b = 0x8000 then 0x0B else if b = 0x8001 then 0xF0 else 0,
    pixels := fun _ => some 0, keyboard_input := 0, rand_seq := fun _ => 0, rand_calls := 0,
    out := [] }

/-- A machine with `BIT $10` at `0x8000`, `mem[0x10] = 0xC0`, `A = 0x0F` and
`C`, `I`, `D`, `Z` set. -/
def bitDemo : CPU :=
  { A := 0x0F, X := 0x22, Y := 0x33, SP := 0xFF, PC := 0x8000, P := 0x2F,
    mem := fun b => if b = 0x8000 then 0x24 else if b = 0x8001 then 0x10
      else if b = 0x0010 then 0xC0 else 0,
    pixels := fun _ => some 0, keyboard_input := 0, rand_seq := fun _ => 0, rand_calls := 0,
    out := [] }

/-- A machine with `ADC #$0F` at `0x8000`, accumulator `0x50`, carry set: the
addition whose operand is the complement of `0xF0`. -/
def adcComplDemo : CPU :=
  { A := 0x50, X := 0, Y := 0, SP := 0xFF, PC := 0x8000, P := 0x21,
    mem := fun a => if a = 0x8000 then 0x69 else if a = 0x8001 then 0x0F else 0,
    pixels := fun _ => some 0, keyboard_input := 0, rand_seq := fun _ => 0, rand_calls := 0,
    out := [] }

/-- The addressing-mode constant of the assignment
`address = get_address(cpu, MODE)` in a body, `none` for a body that leaves the
local `address` at its initial 0 (the implied instructions, the NOPs, which
drop the value `get_address` returns, and `JMP`/`JSR`, which assign it to
`PC`). -/
def Instr.addressMode : Instr → Option Mode
  | Instr.BPL | Instr.BMI | Instr.BVC | Instr.BVS | Instr.BCC | Instr.BCS | Instr.BNE
  | Instr.BEQ => some Mode.AM_REL
  | Instr.ORA m | Instr.AND m | Instr.EOR m | Instr.ADC m
  | Instr.SBC m | Instr.CMP m | Instr.CPX m | Instr.CPY m | Instr.BIT m | Instr.ASL m
  | Instr.ROL m | Instr.LSR m | Instr.ROR m | Instr.INC m | Instr.DEC m | Instr.LDA m
  | Instr.LDX m | Instr.LDY m | Instr.STA m | Instr.STX m | Instr.STY m | Instr.SLO m
  | Instr.RLA m | Instr.SRE m | Instr.RRA m | Instr.DCP m | Instr.ISC m | Instr.LAX m
  | Instr.SAX m | Instr.ANC m | Instr.ALR m | Instr.ARR m | Instr.XAA m | Instr.AXS m
  | Instr.LAS m | Instr.AHX m | Instr.TAS m | Instr.SHY m | Instr.SHX m => some m
  | _ => none

/-- A machine with `LDA $0205` at `0x8000` and `mem[0x0205] = 0x03`. -/
def ldaFbDemo : CPU :=
  { A := 0, X := 0, Y := 0, SP := 0xFF, PC := 0x8000, P := 0x20,
    mem := fun b => if b = 0x8000 then 0xAD else if b = 0x8001 then 0x05
      else if b = 0x8002 then 0x02 else if b = 0x0205 then 0x03 else 0,
    pixels := fun _ => some 0, keyboard_input := 0, rand_seq := fun _ => 0, rand_calls := 0,
    out := [] }

/-- A machine with the two bytes `first second` at `0x8000`. -/
def rotateDemo (first second a p : Nat) : CPU :=
  { A := a, X := 0, Y := 0, SP := 0xFF, PC := 0x8000, P := p,
    mem := fun b => if b = 0x8000 then first else if b = 0x8001 then second else 0,
    pixels := fun _ => some 0, keyboard_input := 0, rand_seq := fun _ => 0, rand_calls := 0,
    out := [] }

/-- A machine with `ADC #$50` at `0x8000`, accumulator `0x50`, carry clear and
the decimal flag set. -/
def adcDecimalDemo : CPU :=
  { A := 0x50, X := 0, Y := 0, SP := 0xFF, PC := 0x8000, P := 0x28,
    mem := fun a => if a = 0x8000 then 0x69 else if a = 0x8001 then 0x50 else 0,
    pixels := fun _ => some 0, keyboard_input := 0, rand_seq := fun _ => 0, rand_calls := 0,
    out := [] }

/-- A machine with `BNE -2` at `0x1000` (a branch to itself) and `Z` clear. -/
def bneSelfDemo : CPU :=
  { A := 0, X := 0, Y := 0, SP := 0xFF, PC := 0x1000, P := 0x20,
    mem := fun a => if a = 0x1000 then 0xD0 else if a = 0x1001 then 0xFE else 0,
    pixels := fun _ => some 0, keyboard_input := 0, rand_seq := fun _ => 0, rand_calls := 0,
    out := [] }

/-! # Theorems -/

/-! ## Bit tests -/

theorem and_two_pow_ne_zero_iff (x k : Nat) : x &&& 2 ^ k ≠ 0 ↔ x.testBit k = true := by
  constructor
  · intro h
    obtain ⟨i, hi⟩ := Nat.ne_zero_implies_bit_true h
    rw [Nat.testBit_and, Nat.testBit_two_pow] at hi
    simp only [Bool.and_eq_true, decide_eq_true_eq] at hi
    obtain ⟨h1, h2⟩ := hi
    subst h2
    exact h1
  · intro h h0
    have : (x &&& 2 ^ k).testBit k = true := by
      rw [Nat.testBit_and, Nat.testBit_two_pow_self, h]; rfl
    rw [h0] at this
    simp at this

theorem testBit_u8 (x i : Nat) : (u8 x).testBit i = (decide (i < 8) && x.testBit i) := by
  unfold u8
  exact Nat.testBit_mod_two_pow x 8 i

theorem testBit_cnot (m i : Nat) (h : m < 2 ^ 32) :
    (cnot m).testBit i = (decide (i < 32) && !m.testBit i) := by
  unfold cnot
  have : 0xFFFFFFFF - m = 2 ^ 32 - (m + 1) := by omega
  rw [this]
  exact Nat.testBit_two_pow_sub_succ h i

theorem testBit_u8_or (p m i : Nat) :
    (u8 (p ||| m)).testBit i = (decide (i < 8) && (p.testBit i || m.testBit i)) := by
  rw [testBit_u8, Nat.testBit_or]

theorem testBit_u8_and_cnot (p m i : Nat) (hm : m < 2 ^ 32) :
    (u8 (p &&& cnot m)).testBit i = (decide (i < 8) && (p.testBit i && !m.testBit i)) := by
  rw [testBit_u8, Nat.testBit_and, testBit_cnot m i hm]
  by_cases hi : i < 8
  · have : i < 32 := by omega
    simp [hi, this]
  · simp [hi]

theorem and_1_iff (x : Nat) : x &&& 1 ≠ 0 ↔ x.testBit 0 = true := and_two_pow_ne_zero_iff x 0

theorem and_2_iff (x : Nat) : x &&& 2 ≠ 0 ↔ x.testBit 1 = true := and_two_pow_ne_zero_iff x 1

theorem and_4_iff (x : Nat) : x &&& 4 ≠ 0 ↔ x.testBit 2 = true := and_two_pow_ne_zero_iff x 2

theorem and_8_iff (x : Nat) : x &&& 8 ≠ 0 ↔ x.testBit 3 = true := and_two_pow_ne_zero_iff x 3

theorem and_16_iff (x : Nat) : x &&& 16 ≠ 0 ↔ x.testBit 4 = true := and_two_pow_ne_zero_iff x 4

theorem and_32_iff (x : Nat) : x &&& 32 ≠ 0 ↔ x.testBit 5 = true := and_two_pow_ne_zero_iff x 5

theorem and_64_iff (x : Nat) : x &&& 64 ≠ 0 ↔ x.testBit 6 = true := and_two_pow_ne_zero_iff x 6

theorem and_128_iff (x : Nat) : x &&& 128 ≠ 0 ↔ x.testBit 7 = true := and_two_pow_ne_zero_iff x 7

theorem and_256_iff (x : Nat) : x &&& 256 ≠ 0 ↔ x.testBit 8 = true := and_two_pow_ne_zero_iff x 8

theorem snz_eq (cpu : CPU) (v : Nat) :
    set_zero_and_negative_flags cpu v = { cpu with P := snzP cpu.P v } := by
  unfold set_zero_and_negative_flags snzP CPU.orP CPU.andNotP
  simp only []
  split_ifs <;> rfl

/-- The flag tests of `set_zero_and_negative_flags`. -/
theorem snzP_testBit (p v i : Nat) :
    (snzP p v).testBit i =
      (decide (i < 8) && (if i = 1 then decide (v = 0) else if i = 7 then v.testBit 7
        else p.testBit i)) := by
  have h82 : ∀ j, Nat.testBit 0x82 j = (decide (j = 1) || decide (j = 7)) := by
    intro j
    have : (0x82 : Nat) = 2 ^ 1 ||| 2 ^ 7 := by decide
    rw [this, Nat.testBit_or, Nat.testBit_two_pow, Nat.testBit_two_pow]
    simp [eq_comm]
  have h2 : ∀ j, Nat.testBit 2 j = decide (j = 1) := by
    intro j
    have : (2 : Nat) = 2 ^ 1 := by decide
    rw [this, Nat.testBit_two_pow]; simp [eq_comm]
  have h80 : ∀ j, Nat.testBit 0x80 j = decide (j = 7) := by
    intro j
    have : (0x80 : Nat) = 2 ^ 7 := by decide
    rw [this, Nat.testBit_two_pow]; simp [eq_comm]
  unfold snzP
  simp only [and_128_iff, FLAG_N, FLAG_Z, Nat.reduceOr]
  have hm : (130 : Nat) < 2 ^ 32 := by decide
  by_cases h1 : i = 1
  · subst h1
    split_ifs <;> simp_all [testBit_u8_or, testBit_u8_and_cnot, h82, h2, h80]
  · by_cases h7 : i = 7
    · subst h7
      split_ifs <;> simp_all [testBit_u8_or, testBit_u8_and_cnot, h82, h2, h80]
    · split_ifs <;> simp_all [testBit_u8_or, testBit_u8_and_cnot, h82, h2, h80]

theorem adc_core_eq (cpu : CPU) (v : Nat) :
    adc_core cpu v =
      { cpu with
        A := u8 (u16 (cpu.A + v + (if cpu.P &&& FLAG_C ≠ 0 then 1 else 0)) &&& 0xFF)
        P := adcP cpu.P cpu.A v } := by
  unfold adc_core adcP CPU.orP CPU.andNotP
  simp only [snz_eq]
  split_ifs <;> rfl

/-! ## Frame lemmas: what the helpers leave alone -/

theorem fetch_byte_snd (cpu : CPU) :
    (fetch_byte cpu).2 =
      { cpu with
        PC := u16 (cpu.PC + 1)
        rand_calls := if cpu.PC = 0xFE then cpu.rand_calls + 1 else cpu.rand_calls } := by
  unfold fetch_byte
  simp only []
  split_ifs <;> rfl

theorem fetch_word_snd (cpu : CPU) :
    (fetch_word cpu).2 = { cpu with PC := u16 (u16 (cpu.PC + 1) + 1) } := rfl

theorem get_address_frame (ord : EvalOrder) (cpu : CPU) (mode : Mode) :
    (get_address ord cpu mode).2 =
      { cpu with
        PC := (get_address ord cpu mode).2.PC
        rand_calls := (get_address ord cpu mode).2.rand_calls } := by
  cases mode <;> cases ord <;> simp [get_address, fetch_byte_snd, fetch_word_snd]

@[simp] theorem get_address_A (ord : EvalOrder) (cpu : CPU) (mode : Mode) :
    (get_address ord cpu mode).2.A = cpu.A := by rw [get_address_frame]

@[simp] theorem get_address_X (ord : EvalOrder) (cpu : CPU) (mode : Mode) :
    (get_address ord cpu mode).2.X = cpu.X := by rw [get_address_frame]

@[simp] theorem get_address_Y (ord : EvalOrder) (cpu : CPU) (mode : Mode) :
    (get_address ord cpu mode).2.Y = cpu.Y := by rw [get_address_frame]

@[simp] theorem get_address_SP (ord : EvalOrder) (cpu : CPU) (mode : Mode) :
    (get_address ord cpu mode).2.SP = cpu.SP := by rw [get_address_frame]

@[simp] theorem get_address_P (ord : EvalOrder) (cpu : CPU) (mode : Mode) :
    (get_address ord cpu mode).2.P = cpu.P := by rw [get_address_frame]

@[simp] theorem get_address_mem (ord : EvalOrder) (cpu : CPU) (mode : Mode) :
    (get_address ord cpu mode).2.mem = cpu.mem := by rw [get_address_frame]

@[simp] theorem get_address_pixels (ord : EvalOrder) (cpu : CPU) (mode : Mode) :
    (get_address ord cpu mode).2.pixels = cpu.pixels := by rw [get_address_frame]

@[simp] theorem get_address_out (ord : EvalOrder) (cpu : CPU) (mode : Mode) :
    (get_address ord cpu mode).2.out = cpu.out := by rw [get_address_frame]

@[simp] theorem get_address_keyboard_input (ord : EvalOrder) (cpu : CPU) (mode : Mode) :
    (get_address ord cpu mode).2.keyboard_input = cpu.keyboard_input := by rw [get_address_frame]

theorem framebuffer_shim_frame (address : Nat) (cpu : CPU) :
    framebuffer_shim address cpu = { cpu with pixels := (framebuffer_shim address cpu).pixels } := by
  unfold framebuffer_shim
  split_ifs <;> rfl

theorem testBit_7_iff_ge (x : Nat) (h : x < 256) : x.testBit 7 = true ↔ x ≥ 128 := by
  rw [Nat.testBit_to_div_mod]
  simp only [decide_eq_true_eq]
  omega

theorem testBit_8_iff_ge (x : Nat) (h : x < 512) : x.testBit 8 = true ↔ x > 0xFF := by
  rw [Nat.testBit_to_div_mod]
  simp only [decide_eq_true_eq]
  omega

theorem carry_in_le (p : Nat) : (if p &&& FLAG_C ≠ 0 then 1 else 0 : Nat) ≤ 1 := by
  split_ifs <;> omega

/-- What the ADC tail computes from the accumulator, the operand and the carry. -/
theorem adc_core_spec (cpu : CPU) (v : Nat) (hA : cpu.A < 256) (hv : v < 256) :
    let r := cpu.A + v + (if cpu.P &&& FLAG_C ≠ 0 then 1 else 0)
    (adc_core cpu v).A = r % 256 ∧
    ((adc_core cpu v).P &&& FLAG_C ≠ 0 ↔ r > 0xFF) ∧
    ((adc_core cpu v).P &&& FLAG_V ≠ 0 ↔ (cpu.A ^^^ r) &&& (v ^^^ r) &&& 0x80 ≠ 0) ∧
    ((adc_core cpu v).P &&& FLAG_Z ≠ 0 ↔ (adc_core cpu v).A = 0) ∧
    ((adc_core cpu v).P &&& FLAG_N ≠ 0 ↔ (adc_core cpu v).A ≥ 128) := by
  have hc := carry_in_le cpu.P
  have hm : (0xC3 : Nat) < 2 ^ 32 := by decide
  rw [adc_core_eq]
  unfold adcP
  simp only []
  generalize hr : cpu.A + v + (if cpu.P &&& FLAG_C ≠ 0 then 1 else 0) = r
  have hr512 : r < 512 := by omega
  have hu : u16 r = r := Nat.mod_eq_of_lt (by omega)
  have hlow : u8 (r &&& 0xFF) = r % 256 := by
    rw [show (0xFF : Nat) = 2 ^ 8 - 1 by decide, Nat.and_pow_two_sub_one_eq_mod]
    simp [u8]
  simp only [hu, hlow, FLAG_N, FLAG_V, FLAG_Z, FLAG_C, Nat.reduceOr, and_1_iff, and_2_iff, and_64_iff, and_128_iff, and_256_iff,
    testBit_8_iff_ge r hr512, snzP_testBit,  testBit_7_iff_ge (r % 256) (Nat.mod_lt _ (by decide))]
  have h7 := testBit_7_iff_ge (r % 256) (Nat.mod_lt _ (by decide))
  simp only [Nat.reduceEqDiff, Nat.reduceLT, decide_True, Bool.true_and, if_true, if_false, Nat.zero_ne_one, Nat.succ_ne_self, reduceIte, Nat.reduceEqDiff]
  refine ⟨trivial, ?_, ?_, ?_, ?_⟩
  · split_ifs <;> simp only [testBit_u8_or, testBit_u8_and_cnot _ _ _ hm] <;>
      simp_all [Nat.testBit_to_div_mod]
  · split_ifs <;> simp only [testBit_u8_or, testBit_u8_and_cnot _ _ _ hm] <;>
      simp_all [Nat.testBit_to_div_mod]
  · simp
  · simpa using h7

@[simp] theorem fetch_byte_A (cpu : CPU) : (fetch_byte cpu).2.A = cpu.A := by rw [fetch_byte_snd]

@[simp] theorem fetch_byte_X (cpu : CPU) : (fetch_byte cpu).2.X = cpu.X := by rw [fetch_byte_snd]

@[simp] theorem fetch_byte_Y (cpu : CPU) : (fetch_byte cpu).2.Y = cpu.Y := by rw [fetch_byte_snd]

@[simp] theorem fetch_byte_SP (cpu : CPU) : (fetch_byte cpu).2.SP = cpu.SP := by rw [fetch_byte_snd]

@[simp] theorem fetch_byte_P (cpu : CPU) : (fetch_byte cpu).2.P = cpu.P := by rw [fetch_byte_snd]

@[simp] theorem fetch_byte_PC (cpu : CPU) : (fetch_byte cpu).2.PC = u16 (cpu.PC + 1) := by
  rw [fetch_byte_snd]

@[simp] theorem fetch_byte_mem (cpu : CPU) : (fetch_byte cpu).2.mem = cpu.mem := by
  rw [fetch_byte_snd]

@[simp] theorem fetch_byte_pixels (cpu : CPU) : (fetch_byte cpu).2.pixels = cpu.pixels := by
  rw [fetch_byte_snd]

@[simp] theorem fetch_byte_out (cpu : CPU) : (fetch_byte cpu).2.out = cpu.out := by
  rw [fetch_byte_snd]

@[simp] theorem fetch_byte_keyboard_input (cpu : CPU) :
    (fetch_byte cpu).2.keyboard_input = cpu.keyboard_input := by rw [fetch_byte_snd]

@[simp] theorem framebuffer_shim_A (a : Nat) (cpu : CPU) : (framebuffer_shim a cpu).A = cpu.A := by
  rw [framebuffer_shim_frame]

@[simp] theorem framebuffer_shim_X (a : Nat) (cpu : CPU) : (framebuffer_shim a cpu).X = cpu.X := by
  rw [framebuffer_shim_frame]

@[simp] theorem framebuffer_shim_Y (a : Nat) (cpu : CPU) : (framebuffer_shim a cpu).Y = cpu.Y := by
  rw [framebuffer_shim_frame]

@[simp] theorem framebuffer_shim_SP (a : Nat) (cpu : CPU) :
    (framebuffer_shim a cpu).SP = cpu.SP := by rw [framebuffer_shim_frame]

@[simp] theorem framebuffer_shim_PC (a : Nat) (cpu : CPU) :
    (framebuffer_shim a cpu).PC = cpu.PC := by rw [framebuffer_shim_frame]

@[simp] theorem framebuffer_shim_P (a : Nat) (cpu : CPU) : (framebuffer_shim a cpu).P = cpu.P := by
  rw [framebuffer_shim_frame]

@[simp] theorem framebuffer_shim_mem (a : Nat) (cpu : CPU) :
    (framebuffer_shim a cpu).mem = cpu.mem := by rw [framebuffer_shim_frame]

@[simp] theorem framebuffer_shim_out (a : Nat) (cpu : CPU) :
    (framebuffer_shim a cpu).out = cpu.out := by rw [framebuffer_shim_frame]

/-- The step, spelled out: opcode fetch, selected body, framebuffer lines. -/
theorem execute_instruction_eq (ord : EvalOrder) (cpu : CPU) :
    execute_instruction ord cpu =
      framebuffer_shim (exec ord (fetch_byte cpu).1 (decode (fetch_byte cpu).1) (fetch_byte cpu).2).1
        (exec ord (fetch_byte cpu).1 (decode (fetch_byte cpu).1) (fetch_byte cpu).2).2 := rfl

theorem adcDemo_wf : adcDemo.WF :=
  ⟨by decide, by decide, by decide, by decide, by decide, by decide,
   by intro a; simp only [adcDemo]; split_ifs <;> decide, by decide⟩

/-- C1: every ADC instruction (the opcodes the switch sends to the ADC body,
`0x69` with the immediate mode among them) computes `r = A + M + c` from the
accumulator, the operand byte `M` at the effective address and the carry-in
`c`, and leaves `A = r mod 256`, `C = (r > 0xFF)`,
`V = ((A ^ r) & (M ^ r) & 0x80) != 0`, `Z = (A' = 0)`, `N = (A' >= 128)`; with
`A = 0x50`, `M = 0x50`, `c = 0` it leaves `A = 0xA0`, `C = 0`, `V = 1`, `N = 1`,
`Z = 0`. -/
theorem adc_step (ord : EvalOrder) (cpu : CPU) (mode : Mode) (hwf : cpu.WF)
    (hop : decode (fetch_byte cpu).1 = Instr.ADC mode) :
    let M := cpu.mem (get_address ord (fetch_byte cpu).2 mode).1
    let c := if cpu.P &&& FLAG_C ≠ 0 then 1 else 0
    let r := cpu.A + M + c
    let cpu' := execute_instruction ord cpu
    (mode = Mode.AM_IMM → M = cpu.mem (u16 (cpu.PC + 1))) ∧
    cpu'.A = r % 256 ∧
    (cpu'.P &&& FLAG_C ≠ 0 ↔ r > 0xFF) ∧
    (cpu'.P &&& FLAG_V ≠ 0 ↔ (cpu.A ^^^ r) &&& (M ^^^ r) &&& 0x80 ≠ 0) ∧
    (cpu'.P &&& FLAG_Z ≠ 0 ↔ cpu'.A = 0) ∧
    (cpu'.P &&& FLAG_N ≠ 0 ↔ cpu'.A ≥ 128) ∧
    (cpu.A = 0x50 → M = 0x50 → c = 0 →
      cpu'.A = 0xA0 ∧ cpu'.P &&& FLAG_C = 0 ∧ cpu'.P &&& FLAG_V ≠ 0 ∧
      cpu'.P &&& FLAG_N ≠ 0 ∧ cpu'.P &&& FLAG_Z = 0) := by
  intro M c r cpu'
  have hstep : cpu' = framebuffer_shim (get_address ord (fetch_byte cpu).2 mode).1
      (adc_core (get_address ord (fetch_byte cpu).2 mode).2 M) := by
    show execute_instruction ord cpu = _
    rw [execute_instruction_eq, hop]
    simp only [exec, op_ADC, get_address_mem, fetch_byte_mem]
  have hspec := adc_core_spec (get_address ord (fetch_byte cpu).2 mode).2 M
    (by simpa using hwf.hA) (hwf.hmem _)
  simp only [get_address_A, get_address_P, fetch_byte_A, fetch_byte_P] at hspec
  obtain ⟨h1, h2, h3, h4, h5⟩ := hspec
  have e1 : cpu'.A = r % 256 := by rw [hstep, framebuffer_shim_A]; exact h1
  have eP : cpu'.P = (adc_core (get_address ord (fetch_byte cpu).2 mode).2 M).P := by
    rw [hstep, framebuffer_shim_P]
  have eA : cpu'.A = (adc_core (get_address ord (fetch_byte cpu).2 mode).2 M).A := by
    rw [hstep, framebuffer_shim_A]
  refine ⟨?_, e1, ?_, ?_, ?_, ?_, ?_⟩
  · intro hm
    subst hm
    simp [M, get_address]
  · rw [eP]; exact h2
  · rw [eP]; exact h3
  · rw [eP, eA]; exact h4
  · rw [eP, eA]; exact h5
  · intro hA hM hc
    have hr : (cpu.A + M + if cpu.P &&& FLAG_C ≠ 0 then 1 else 0) = 0xA0 := by
      show cpu.A + M + c = _
      rw [hA, hM, hc]
    rw [hr] at h1 h2 h3
    have hv : (cpu.A ^^^ 0xA0) &&& (M ^^^ 0xA0) &&& 0x80 ≠ 0 := by rw [hA, hM]; decide
    rw [h1] at h4 h5
    rw [eP]
    refine ⟨by rw [eA, h1], ?_, ?_, ?_, ?_⟩
    · by_contra hcon; exact absurd (h2.mp hcon) (by decide)
    · exact h3.mpr hv
    · exact h5.mpr (by decide)
    · by_contra hcon; exact absurd (h4.mp hcon) (by decide)

theorem adc_step_witness :
    adcDemo.WF ∧ decode (fetch_byte adcDemo).1 = Instr.ADC Mode.AM_IMM ∧
    (execute_instruction EvalOrder.callFirst adcDemo).A = 0xA0 ∧
    (execute_instruction EvalOrder.callFirst adcDemo).P &&& FLAG_C = 0 ∧
    (execute_instruction EvalOrder.callFirst adcDemo).P &&& FLAG_V ≠ 0 ∧
    (execute_instruction EvalOrder.callFirst adcDemo).P &&& FLAG_N ≠ 0 ∧
    (execute_instruction EvalOrder.callFirst adcDemo).P &&& FLAG_Z = 0 :=
  ⟨adcDemo_wf, rfl,
    (adc_step EvalOrder.callFirst adcDemo Mode.AM_IMM adcDemo_wf rfl).2.2.2.2.2.2 rfl rfl rfl⟩

theorem sbc_core_eq (cpu : CPU) (v : Nat) :
    sbc_core cpu v =
      { cpu with
        A := u8 (u16i ((cpu.A : Int) - v - (if cpu.P &&& FLAG_C ≠ 0 then 0 else 1)) &&& 0xFF)
        P := sbcP cpu.P cpu.A v } := by
  unfold sbc_core sbcP CPU.orP CPU.andNotP
  simp only [snz_eq]
  split_ifs <;> rfl

theorem u8_and_0xFF (r : Nat) : u8 (r &&& 0xFF) = r % 256 := by
  rw [show (0xFF : Nat) = 2 ^ 8 - 1 by decide, Nat.and_pow_two_sub_one_eq_mod]
  simp [u8]

/-- Bit 7 of `~v ^ r` is bit 7 of `(v ^ 0xFF) ^ r`: the overflow test reads
the same from the `int` complement and from the byte complement. -/
theorem sbc_overflow_test (a v r : Nat) (hv : v < 256) :
    ((a ^^^ r) &&& (cnot v ^^^ r) &&& 0x80 ≠ 0) ↔
      ((a ^^^ r) &&& ((v ^^^ 0xFF) ^^^ r) &&& 0x80 ≠ 0) := by
  have hv32 : v < 2 ^ 32 := by omega
  rw [and_128_iff, and_128_iff]
  simp only [Nat.testBit_and, Nat.testBit_xor, testBit_cnot v 7 hv32]
  have : Nat.testBit 0xFF 7 = true := by decide
  rw [this]
  simp

/-- What the SBC tail computes from the accumulator, the operand and the carry. -/
theorem sbc_core_spec (cpu : CPU) (v : Nat) :
    let r := u16i ((cpu.A : Int) - v - (if cpu.P &&& FLAG_C ≠ 0 then 0 else 1))
    (sbc_core cpu v).A = r % 256 ∧
    ((sbc_core cpu v).P &&& FLAG_C ≠ 0 ↔ r &&& 0x100 = 0) ∧
    ((sbc_core cpu v).P &&& FLAG_V ≠ 0 ↔ (cpu.A ^^^ r) &&& (cnot v ^^^ r) &&& 0x80 ≠ 0) ∧
    ((sbc_core cpu v).P &&& FLAG_Z ≠ 0 ↔ (sbc_core cpu v).A = 0) ∧
    ((sbc_core cpu v).P &&& FLAG_N ≠ 0 ↔ (sbc_core cpu v).A ≥ 128) := by
  have hm : (0xC3 : Nat) < 2 ^ 32 := by decide
  rw [sbc_core_eq]
  unfold sbcP
  simp only []
  generalize u16i ((cpu.A : Int) - v - (if cpu.P &&& FLAG_C ≠ 0 then 0 else 1)) = r
  have h7 := testBit_7_iff_ge (r % 256) (Nat.mod_lt _ (by decide))
  simp only [u8_and_0xFF, FLAG_N, FLAG_V, FLAG_Z, FLAG_C, Nat.reduceOr, and_1_iff, and_2_iff,
    and_64_iff, and_128_iff, snzP_testBit]
  simp only [Nat.reduceEqDiff, Nat.reduceLT, decide_True, Bool.true_and, if_true, if_false,
    Nat.zero_ne_one, Nat.succ_ne_self, reduceIte]
  refine ⟨trivial, ?_, ?_, ?_, ?_⟩
  · split_ifs <;> simp only [testBit_u8_or, testBit_u8_and_cnot _ _ _ hm] <;>
      simp_all [Nat.testBit_to_div_mod]
  · split_ifs <;> simp only [testBit_u8_or, testBit_u8_and_cnot _ _ _ hm] <;>
      simp_all [Nat.testBit_to_div_mod]
  · simp
  · simpa using h7

theorem sbcDemo_wf : sbcDemo.WF :=
  ⟨by decide, by decide, by decide, by decide, by decide, by decide,
   by intro a; simp only [sbcDemo]; split_ifs <;> decide, by decide⟩

/-- C2: every SBC instruction (the opcodes the switch sends to the SBC body,
`0xE9` with the immediate mode among them) computes `r = A - M - (1 - c)` as a
16-bit value and leaves `A = r & 0xFF`, `C = ((r & 0x100) = 0)`,
`V = ((A ^ r) & (~M ^ r) & 0x80) != 0`, `Z = (A' = 0)`, `N = (A' >= 128)`; with
`A = 0x50`, `M = 0xF0`, `c = 1` it leaves `A = 0x60` and `C`, `V`, `N`, `Z` all
clear. -/
theorem sbc_step (ord : EvalOrder) (cpu : CPU) (mode : Mode) (hwf : cpu.WF)
    (hop : decode (fetch_byte cpu).1 = Instr.SBC mode) :
    let M := cpu.mem (get_address ord (fetch_byte cpu).2 mode).1
    let c : Int := if cpu.P &&& FLAG_C ≠ 0 then 1 else 0
    let r := u16i ((cpu.A : Int) - M - (1 - c))
    let cpu' := execute_instruction ord cpu
    (mode = Mode.AM_IMM → M = cpu.mem (u16 (cpu.PC + 1))) ∧
    cpu'.A = r &&& 0xFF ∧
    (cpu'.P &&& FLAG_C ≠ 0 ↔ r &&& 0x100 = 0) ∧
    (cpu'.P &&& FLAG_V ≠ 0 ↔ (cpu.A ^^^ r) &&& ((M ^^^ 0xFF) ^^^ r) &&& 0x80 ≠ 0) ∧
    (cpu'.P &&& FLAG_Z ≠ 0 ↔ cpu'.A = 0) ∧
    (cpu'.P &&& FLAG_N ≠ 0 ↔ cpu'.A ≥ 128) ∧
    (cpu.A = 0x50 → M = 0xF0 → c = 1 →
      cpu'.A = 0x60 ∧ cpu'.P &&& FLAG_C = 0 ∧ cpu'.P &&& FLAG_V = 0 ∧
      cpu'.P &&& FLAG_N = 0 ∧ cpu'.P &&& FLAG_Z = 0) := by
  intro M c r cpu'
  have hstep : cpu' = framebuffer_shim (get_address ord (fetch_byte cpu).2 mode).1
      (sbc_core (get_address ord (fetch_byte cpu).2 mode).2 M) := by
    show execute_instruction ord cpu = _
    rw [execute_instruction_eq, hop]
    simp only [exec, op_SBC, get_address_mem, fetch_byte_mem]
  have hr : u16i ((cpu.A : Int) - M - (if cpu.P &&& FLAG_C ≠ 0 then 0 else 1)) = r := by
    show _ = u16i ((cpu.A : Int) - M - (1 - c))
    congr 2
    show _ = (1 : Int) - (if cpu.P &&& FLAG_C ≠ 0 then 1 else 0)
    split_ifs <;> rfl
  have hspec := sbc_core_spec (get_address ord (fetch_byte cpu).2 mode).2 M
  simp only [get_address_A, get_address_P, fetch_byte_A, fetch_byte_P, hr] at hspec
  obtain ⟨h1, h2, h3, h4, h5⟩ := hspec
  rw [sbc_overflow_test cpu.A M r (hwf.hmem _)] at h3
  have eP : cpu'.P = (sbc_core (get_address ord (fetch_byte cpu).2 mode).2 M).P := by
    rw [hstep, framebuffer_shim_P]
  have eA : cpu'.A = (sbc_core (get_address ord (fetch_byte cpu).2 mode).2 M).A := by
    rw [hstep, framebuffer_shim_A]
  have hlow : r &&& 0xFF = r % 256 := by
    rw [show (0xFF : Nat) = 2 ^ 8 - 1 by decide, Nat.and_pow_two_sub_one_eq_mod]
  refine ⟨?_, by rw [eA, h1, hlow], ?_, ?_, ?_, ?_, ?_⟩
  · intro hm
    subst hm
    simp [M, get_address]
  · rw [eP]; exact h2
  · rw [eP]; exact h3
  · rw [eP, eA]; exact h4
  · rw [eP, eA]; exact h5
  · intro hA hM hc
    have hr60 : r = 0xFF60 := by
      show u16i ((cpu.A : Int) - M - (1 - c)) = _
      rw [hA, hM, hc]
      decide
    have hv : ¬ ((cpu.A ^^^ r) &&& ((M ^^^ 0xFF) ^^^ r) &&& 0x80 ≠ 0) := by
      rw [hA, hM, hr60]; decide
    rw [hr60] at h1 h2
    rw [h1] at h4 h5
    rw [eP]
    refine ⟨by rw [eA, h1], ?_, ?_, ?_, ?_⟩
    · by_contra hcon; exact absurd (h2.mp hcon) (by decide)
    · by_contra hcon; exact hv (h3.mp hcon)
    · by_contra hcon; exact absurd (h5.mp hcon) (by decide)
    · by_contra hcon; exact absurd (h4.mp hcon) (by decide)

theorem sbc_step_witness :
    sbcDemo.WF ∧ decode (fetch_byte sbcDemo).1 = Instr.SBC Mode.AM_IMM ∧
    (execute_instruction EvalOrder.callFirst sbcDemo).A = 0x60 ∧
    (execute_instruction EvalOrder.callFirst sbcDemo).P &&& FLAG_C = 0 ∧
    (execute_instruction EvalOrder.callFirst sbcDemo).P &&& FLAG_V = 0 ∧
    (execute_instruction EvalOrder.callFirst sbcDemo).P &&& FLAG_N = 0 ∧
    (execute_instruction EvalOrder.callFirst sbcDemo).P &&& FLAG_Z = 0 :=
  ⟨sbcDemo_wf, rfl,
    (sbc_step EvalOrder.callFirst sbcDemo Mode.AM_IMM sbcDemo_wf rfl).2.2.2.2.2.2 rfl rfl rfl⟩

/-! ## ADC followed by SBC -/

theorem step_ADC (ord : EvalOrder) (cpu : CPU) (mode : Mode)
    (hop : decode (fetch_byte cpu).1 = Instr.ADC mode) :
    execute_instruction ord cpu =
      framebuffer_shim (get_address ord (fetch_byte cpu).2 mode).1
        (adc_core (get_address ord (fetch_byte cpu).2 mode).2
          (cpu.mem (get_address ord (fetch_byte cpu).2 mode).1)) := by
  rw [execute_instruction_eq, hop]
  simp only [exec, op_ADC, get_address_mem, fetch_byte_mem]

theorem step_SBC (ord : EvalOrder) (cpu : CPU) (mode : Mode)
    (hop : decode (fetch_byte cpu).1 = Instr.SBC mode) :
    execute_instruction ord cpu =
      framebuffer_shim (get_address ord (fetch_byte cpu).2 mode).1
        (sbc_core (get_address ord (fetch_byte cpu).2 mode).2
          (cpu.mem (get_address ord (fetch_byte cpu).2 mode).1)) := by
  rw [execute_instruction_eq, hop]
  simp only [exec, op_SBC, get_address_mem, fetch_byte_mem]

theorem get_address_imm (ord : EvalOrder) (cpu : CPU) :
    (get_address ord (fetch_byte cpu).2 Mode.AM_IMM).1 = u16 (cpu.PC + 1) := by
  simp [get_address]

theorem and_256_eq_zero_iff (x : Nat) : x &&& 0x100 = 0 ↔ x / 256 % 2 = 0 := by
  have h := and_256_iff x
  rw [Nat.testBit_to_div_mod] at h
  simp only [decide_eq_true_eq] at h
  constructor
  · intro h0
    by_contra hc
    exact (h.mpr (by omega)) h0
  · intro h0
    by_contra hc
    have := h.mp hc
    omega

/-- C3, as the code has it: `ADC #M` from accumulator `A` and carry `c`, then
`SBC #M` with the carry flag set to the complement `1 - c`, leaves the
accumulator equal to the original `A`; the carry after the `SBC` is set exactly
when the `ADC` produced no carry (`A + M + c <= 0xFF`). -/
theorem adc_then_sbc_round_trip (ord : EvalOrder) (cpu s : CPU) (hwf : cpu.WF)
    (hadc : decode (fetch_byte cpu).1 = Instr.ADC Mode.AM_IMM)
    (hsbc : decode (fetch_byte s).1 = Instr.SBC Mode.AM_IMM)
    (hM : s.mem (u16 (s.PC + 1)) = cpu.mem (u16 (cpu.PC + 1)))
    (hA : s.A = (execute_instruction ord cpu).A)
    (hC : s.P &&& FLAG_C ≠ 0 ↔ ¬ (cpu.P &&& FLAG_C ≠ 0)) :
    (execute_instruction ord s).A = cpu.A ∧
    ((execute_instruction ord s).P &&& FLAG_C ≠ 0 ↔
      cpu.A + cpu.mem (u16 (cpu.PC + 1)) + (if cpu.P &&& FLAG_C ≠ 0 then 1 else 0) ≤ 0xFF) := by
  have h1 := adc_core_spec (get_address ord (fetch_byte cpu).2 Mode.AM_IMM).2
    (cpu.mem (u16 (cpu.PC + 1))) (by simpa using hwf.hA) (hwf.hmem _)
  have h2 := sbc_core_spec (get_address ord (fetch_byte s).2 Mode.AM_IMM).2
    (s.mem (u16 (s.PC + 1)))
  simp only [get_address_A, get_address_P, fetch_byte_A, fetch_byte_P] at h1 h2
  rw [step_ADC ord cpu _ hadc, framebuffer_shim_A, get_address_imm, h1.1] at hA
  rw [step_SBC ord s _ hsbc, framebuffer_shim_A, framebuffer_shim_P, get_address_imm, h2.1,
    h2.2.1, and_256_eq_zero_iff, hM, hA]
  have hAlt := hwf.hA
  have hMlt := hwf.hmem (u16 (cpu.PC + 1))
  clear h1 h2 hM hA
  generalize cpu.mem (u16 (cpu.PC + 1)) = M at *
  unfold u16i
  by_cases hc : cpu.P &&& FLAG_C ≠ 0
  · have hs : ¬ (s.P &&& FLAG_C ≠ 0) := fun h => (hC.mp h) hc
    simp only [if_pos hc, if_neg hs]
    omega
  · have hs : s.P &&& FLAG_C ≠ 0 := hC.mpr hc
    simp only [if_neg hc, if_pos hs]
    omega

theorem roundTripDemo_wf : roundTripDemo.WF :=
  ⟨by decide, by decide, by decide, by decide, by decide, by decide,
   by intro a; simp only [roundTripDemo]; split_ifs <;> decide, by decide⟩

theorem adc_then_sbc_round_trip_witness :
    roundTripDemo.WF ∧
    decode (fetch_byte roundTripDemo).1 = Instr.ADC Mode.AM_IMM ∧
    decode (fetch_byte roundTripDemoSec).1 = Instr.SBC Mode.AM_IMM ∧
    roundTripDemoSec.A = (execute_instruction EvalOrder.callFirst roundTripDemo).A ∧
    (execute_instruction EvalOrder.callFirst roundTripDemoSec).A = roundTripDemo.A ∧
    ((execute_instruction EvalOrder.callFirst roundTripDemoSec).P &&& FLAG_C ≠ 0 ↔
      roundTripDemo.A + roundTripDemo.mem (u16 (roundTripDemo.PC + 1)) +
        (if roundTripDemo.P &&& FLAG_C ≠ 0 then 1 else 0) ≤ 0xFF) :=
  ⟨roundTripDemo_wf, rfl, rfl, by decide,
    adc_then_sbc_round_trip EvalOrder.callFirst roundTripDemo roundTripDemoSec roundTripDemo_wf
      rfl rfl (by decide) (by decide) (by decide)⟩

/-- C3 as stated fails: from `A = 0x50` with the carry clear, `ADC #$50` leaves
the carry clear, so the carry before `SBC #$50` equals the initial one, and the
`SBC` leaves `A = 0x4F`, not `0x50`. -/
theorem adc_then_sbc_same_carry_counterexample :
    decode (fetch_byte roundTripDemo).1 = Instr.ADC Mode.AM_IMM ∧
    decode (fetch_byte (execute_instruction EvalOrder.callFirst roundTripDemo)).1 =
      Instr.SBC Mode.AM_IMM ∧
    (execute_instruction EvalOrder.callFirst roundTripDemo).mem
        (u16 ((execute_instruction EvalOrder.callFirst roundTripDemo).PC + 1)) =
      roundTripDemo.mem (u16 (roundTripDemo.PC + 1)) ∧
    roundTripDemo.P &&& FLAG_C = 0 ∧
    (execute_instruction EvalOrder.callFirst roundTripDemo).P &&& FLAG_C = 0 ∧
    (execute_instruction EvalOrder.callFirst
      (execute_instruction EvalOrder.callFirst roundTripDemo)).A = 0x4F ∧
    (execute_instruction EvalOrder.callFirst
      (execute_instruction EvalOrder.callFirst roundTripDemo)).A ≠ roundTripDemo.A :=
  ⟨rfl, rfl, by decide, by decide, by decide, by decide, by decide⟩

/-- C4 at `JSR $9000` placed at `0x8000`: the step sets `PC = 0x9000` and lowers
`SP` by 2, but the two bytes it pushes are `0x80`, `0x01` — the address `a + 1`
of the first operand byte, because `PC` is pushed before the operand is
fetched — and not `0x80`, `0x02`. -/
theorem jsr_pushes_first_operand_address (ord : EvalOrder) :
    decode (fetch_byte jsrDemo).1 = Instr.JSR ∧
    (execute_instruction ord jsrDemo).PC = 0x9000 ∧
    (execute_instruction ord jsrDemo).SP = 0xFD ∧
    (execute_instruction ord jsrDemo).mem 0x01FF = 0x80 ∧
    (execute_instruction ord jsrDemo).mem 0x01FE = 0x01 ∧
    (execute_instruction ord jsrDemo).mem 0x01FE ≠ 0x02 := by
  cases ord <;> exact ⟨rfl, by decide, by decide, by decide, by decide, by decide⟩

/-- C5 at `JSR $9000` placed at `0x8000` with `RTS` at `0x9000`: the two steps
restore `SP`, but `RTS` returns to `0x8002`, the last operand byte of the
`JSR`, and not to `0x8003`. -/
theorem jsr_rts_returns_into_operand (ord : EvalOrder) :
    decode (fetch_byte jsrDemo).1 = Instr.JSR ∧
    decode (fetch_byte (execute_instruction ord jsrDemo)).1 = Instr.RTS ∧
    (execute_instruction ord
      (execute_instruction ord jsrDemo)).SP = jsrDemo.SP ∧
    (execute_instruction ord
      (execute_instruction ord jsrDemo)).PC = 0x8002 ∧
    (execute_instruction ord
      (execute_instruction ord jsrDemo)).PC ≠ 0x8003 := by
  cases ord <;> exact ⟨rfl, rfl, by decide, by decide, by decide⟩

/-- C6 at `BRK` placed at `0x8000` with the vector `0x9000`: the step pushes
three bytes, the third `P | 0x10`, sets `I` and loads `PC = 0x9000`, but the
return address it pushes is `0x80`, `0x01` (`a + 1`), not `0x80`, `0x02`. -/
theorem brk_pushes_next_byte_address (ord : EvalOrder) :
    decode (fetch_byte brkDemo).1 = Instr.BRK ∧
    (execute_instruction ord brkDemo).PC = 0x9000 ∧
    (execute_instruction ord brkDemo).SP = 0xFC ∧
    (execute_instruction ord brkDemo).P &&& FLAG_I ≠ 0 ∧
    (execute_instruction ord brkDemo).mem 0x01FF = 0x80 ∧
    (execute_instruction ord brkDemo).mem 0x01FE = 0x01 ∧
    (execute_instruction ord brkDemo).mem 0x01FE ≠ 0x02 ∧
    (execute_instruction ord brkDemo).mem 0x01FD = brkDemo.P ||| 0x10 := by
  cases ord <;>
    exact ⟨rfl, by decide, by decide, by decide, by decide, by decide, by decide, by decide⟩

/-! ## Little-endian words -/

theorem or_shiftLeft_8 (lo hi : Nat) (hlo : lo < 256) : lo ||| (hi <<< 8) = lo + 256 * hi := by
  rw [Nat.shiftLeft_eq, Nat.or_comm, Nat.mul_comm hi, show (256 : Nat) = 2 ^ 8 by decide,
    ← Nat.mul_add_lt_is_or hlo hi]
  omega

theorem u16_word (lo hi : Nat) (hlo : lo < 256) (hhi : hi < 256) :
    u16 (lo ||| (hi <<< 8)) = lo + 256 * hi := by
  rw [or_shiftLeft_8 lo hi hlo]
  exact Nat.mod_eq_of_lt (by omega)

theorem and_0xFF00 (p : Nat) (hp : p < 65536) : p &&& 0xFF00 = 256 * (p / 256) := by
  apply Nat.eq_of_testBit_eq
  intro i
  have h1 : (0xFF00 : Nat) = (2 ^ 8 - 1) <<< 8 := by decide
  have h2 : 256 * (p / 256) = (p >>> 8) <<< 8 := by
    rw [Nat.shiftLeft_eq, Nat.shiftRight_eq_div_pow]; omega
  rw [h1, h2, Nat.testBit_and, Nat.testBit_shiftLeft, Nat.testBit_shiftLeft,
    Nat.testBit_shiftRight, Nat.testBit_two_pow_sub_one]
  by_cases hi : i ≥ 8
  · have e : 8 + (i - 8) = i := by omega
    rw [e]
    by_cases hi16 : i < 16
    · have : i - 8 < 8 := by omega
      simp [hi, this]
    · have hlt : p < 2 ^ i := by
        have : (2 : Nat) ^ 16 ≤ 2 ^ i := Nat.pow_le_pow_right (by decide) (by omega)
        omega
      simp [Nat.testBit_lt_two_pow hlt]
  · simp [hi]

theorem and_0xFF (p : Nat) : p &&& 0xFF = p % 256 := by
  rw [show (0xFF : Nat) = 2 ^ 8 - 1 by decide, Nat.and_pow_two_sub_one_eq_mod]

/-- The address the `AM_IND` case reads the high byte from: the byte after the
pointer, kept inside the pointer's page. -/
theorem ind_high_address (p : Nat) (hp : p < 65536) :
    (p &&& 0xFF00) ||| ((p + 1) &&& 0xFF) = 256 * (p / 256) + (p + 1) % 256 := by
  rw [and_0xFF00 p hp, and_0xFF, show (256 : Nat) = 2 ^ 8 by decide,
    Nat.mul_add_lt_is_or (Nat.mod_lt _ (by decide))]

theorem fetch_word_fst (cpu : CPU) (hmem : ∀ a, cpu.mem a < 256) :
    (fetch_word cpu).1 = cpu.mem cpu.PC + 256 * cpu.mem (u16 (cpu.PC + 1)) := by
  unfold fetch_word
  simp only []
  rw [Nat.or_comm]
  exact u16_word _ _ (hmem _) (hmem _)

theorem step_JMP (ord : EvalOrder) (cpu : CPU) (mode : Mode)
    (hop : decode (fetch_byte cpu).1 = Instr.JMP mode) :
    execute_instruction ord cpu =
      { (get_address ord (fetch_byte cpu).2 mode).2 with
        PC := (get_address ord (fetch_byte cpu).2 mode).1 } := by
  rw [execute_instruction_eq, hop]
  simp only [exec, op_JMP]
  unfold framebuffer_shim
  simp

theorem jmpIndDemo_wf : jmpIndDemo.WF :=
  ⟨by decide, by decide, by decide, by decide, by decide, by decide,
   by intro a; simp only [jmpIndDemo]; split_ifs <;> decide, by decide⟩

/-- C7: `JMP (p)` (opcode `0x6C`) with the 16-bit pointer `p` taken from the
two operand bytes sets `PC = mem[p] + 256 * mem[(p & 0xFF00) | ((p + 1) & 0xFF)]`:
the high byte comes from the start of the pointer's own page when the low byte
of `p` is `0xFF`, and from `p + 1` otherwise. -/
theorem jmp_indirect_page_wrap (ord : EvalOrder) (cpu : CPU) (hwf : cpu.WF)
    (hop : decode (fetch_byte cpu).1 = Instr.JMP Mode.AM_IND) :
    let p := cpu.mem (u16 (cpu.PC + 1)) + 256 * cpu.mem (u16 (u16 (cpu.PC + 1) + 1))
    let cpu' := execute_instruction ord cpu
    cpu'.PC = cpu.mem p + 256 * cpu.mem ((p &&& 0xFF00) ||| ((p + 1) &&& 0xFF)) ∧
    (p % 256 = 0xFF → cpu'.PC = cpu.mem p + 256 * cpu.mem (p - 0xFF)) ∧
    (p % 256 ≠ 0xFF → cpu'.PC = cpu.mem p + 256 * cpu.mem (p + 1)) := by
  intro p cpu'
  have hp : (fetch_word (fetch_byte cpu).2).1 = p := by
    rw [fetch_word_fst _ (by simpa using hwf.hmem)]
    simp
  have hplt : p < 65536 := by
    have h1 := hwf.hmem (u16 (cpu.PC + 1))
    have h2 := hwf.hmem (u16 (u16 (cpu.PC + 1) + 1))
    show cpu.mem _ + 256 * cpu.mem _ < 65536
    omega
  have hpc : cpu'.PC = cpu.mem p + 256 * cpu.mem ((p &&& 0xFF00) ||| ((p + 1) &&& 0xFF)) := by
    show (execute_instruction ord cpu).PC = _
    rw [step_JMP ord cpu _ hop]
    simp only [get_address, hp, fetch_word_snd, fetch_byte_mem]
    exact u16_word _ _ (hwf.hmem _) (hwf.hmem _)
  refine ⟨hpc, ?_, ?_⟩
  · intro hff
    have e : 256 * (p / 256) + (p + 1) % 256 = p - 0xFF := by omega
    rw [hpc, ind_high_address p hplt, e]
  · intro hff
    have e : 256 * (p / 256) + (p + 1) % 256 = p + 1 := by omega
    rw [hpc, ind_high_address p hplt, e]

theorem jmp_indirect_page_wrap_witness :
    jmpIndDemo.WF ∧ decode (fetch_byte jmpIndDemo).1 = Instr.JMP Mode.AM_IND ∧
    (execute_instruction EvalOrder.callFirst jmpIndDemo).PC = 0x1234 := by
  refine ⟨jmpIndDemo_wf, rfl, ?_⟩
  have h := (jmp_indirect_page_wrap EvalOrder.callFirst jmpIndDemo jmpIndDemo_wf rfl).2.1
    (by decide)
  rw [h]
  decide

/-! ## Branches -/

/-- The dispatch of the eight branch opcodes. -/
theorem exec_branch_opcode (ord : EvalOrder) (op flag : Nat) (wanted : Bool) (cpu : CPU)
    (h : (op, flag, wanted) ∈ branch_opcodes) :
    exec ord op (decode op) cpu = op_branch ord flag wanted cpu := by
  simp only [branch_opcodes, List.mem_cons, Prod.mk.injEq, List.mem_singleton, List.not_mem_nil,
    or_false] at h
  rcases h with h | h | h | h | h | h | h | h <;> obtain ⟨rfl, rfl, rfl⟩ := h <;> rfl

theorem fetch_byte_fst_lt (cpu : CPU) (hwf : cpu.WF) : (fetch_byte cpu).1 < 256 := by
  unfold fetch_byte
  simp only []
  split_ifs
  · exact Nat.mod_lt _ (by decide)
  · exact hwf.hkey
  · exact hwf.hmem _

/-- The relative target under the order in which the operand is fetched before
`cpu->PC` is read. -/
theorem get_address_rel_callFirst (cpu : CPU) :
    get_address EvalOrder.callFirst cpu Mode.AM_REL =
      (u16i (((fetch_byte cpu).2.PC : Int) + int8 (fetch_byte cpu).1), (fetch_byte cpu).2) := rfl

/-- The relative target under the order in which `cpu->PC` is read before the
operand is fetched: one less than under the other order. -/
theorem get_address_rel_readFirst (cpu : CPU) :
    get_address EvalOrder.readFirst cpu Mode.AM_REL =
      (u16i ((cpu.PC : Int) + int8 (fetch_byte cpu).1), (fetch_byte cpu).2) := rfl

theorem beqDemo_wf : beqDemo.WF :=
  ⟨by decide, by decide, by decide, by decide, by decide, by decide,
   by intro a; simp only [beqDemo]; split_ifs <;> decide, by decide⟩

/-- Under the order in which the operand is fetched before `cpu->PC` is read in
the relative-address sum, a branch opcode at address `a` with operand byte `d`
leaves `PC = (a + 2 + sign_extend(d)) mod 65536` when its condition on `P`
holds and `PC = (a + 2) mod 65536` otherwise, and changes no register, flag or
memory byte. -/
theorem branch_step (cpu : CPU) (hwf : cpu.WF) (op flag : Nat) (wanted : Bool)
    (hmem : (op, flag, wanted) ∈ branch_opcodes) (hop : (fetch_byte cpu).1 = op) :
    let a := cpu.PC
    let d := (fetch_byte (fetch_byte cpu).2).1
    let cpu' := execute_instruction EvalOrder.callFirst cpu
    (decide (cpu.P &&& flag ≠ 0) = wanted →
      (cpu'.PC : Int) = ((a : Int) + 2 + (if d < 128 then (d : Int) else (d : Int) - 256)) % 65536) ∧
    (decide (cpu.P &&& flag ≠ 0) ≠ wanted → cpu'.PC = (a + 2) % 65536) ∧
    cpu'.A = cpu.A ∧ cpu'.X = cpu.X ∧ cpu'.Y = cpu.Y ∧ cpu'.SP = cpu.SP ∧ cpu'.P = cpu.P ∧
    cpu'.mem = cpu.mem := by
  intro a d cpu'
  have hd : d < 256 := fetch_byte_fst_lt _ (by
    rw [fetch_byte_snd]
    exact ⟨hwf.hA, hwf.hX, hwf.hY, hwf.hSP, Nat.mod_lt _ (by decide), hwf.hP, hwf.hmem, hwf.hkey⟩)
  have hstep : cpu' = framebuffer_shim (op_branch EvalOrder.callFirst flag wanted (fetch_byte cpu).2).1
      (op_branch EvalOrder.callFirst flag wanted (fetch_byte cpu).2).2 := by
    show execute_instruction EvalOrder.callFirst cpu = _
    rw [execute_instruction_eq, hop, exec_branch_opcode _ op flag wanted _ hmem]
  have hpc := hwf.hPC
  unfold op_branch at hstep
  rw [get_address_rel_callFirst] at hstep
  simp only [fetch_byte_P] at hstep
  refine ⟨?_, ?_, ?_⟩
  · intro hc
    rw [hstep, if_pos hc, framebuffer_shim_PC]
    show ((u16i (((fetch_byte (fetch_byte cpu).2).2.PC : Int) + int8 d) : Nat) : Int) = _
    rw [fetch_byte_PC, fetch_byte_PC]
    unfold u16i u16 int8
    split_ifs <;> omega
  · intro hc
    rw [hstep, if_neg hc, framebuffer_shim_PC, fetch_byte_PC, fetch_byte_PC]
    unfold u16
    omega
  · rw [hstep]
    split_ifs <;> simp

theorem branch_step_witness :
    beqDemo.WF ∧ (0xF0, FLAG_Z, true) ∈ branch_opcodes ∧ (fetch_byte beqDemo).1 = 0xF0 ∧
    decide (beqDemo.P &&& FLAG_Z ≠ 0) = true ∧
    (fetch_byte (fetch_byte beqDemo).2).1 = 0x04 ∧
    ((execute_instruction EvalOrder.callFirst beqDemo).PC : Int) = 0x8008 := by
  refine ⟨beqDemo_wf, by decide, by decide, by decide, by decide, ?_⟩
  have h := (branch_step beqDemo beqDemo_wf 0xF0 FLAG_Z true (by decide) (by decide)).1
    (by decide)
  rw [h]
  decide

/-- Under the other evaluation order of `cpu->PC + (int8_t)fetch_byte(cpu)` the
same `BEQ +4` at `0x8002` lands one byte short, at `0x8007`. -/
theorem beq_readFirst_target :
    (execute_instruction EvalOrder.readFirst beqDemo).PC = 0x8007 := by decide

/-! ## Opcodes without a label, and KIL -/

set_option maxRecDepth 100000 in
/-- The one byte without a `case` label is `0x89`. -/
theorem decode_unknown_iff : ∀ op, op < 256 → ((decode op).isUnknown = true ↔ op = 0x89) := by
  decide

/-- C9 at the opcode byte `0x89`: it is not a KIL opcode, the switch has no
label for it although its siblings `0x80`, `0x82`, `0xC2`, `0xE2` are NOPs with
an immediate operand, and the step takes the unknown-opcode halt: it prints the
message and forces `PC` to `0xFFFF`. -/
theorem opcode_0x89_takes_default (ord : EvalOrder) :
    0x89 ∉ kil_opcodes ∧
    (decode 0x89).isUnknown = true ∧
    (decode 0x80).isUnknown = false ∧ (decode 0x82).isUnknown = false ∧
    (decode 0xC2).isUnknown = false ∧ (decode 0xE2).isUnknown = false ∧
    (fetch_byte nop89Demo).1 = 0x89 ∧
    (execute_instruction ord nop89Demo).PC = 0xFFFF ∧
    (execute_instruction ord nop89Demo).out = [Msg.unknownOpcode 0x89 0x8000] := by
  cases ord <;>
    exact ⟨by decide, by decide, by decide, by decide, by decide, by decide, by decide,
      by decide, by decide⟩

theorem exec_kil_opcode (ord : EvalOrder) (op : Nat) (cpu : CPU) (h : op ∈ kil_opcodes) :
    exec ord op (decode op) cpu = op_KIL cpu := by
  simp only [kil_opcodes, List.mem_cons, List.mem_singleton, List.not_mem_nil, or_false] at h
  rcases h with h | h | h | h | h | h | h | h | h | h | h | h <;> subst h <;> rfl

/-- C10: a step on any of the twelve KIL opcodes leaves `PC = 0xFFFF` and
changes no register, flag, stack pointer or memory byte (nor any pixel). -/
theorem kil_step (ord : EvalOrder) (cpu : CPU) (hop : (fetch_byte cpu).1 ∈ kil_opcodes) :
    let cpu' := execute_instruction ord cpu
    cpu'.PC = 0xFFFF ∧ cpu'.A = cpu.A ∧ cpu'.X = cpu.X ∧ cpu'.Y = cpu.Y ∧ cpu'.SP = cpu.SP ∧
    cpu'.P = cpu.P ∧ cpu'.mem = cpu.mem ∧ cpu'.pixels = cpu.pixels := by
  intro cpu'
  have hstep : cpu' = framebuffer_shim 0 (op_KIL (fetch_byte cpu).2).2 := by
    show execute_instruction ord cpu = _
    rw [execute_instruction_eq, exec_kil_opcode ord _ _ hop]
    rfl
  rw [hstep]
  simp [framebuffer_shim, op_KIL]

theorem kil_step_witness :
    (fetch_byte kilDemo).1 ∈ kil_opcodes ∧
    (execute_instruction EvalOrder.callFirst kilDemo).PC = 0xFFFF ∧
    (execute_instruction EvalOrder.callFirst kilDemo).A = 0x11 ∧
    (execute_instruction EvalOrder.callFirst kilDemo).SP = 0xFF ∧
    (execute_instruction EvalOrder.callFirst kilDemo).P = 0x20 := by
  have h := kil_step EvalOrder.callFirst kilDemo (by decide)
  exact ⟨by decide, h.1, h.2.1, h.2.2.2.2.1, h.2.2.2.2.2.1⟩

/-! ## The flag routine -/

theorem snzP_lt (p v : Nat) : snzP p v < 256 := by
  unfold snzP u8
  simp only []
  split_ifs <;> exact Nat.mod_lt _ (by decide)

theorem testBit_of_lt_256 (p i : Nat) (hp : p < 256) (hi : ¬ i < 8) : p.testBit i = false := by
  apply Nat.testBit_lt_two_pow
  have : (2 : Nat) ^ 8 ≤ 2 ^ i := Nat.pow_le_pow_right (by decide) (by omega)
  omega

/-- The bits of `P` other than `N` and `Z` pass through the flag routine. -/
theorem snzP_other_bits (p v : Nat) (hp : p < 256) :
    snzP p v &&& 0x7D = p &&& 0x7D := by
  apply Nat.eq_of_testBit_eq
  intro i
  rw [Nat.testBit_and, Nat.testBit_and, snzP_testBit]
  by_cases h1 : i = 1
  · subst h1
    have : Nat.testBit 0x7D 1 = false := by decide
    simp [this]
  · by_cases h7 : i = 7
    · subst h7
      have : Nat.testBit 0x7D 7 = false := by decide
      simp [this]
    · by_cases hi : i < 8
      · simp [h1, h7, hi]
      · simp [h1, h7, hi, testBit_of_lt_256 p i hp hi]

/-- C17: for every status byte `P` and byte `v`, after
`set_zero_and_negative_flags(v)` the `Z` bit is set iff `v = 0`, the `N` bit is
set iff `v >= 128`, and every other bit of `P` (C, I, D, B, bit 5, V) is as it
was; nothing but `P` changes. -/
theorem set_zero_and_negative_flags_spec (cpu : CPU) (v : Nat) (hP : cpu.P < 256)
    (hv : v < 256) :
    let cpu' := set_zero_and_negative_flags cpu v
    (cpu'.P &&& FLAG_Z ≠ 0 ↔ v = 0) ∧
    (cpu'.P &&& FLAG_N ≠ 0 ↔ v ≥ 128) ∧
    cpu'.P &&& (FLAG_C ||| FLAG_I ||| FLAG_D ||| FLAG_B ||| 0x20 ||| FLAG_V) =
      cpu.P &&& (FLAG_C ||| FLAG_I ||| FLAG_D ||| FLAG_B ||| 0x20 ||| FLAG_V) ∧
    cpu'.P < 256 ∧
    cpu' = { cpu with P := cpu'.P } := by
  intro cpu'
  have e : cpu' = { cpu with P := snzP cpu.P v } := snz_eq cpu v
  have eP : cpu'.P = snzP cpu.P v := by rw [e]
  refine ⟨?_, ?_, ?_, ?_, ?_⟩
  · rw [eP, and_2_iff, snzP_testBit]
    simp
  · rw [eP, and_128_iff, snzP_testBit, ← testBit_7_iff_ge v hv]
    simp
  · rw [eP]
    exact snzP_other_bits cpu.P v hP
  · rw [eP]
    exact snzP_lt _ _
  · rw [eP, e]

theorem set_zero_and_negative_flags_spec_witness :
    ((set_zero_and_negative_flags snzDemo 0x80).P &&& FLAG_Z ≠ 0 ↔ 0x80 = 0) ∧
    ((set_zero_and_negative_flags snzDemo 0x80).P &&& FLAG_N ≠ 0 ↔ 0x80 ≥ 128) ∧
    (set_zero_and_negative_flags snzDemo 0x80).P = 0xE1 := by
  have h := set_zero_and_negative_flags_spec snzDemo 0x80 (by decide) (by decide)
  exact ⟨h.1, h.2.1, by decide⟩

/-! ## Stack helpers -/

/-- C15: `push_byte` writes the byte `v` at `0x0100 + SP` (`SP` before the
push), changes no other memory byte and leaves `SP = (SP - 1) mod 256`;
`pull_byte` leaves `SP = (SP + 1) mod 256`, returns `mem[0x0100 + new SP]` and
changes no memory; both addresses lie in `0x0100..0x01FF`. -/
theorem push_pull_spec (cpu : CPU) (v : Nat) (hSP : cpu.SP < 256) (hv : v < 256) :
    (push_byte cpu v).mem (0x100 + cpu.SP) = v ∧
    (∀ a, a ≠ 0x100 + cpu.SP → (push_byte cpu v).mem a = cpu.mem a) ∧
    ((push_byte cpu v).SP : Int) = ((cpu.SP : Int) - 1) % 256 ∧
    (0x100 ≤ 0x100 + cpu.SP ∧ 0x100 + cpu.SP ≤ 0x1FF) ∧
    (pull_byte cpu).2.SP = (cpu.SP + 1) % 256 ∧
    (pull_byte cpu).1 = cpu.mem (0x100 + (pull_byte cpu).2.SP) ∧
    (pull_byte cpu).2.mem = cpu.mem ∧
    (0x100 ≤ 0x100 + (pull_byte cpu).2.SP ∧ 0x100 + (pull_byte cpu).2.SP ≤ 0x1FF) := by
  refine ⟨?_, ?_, ?_, ⟨by omega, by omega⟩, rfl, rfl, rfl, ⟨by omega, ?_⟩⟩
  · simp [push_byte, CPU.store, u8, Nat.mod_eq_of_lt hv]
  · intro a ha
    simp [push_byte, CPU.store, ha]
  · simp only [push_byte, u8i, CPU.store]
    omega
  · show 0x100 + u8 (cpu.SP + 1) ≤ 0x1FF
    unfold u8
    omega

theorem push_pull_spec_witness :
    (push_byte stackDemo 0xAB).mem 0x0100 = 0xAB ∧
    (push_byte stackDemo 0xAB).SP = 0xFF ∧
    (pull_byte stackDemo).2.SP = 0x01 ∧ (pull_byte stackDemo).1 = 0x77 := by
  have h := push_pull_spec stackDemo 0xAB (by decide) (by decide)
  exact ⟨h.1, by decide, h.2.2.2.2.1, by decide⟩

/-! ## Reset -/

/-- C14: after `reset()`, whatever the state before, `A = X = Y = 0`, every
memory byte is 0, `SP = 0xFF`, `P = 0x20`, and `PC` is the little-endian word
at `0xFFFC`/`0xFFFD` of the cleared memory, that is `0x0000`. -/
theorem reset_spec (cpu : CPU) (seeded : Nat → Nat) :
    (reset cpu seeded).A = 0 ∧ (reset cpu seeded).X = 0 ∧ (reset cpu seeded).Y = 0 ∧
    (∀ a, (reset cpu seeded).mem a = 0) ∧
    (reset cpu seeded).SP = 0xFF ∧ (reset cpu seeded).P = 0x20 ∧
    (reset cpu seeded).PC =
      (reset cpu seeded).mem 0xFFFC + 256 * (reset cpu seeded).mem 0xFFFD ∧
    (reset cpu seeded).PC = 0x0000 :=
  ⟨rfl, rfl, rfl, fun _ => rfl, rfl, by simp [reset, u8], by simp [reset, u16],
    by simp [reset, u16]⟩

/-! ## RTI, PHP -/

theorem step_RTI (ord : EvalOrder) (cpu : CPU)
    (hop : decode (fetch_byte cpu).1 = Instr.RTI) :
    execute_instruction ord cpu = framebuffer_shim 0 (op_RTI (fetch_byte cpu).2).2 := by
  rw [execute_instruction_eq, hop]
  rfl

theorem or_0x20_lt (b : Nat) (hb : b < 256) : b ||| 0x20 < 256 :=
  Nat.or_lt_two_pow (n := 8) hb (by decide)

/-- C13: `RTI` (opcode `0x40`) sets `P` to the first pulled byte with bit 5
forced to 1, sets `PC` to the second pulled byte plus 256 times the third, with
no increment, and raises `SP` by 3 modulo 256. -/
theorem rti_step (ord : EvalOrder) (cpu : CPU) (hwf : cpu.WF)
    (hop : decode (fetch_byte cpu).1 = Instr.RTI) :
    let b1 := cpu.mem (0x100 + (cpu.SP + 1) % 256)
    let b2 := cpu.mem (0x100 + (cpu.SP + 2) % 256)
    let b3 := cpu.mem (0x100 + (cpu.SP + 3) % 256)
    let cpu' := execute_instruction ord cpu
    cpu'.P = b1 ||| 0x20 ∧ cpu'.PC = b2 + 256 * b3 ∧ cpu'.SP = (cpu.SP + 3) % 256 := by
  intro b1 b2 b3 cpu'
  have hstep : cpu' = framebuffer_shim 0 (op_RTI (fetch_byte cpu).2).2 := step_RTI ord cpu hop
  have e1 : u8 (cpu.SP + 1) = (cpu.SP + 1) % 256 := rfl
  have e2 : u8 ((cpu.SP + 1) % 256 + 1) = (cpu.SP + 2) % 256 := by unfold u8; omega
  have e3 : u8 ((cpu.SP + 2) % 256 + 1) = (cpu.SP + 3) % 256 := by unfold u8; omega
  rw [hstep]
  simp only [framebuffer_shim_P, framebuffer_shim_PC, framebuffer_shim_SP, op_RTI, pull_byte,
    CPU.orP, fetch_byte_SP, fetch_byte_mem]
  rw [e1, e2, e3]
  refine ⟨?_, ?_, rfl⟩
  · exact Nat.mod_eq_of_lt (or_0x20_lt _ (hwf.hmem _))
  · exact u16_word _ _ (hwf.hmem _) (hwf.hmem _)

theorem rtiDemo_wf : rtiDemo.WF :=
  ⟨by decide, by decide, by decide, by decide, by decide, by decide,
   by intro a; simp only [rtiDemo]; split_ifs <;> decide, by decide⟩

theorem rti_step_witness :
    rtiDemo.WF ∧ decode (fetch_byte rtiDemo).1 = Instr.RTI ∧
    (execute_instruction EvalOrder.callFirst rtiDemo).P = 0xE1 ∧
    (execute_instruction EvalOrder.callFirst rtiDemo).PC = 0x1234 ∧
    (execute_instruction EvalOrder.callFirst rtiDemo).SP = 0xFF := by
  have h := rti_step EvalOrder.callFirst rtiDemo rtiDemo_wf rfl
  refine ⟨rtiDemo_wf, rfl, ?_, ?_, ?_⟩
  · rw [h.1]; decide
  · rw [h.2.1]; decide
  · rw [h.2.2]; decide

/-- C11 at `PHP` with `P = 0x20`, `SP = 0xFF`: the step lowers `SP` to `0xFE`
and leaves `P` as it was, but the byte it writes at `0x01FF` is `P` itself,
`0x20`, without the B bit that `BRK` adds to its pushed copy; `P | 0x30` would
be `0x30`. -/
theorem php_pushes_p_unmodified (ord : EvalOrder) :
    decode (fetch_byte phpDemo).1 = Instr.PHP ∧
    (execute_instruction ord phpDemo).SP = 0xFE ∧
    (execute_instruction ord phpDemo).P = phpDemo.P ∧
    (execute_instruction ord phpDemo).mem 0x01FF = 0x20 ∧
    (execute_instruction ord phpDemo).mem 0x01FF ≠ phpDemo.P ||| 0x30 := by
  cases ord <;> exact ⟨rfl, by decide, by decide, by decide, by decide⟩

/-- C19 at `STA $0205` with `A = 0x12`: the last address is `0x0205`, inside
the window, and the byte there is `0x12`; the table is indexed with the byte
itself, 18, past its 16 entries, so the pixel does not get `palette[0x12 & 0x0F]`.
With `A = 0x02` the index is in range and the pixel is `palette[2]`. -/
theorem framebuffer_index_unmasked (ord : EvalOrder) :
    (execute_instruction ord (staFbDemo 0x12)).mem 0x0205 = 0x12 ∧
    palette[(0x12 : Nat)]? = none ∧
    (execute_instruction ord (staFbDemo 0x12)).pixels 5 = none ∧
    palette[(0x12 &&& 0x0F : Nat)]? = some 0xffff0000 ∧
    (execute_instruction ord (staFbDemo 0x12)).pixels 5 ≠ palette[(0x12 &&& 0x0F : Nat)]? ∧
    (execute_instruction ord (staFbDemo 0x02)).pixels 5 = some 0xffff0000 := by
  cases ord <;> exact ⟨by decide, by decide, by decide, by decide, by decide, by decide⟩

/-! ## What the shared tails leave alone -/

theorem cmp_core_eq (cpu : CPU) (r v : Nat) :
    cmp_core cpu r v = { cpu with P := (cmp_core cpu r v).P } := by
  unfold cmp_core CPU.orP CPU.andNotP
  simp only [snz_eq]
  split_ifs <;> rfl

theorem carry_from_eq (cpu : CPU) (v b : Nat) :
    carry_from cpu v b = { cpu with P := (carry_from cpu v b).P } := by
  unfold carry_from CPU.orP CPU.andNotP
  simp only []
  split_ifs <;> rfl

@[simp] theorem snz_PC (cpu : CPU) (v : Nat) :
    (set_zero_and_negative_flags cpu v).PC = cpu.PC := by rw [snz_eq]

@[simp] theorem adc_core_PC (cpu : CPU) (v : Nat) : (adc_core cpu v).PC = cpu.PC := by
  rw [adc_core_eq]

@[simp] theorem sbc_core_PC (cpu : CPU) (v : Nat) : (sbc_core cpu v).PC = cpu.PC := by
  rw [sbc_core_eq]

@[simp] theorem cmp_core_PC (cpu : CPU) (r v : Nat) : (cmp_core cpu r v).PC = cpu.PC := by
  rw [cmp_core_eq]

@[simp] theorem carry_from_PC (cpu : CPU) (v b : Nat) : (carry_from cpu v b).PC = cpu.PC := by
  rw [carry_from_eq]

@[simp] theorem store_PC (cpu : CPU) (a v : Nat) : (cpu.store a v).PC = cpu.PC := rfl

@[simp] theorem orP_PC (cpu : CPU) (m : Nat) : (cpu.orP m).PC = cpu.PC := rfl

@[simp] theorem andNotP_PC (cpu : CPU) (m : Nat) : (cpu.andNotP m).PC = cpu.PC := rfl

@[simp] theorem push_byte_PC (cpu : CPU) (v : Nat) : (push_byte cpu v).PC = cpu.PC := rfl

@[simp] theorem pull_byte_PC (cpu : CPU) : (pull_byte cpu).2.PC = cpu.PC := rfl

/-! ## Operand bytes -/

theorem get_address_PC (ord : EvalOrder) (cpu : CPU) (mode : Mode) (hPC : cpu.PC < 65536) :
    (get_address ord cpu mode).2.PC = (cpu.PC + operand_bytes mode) % 65536 := by
  cases mode <;> cases ord <;>
    simp [get_address, fetch_byte_snd, fetch_word_snd, operand_bytes, u16] <;> omega

theorem get_address_imp (ord : EvalOrder) (cpu : CPU) :
    get_address ord cpu Mode.AM_IMP = (0, cpu) := rfl

/-- A body that does not assign `cpu->PC` leaves it where its `get_address`
call left it. -/
theorem exec_PC (ord : EvalOrder) (op : Nat) (i : Instr) (cpu : CPU)
    (h : i.loadsPC = false) :
    (exec ord op i cpu).2.PC = (get_address ord cpu i.mode).2.PC := by
  cases i <;> first
    | (simp [Instr.loadsPC] at h; done)
    | rfl
    | (simp only [exec, Instr.mode, op_NOP_mode, op_ORA, op_AND, op_EOR, op_ADC, op_SBC,
        op_CMP, op_CPX, op_CPY, op_BIT, op_ASL, op_ROL, op_LSR, op_ROR, op_INC, op_DEC, op_LDA,
        op_LDX, op_LDY, op_STA, op_STX, op_STY, op_SLO, op_RLA, op_SRE, op_RRA, op_DCP, op_ISC,
        op_LAX, op_SAX, op_ANC, op_ALR, op_ARR, op_XAA, op_AXS, op_LAS, op_AHX, op_TAS, op_SHY,
        op_SHX, op_DEY, op_DEX, op_INY, op_INX, op_TXA, op_TYA, op_TAY, op_TAX, op_TSX,
        op_ASL_A, op_ROL_A, op_LSR_A, op_ROR_A, op_PLA, op_PLP,
        snz_PC, adc_core_PC, sbc_core_PC, cmp_core_PC, carry_from_PC, store_PC, orP_PC,
        andNotP_PC, push_byte_PC, pull_byte_PC, apply_ite CPU.PC, ite_self, get_address_imp])

/-- C20: `get_address` advances `PC` by the operand byte count of the mode
(1 for IMM, ZP, ZPX, ZPY, IZX, IZY, REL; 2 for ABS, ABX, ABY, IND; 0 for IMP),
modulo 65536, and changes no other register, flag or memory byte; hence a step
whose body does not assign `PC` advances it by 1, 2 or 3. -/
theorem get_address_consumes_operand (ord : EvalOrder) (cpu : CPU) (mode : Mode)
    (hPC : cpu.PC < 65536) :
    (get_address ord cpu mode).2.PC = (cpu.PC + operand_bytes mode) % 65536 ∧
    (get_address ord cpu mode).2.A = cpu.A ∧ (get_address ord cpu mode).2.X = cpu.X ∧
    (get_address ord cpu mode).2.Y = cpu.Y ∧ (get_address ord cpu mode).2.SP = cpu.SP ∧
    (get_address ord cpu mode).2.P = cpu.P ∧ (get_address ord cpu mode).2.mem = cpu.mem ∧
    ((decode (fetch_byte cpu).1).loadsPC = false →
      (execute_instruction ord cpu).PC =
          (cpu.PC + (1 + operand_bytes (decode (fetch_byte cpu).1).mode)) % 65536 ∧
        1 ≤ 1 + operand_bytes (decode (fetch_byte cpu).1).mode ∧
        1 + operand_bytes (decode (fetch_byte cpu).1).mode ≤ 3) := by
  refine ⟨get_address_PC ord cpu mode hPC, get_address_A _ _ _, get_address_X _ _ _,
    get_address_Y _ _ _, get_address_SP _ _ _, get_address_P _ _ _, get_address_mem _ _ _, ?_⟩
  intro h
  have hb : operand_bytes (decode (fetch_byte cpu).1).mode ≤ 2 := by
    cases (decode (fetch_byte cpu).1).mode <;> decide
  refine ⟨?_, by omega, by omega⟩
  rw [execute_instruction_eq, framebuffer_shim_PC, exec_PC ord _ _ _ h,
    get_address_PC ord _ _ (by rw [fetch_byte_PC]; exact Nat.mod_lt _ (by decide)),
    fetch_byte_PC]
  unfold u16
  omega

theorem get_address_consumes_operand_witness :
    ldaZpDemo.PC < 65536 ∧
    (get_address EvalOrder.callFirst ldaZpDemo Mode.AM_ABS).2.PC = 0x8002 ∧
    (decode (fetch_byte ldaZpDemo).1).loadsPC = false ∧
    (execute_instruction EvalOrder.callFirst ldaZpDemo).PC = 0x8002 := by
  have h := get_address_consumes_operand EvalOrder.callFirst ldaZpDemo Mode.AM_ABS (by decide)
  refine ⟨by decide, ?_, by decide, ?_⟩
  · rw [h.1]; decide
  · rw [(h.2.2.2.2.2.2.2 (by decide)).1]; decide

/-! ## Bit 5 of the status register -/

theorem orP_bit5 (cpu : CPU) (m : Nat) :
    (cpu.orP m).P.testBit 5 = (cpu.P.testBit 5 || m.testBit 5) := by
  simp [CPU.orP, testBit_u8_or]

theorem testBit_5_false (m : Nat) (hm : m / 32 % 2 = 0) : m.testBit 5 = false := by
  rw [Nat.testBit_to_div_mod]
  simp [hm]

theorem orP_bit5_same (cpu : CPU) (m : Nat) (hm : m / 32 % 2 = 0) :
    (cpu.orP m).P.testBit 5 = cpu.P.testBit 5 := by
  simp [orP_bit5, testBit_5_false m hm]

theorem andNotP_bit5 (cpu : CPU) (m : Nat) (hm : m / 32 % 2 = 0) (hlt : m < 2 ^ 32) :
    (cpu.andNotP m).P.testBit 5 = cpu.P.testBit 5 := by
  simp [CPU.andNotP, testBit_u8_and_cnot _ _ _ hlt, testBit_5_false m hm]

theorem snz_bit5 (cpu : CPU) (v : Nat) :
    (set_zero_and_negative_flags cpu v).P.testBit 5 = cpu.P.testBit 5 := by
  rw [snz_eq]
  simp [snzP_testBit]

theorem carry_from_bit5 (cpu : CPU) (v b : Nat) :
    (carry_from cpu v b).P.testBit 5 = cpu.P.testBit 5 := by
  unfold carry_from
  simp only []
  split_ifs <;> simp [orP_bit5_same, andNotP_bit5, FLAG_C]

theorem cmp_core_bit5 (cpu : CPU) (r v : Nat) :
    (cmp_core cpu r v).P.testBit 5 = cpu.P.testBit 5 := by
  unfold cmp_core
  simp only [snz_bit5]
  split_ifs <;> simp [orP_bit5_same, andNotP_bit5, FLAG_C, FLAG_N, FLAG_Z]

theorem adc_core_bit5 (cpu : CPU) (v : Nat) :
    (adc_core cpu v).P.testBit 5 = cpu.P.testBit 5 := by
  unfold adc_core
  simp only [snz_bit5]
  split_ifs <;> simp [orP_bit5_same, andNotP_bit5, FLAG_C, FLAG_N, FLAG_Z, FLAG_V]

theorem sbc_core_bit5 (cpu : CPU) (v : Nat) :
    (sbc_core cpu v).P.testBit 5 = cpu.P.testBit 5 := by
  unfold sbc_core
  simp only [snz_bit5]
  split_ifs <;> simp [orP_bit5_same, andNotP_bit5, FLAG_C, FLAG_N, FLAG_Z, FLAG_V]

theorem orP_0x20_bit5 (cpu : CPU) : (cpu.orP 0x20).P.testBit 5 = true := by
  rw [orP_bit5]
  have : Nat.testBit 0x20 5 = true := by decide
  simp [this]

theorem op_BIT_bit5 (ord : EvalOrder) (mode : Mode) (cpu : CPU)
    (h : cpu.P.testBit 5 = true) : (op_BIT ord mode cpu).2.P.testBit 5 = true := by
  unfold op_BIT
  simp only []
  split_ifs <;>
    simp [orP_bit5_same, andNotP_bit5, FLAG_C, FLAG_N, FLAG_Z, FLAG_V, h]

/-- Every body of the switch keeps bit 5 of `P` set. -/
theorem exec_bit5 (ord : EvalOrder) (op : Nat) (i : Instr) (cpu : CPU)
    (h : cpu.P.testBit 5 = true) : (exec ord op i cpu).2.P.testBit 5 = true := by
  cases i
  case BIT m => exact op_BIT_bit5 ord m cpu h
  all_goals
    simp only [exec, op_BRK, op_KIL, op_unknown, op_JSR, op_RTS, op_RTI, op_JMP, op_branch,
      op_NOP_mode, op_ORA, op_AND, op_EOR, op_ADC, op_SBC,
      op_CMP, op_CPX, op_CPY, op_BIT, op_ASL, op_ROL, op_LSR, op_ROR, op_INC, op_DEC, op_LDA,
      op_LDX, op_LDY, op_STA, op_STX, op_STY, op_SLO, op_RLA, op_SRE, op_RRA, op_DCP, op_ISC,
      op_LAX, op_SAX, op_ANC, op_ALR, op_ARR, op_XAA, op_AXS, op_LAS, op_AHX, op_TAS, op_SHY,
      op_SHX, op_DEY, op_DEX, op_INY, op_INX, op_TXA, op_TYA, op_TAY, op_TAX, op_TSX,
      op_ASL_A, op_ROL_A, op_LSR_A, op_ROR_A, op_PLA, op_PLP, push_byte, pull_byte, CPU.store,
      snz_bit5, adc_core_bit5, sbc_core_bit5, cmp_core_bit5, carry_from_bit5, orP_0x20_bit5,
      get_address_P, apply_ite CPU.P, apply_ite (fun x => Nat.testBit x 5),
      apply_ite Prod.snd, ite_self, h] <;>
    simp [orP_bit5_same, andNotP_bit5, carry_from_bit5, snz_bit5, FLAG_C, FLAG_N, FLAG_Z,
      FLAG_V, FLAG_I, FLAG_D, FLAG_B, h]

/-- C12: bit 5 of `P` is an invariant: it is set after `reset`, and from every
state in which it is set, every body of the switch (every opcode byte) and so
every step leaves it set, `PLP` and `RTI` included whatever byte they pull. -/
theorem bit5_invariant :
    (∀ (cpu : CPU) (seeded : Nat → Nat), (reset cpu seeded).P &&& 0x20 ≠ 0) ∧
    (∀ (ord : EvalOrder) (op : Nat) (cpu : CPU), cpu.P &&& 0x20 ≠ 0 →
      (exec ord op (decode op) cpu).2.P &&& 0x20 ≠ 0) ∧
    (∀ (ord : EvalOrder) (cpu : CPU), cpu.P &&& 0x20 ≠ 0 →
      (execute_instruction ord cpu).P &&& 0x20 ≠ 0) := by
  refine ⟨?_, ?_, ?_⟩
  · intro cpu seeded
    have : (reset cpu seeded).P = 0x20 := by simp [reset, u8]
    rw [this]
    decide
  · intro ord op cpu h
    rw [and_32_iff] at h ⊢
    exact exec_bit5 ord op _ cpu h
  · intro ord cpu h
    rw [and_32_iff] at h ⊢
    rw [execute_instruction_eq, framebuffer_shim_P]
    exact exec_bit5 ord _ _ _ (by rw [fetch_byte_P]; exact h)

theorem bit5_invariant_witness :
    plpDemo.P &&& 0x20 ≠ 0 ∧ decode (fetch_byte plpDemo).1 = Instr.PLP ∧
    plpDemo.mem 0x01FF = 0x00 ∧
    (execute_instruction EvalOrder.callFirst plpDemo).P &&& 0x20 ≠ 0 ∧
    (execute_instruction EvalOrder.callFirst plpDemo).P = 0x20 :=
  ⟨by decide, rfl, by decide, bit5_invariant.2.2 EvalOrder.callFirst plpDemo (by decide),
    by decide⟩

/-! ## Compares -/

theorem cmp_core_P (cpu : CPU) (r v : Nat) : (cmp_core cpu r v).P = cmpP cpu.P r v := by
  unfold cmp_core cmpP CPU.orP CPU.andNotP
  simp only [snz_eq]
  split_ifs <;> rfl

theorem and_64_congr (x y : Nat) (h : x.testBit 6 = y.testBit 6) : x &&& 0x40 = y &&& 0x40 := by
  apply Nat.eq_of_testBit_eq
  intro i
  rw [Nat.testBit_and, Nat.testBit_and, show (0x40 : Nat) = 2 ^ 6 by decide, Nat.testBit_two_pow]
  by_cases hi : 6 = i
  · subst hi; simp [h]
  · simp [hi]

/-- The flags the compare tail computes. -/
theorem cmpP_spec (p r v : Nat) (hr : r < 256) (hv : v < 256) :
    (cmpP p r v &&& FLAG_C ≠ 0 ↔ r ≥ v) ∧
    (cmpP p r v &&& FLAG_Z ≠ 0 ↔ r = v) ∧
    (cmpP p r v &&& FLAG_N ≠ 0 ↔ ((r : Int) - v) % 256 ≥ 128) ∧
    cmpP p r v &&& FLAG_V = p &&& FLAG_V := by
  have hm : (0x83 : Nat) < 2 ^ 32 := by decide
  have hlt : u8i ((r : Int) - v) < 256 := by unfold u8i; omega
  have h7 := testBit_7_iff_ge _ hlt
  unfold cmpP
  simp only [FLAG_N, FLAG_V, FLAG_Z, FLAG_C, Nat.reduceOr, and_1_iff, and_2_iff, and_128_iff,
    snzP_testBit]
  simp only [Nat.reduceEqDiff, Nat.reduceLT, decide_True, Bool.true_and, if_true, if_false,
    Nat.zero_ne_one, Nat.succ_ne_self, reduceIte]
  refine ⟨?_, ?_, ?_, ?_⟩
  · split_ifs <;> simp only [testBit_u8_or, testBit_u8_and_cnot _ _ _ hm] <;>
      simp_all [Nat.testBit_to_div_mod]
  · simp only [decide_eq_true_eq]
    unfold u8i
    omega
  · rw [h7]
    unfold u8i
    omega
  · apply and_64_congr
    rw [snzP_testBit]
    simp only [Nat.reduceEqDiff, Nat.reduceLT, decide_True, Bool.true_and, if_true, if_false,
      reduceIte]
    split_ifs <;> simp only [testBit_u8_or, testBit_u8_and_cnot _ _ _ hm] <;>
      simp_all [Nat.testBit_to_div_mod]

theorem step_compare (ord : EvalOrder) (cpu : CPU) (mode : Mode) (i : Instr) (R : Nat)
    (hi : (i = Instr.CMP mode ∧ R = cpu.A) ∨ (i = Instr.CPX mode ∧ R = cpu.X) ∨
      (i = Instr.CPY mode ∧ R = cpu.Y))
    (hop : decode (fetch_byte cpu).1 = i) :
    execute_instruction ord cpu =
      framebuffer_shim (get_address ord (fetch_byte cpu).2 mode).1
        (cmp_core (get_address ord (fetch_byte cpu).2 mode).2 R
          (cpu.mem (get_address ord (fetch_byte cpu).2 mode).1)) := by
  rw [execute_instruction_eq, hop]
  rcases hi with ⟨rfl, rfl⟩ | ⟨rfl, rfl⟩ | ⟨rfl, rfl⟩ <;>
    simp only [exec, op_CMP, op_CPX, op_CPY, get_address_mem, fetch_byte_mem, get_address_A,
      get_address_X, get_address_Y, fetch_byte_A, fetch_byte_X, fetch_byte_Y]

theorem cpxDemo_wf : cpxDemo.WF :=
  ⟨by decide, by decide, by decide, by decide, by decide, by decide,
   by intro a; simp only [cpxDemo]; split_ifs <;> decide, by decide⟩

/-- C16: a compare instruction on the register `R` (`CMP` on `A`, `CPX` on
`X`, `CPY` on `Y`, any of their opcodes) with operand byte `M` sets
`C = (R >= M)`, `Z = (R = M)`, `N` = bit 7 of `(R - M) mod 256`, and leaves the
registers, `V` and memory unchanged. -/
theorem compare_step (ord : EvalOrder) (cpu : CPU) (mode : Mode) (i : Instr) (R : Nat)
    (hwf : cpu.WF)
    (hi : (i = Instr.CMP mode ∧ R = cpu.A) ∨ (i = Instr.CPX mode ∧ R = cpu.X) ∨
      (i = Instr.CPY mode ∧ R = cpu.Y))
    (hop : decode (fetch_byte cpu).1 = i) :
    let M := cpu.mem (get_address ord (fetch_byte cpu).2 mode).1
    let cpu' := execute_instruction ord cpu
    (cpu'.P &&& FLAG_C ≠ 0 ↔ R ≥ M) ∧
    (cpu'.P &&& FLAG_Z ≠ 0 ↔ R = M) ∧
    (cpu'.P &&& FLAG_N ≠ 0 ↔ ((R : Int) - M) % 256 ≥ 128) ∧
    cpu'.P &&& FLAG_V = cpu.P &&& FLAG_V ∧
    cpu'.A = cpu.A ∧ cpu'.X = cpu.X ∧ cpu'.Y = cpu.Y ∧ cpu'.SP = cpu.SP ∧
    cpu'.mem = cpu.mem := by
  intro M cpu'
  have hstep : cpu' = _ := step_compare ord cpu mode i R hi hop
  have hR : R < 256 := by
    rcases hi with ⟨_, rfl⟩ | ⟨_, rfl⟩ | ⟨_, rfl⟩
    · exact hwf.hA
    · exact hwf.hX
    · exact hwf.hY
  have hP : cpu'.P = cmpP cpu.P R M := by
    rw [hstep, framebuffer_shim_P, cmp_core_P, get_address_P, fetch_byte_P]
  have hs := cmpP_spec cpu.P R M hR (hwf.hmem _)
  rw [hP]
  refine ⟨hs.1, hs.2.1, hs.2.2.1, hs.2.2.2, ?_, ?_, ?_, ?_, ?_⟩ <;>
    rw [hstep, cmp_core_eq] <;> simp

theorem compare_step_witness :
    cpxDemo.WF ∧ decode (fetch_byte cpxDemo).1 = Instr.CPX Mode.AM_IMM ∧
    ((execute_instruction EvalOrder.callFirst cpxDemo).P &&& FLAG_C ≠ 0 ↔
      cpxDemo.X ≥ cpxDemo.mem 0x8001) ∧
    (execute_instruction EvalOrder.callFirst cpxDemo).X = 0x20 ∧
    (execute_instruction EvalOrder.callFirst cpxDemo).P = 0xE0 := by
  have h := compare_step EvalOrder.callFirst cpxDemo Mode.AM_IMM (Instr.CPX Mode.AM_IMM)
    cpxDemo.X cpxDemo_wf (Or.inr (Or.inl ⟨rfl, rfl⟩)) rfl
  exact ⟨cpxDemo_wf, rfl, h.1, h.2.2.2.2.2.1, by decide⟩

/-! ## Single steps outside the zero page -/

theorem fetch_byte_fst (cpu : CPU) (h : 0x100 ≤ cpu.PC) : (fetch_byte cpu).1 = cpu.mem cpu.PC := by
  unfold fetch_byte
  simp only []
  rw [if_neg (by omega), if_neg (by omega)]

/-- `LDA #imm` away from the zero page and the top of memory. -/
theorem step_LDA_imm (ord : EvalOrder) (cpu : CPU) (hlo : 0x100 ≤ cpu.PC)
    (hhi : cpu.PC + 1 < 65536) (hop : cpu.mem cpu.PC = 0xA9) :
    (execute_instruction ord cpu).PC = (cpu.PC + 2) % 65536 ∧
    (execute_instruction ord cpu).A = cpu.mem (cpu.PC + 1) ∧
    (execute_instruction ord cpu).mem = cpu.mem ∧
    (execute_instruction ord cpu).P = snzP cpu.P (cpu.mem (cpu.PC + 1)) := by
  have h1 : u16 (cpu.PC + 1) = cpu.PC + 1 := Nat.mod_eq_of_lt hhi
  have hd : decode (fetch_byte cpu).1 = Instr.LDA Mode.AM_IMM := by
    rw [fetch_byte_fst cpu hlo, hop]; rfl
  rw [execute_instruction_eq, hd]
  simp only [exec, op_LDA, get_address, snz_eq, framebuffer_shim_PC, framebuffer_shim_A,
    framebuffer_shim_mem, framebuffer_shim_P, fetch_byte_PC, fetch_byte_mem, fetch_byte_P, h1]
  exact ⟨rfl, trivial, trivial, trivial⟩

/-- `STA zp` away from the zero page and the top of memory. -/
theorem step_STA_zp (ord : EvalOrder) (cpu : CPU) (hlo : 0x100 ≤ cpu.PC)
    (hhi : cpu.PC + 1 < 65536) (hop : cpu.mem cpu.PC = 0x85) :
    (execute_instruction ord cpu).PC = (cpu.PC + 2) % 65536 ∧
    (execute_instruction ord cpu).A = cpu.A ∧
    (execute_instruction ord cpu).mem =
      (fun a => if a = cpu.mem (cpu.PC + 1) then cpu.A % 256 else cpu.mem a) ∧
    (execute_instruction ord cpu).P = cpu.P := by
  have h1 : u16 (cpu.PC + 1) = cpu.PC + 1 := Nat.mod_eq_of_lt hhi
  have hd : decode (fetch_byte cpu).1 = Instr.STA Mode.AM_ZP := by
    rw [fetch_byte_fst cpu hlo, hop]; rfl
  have hz : (fetch_byte (fetch_byte cpu).2).1 = cpu.mem (cpu.PC + 1) := by
    rw [fetch_byte_fst _ (by rw [fetch_byte_PC, h1]; omega), fetch_byte_mem, fetch_byte_PC, h1]
  rw [execute_instruction_eq, hd]
  simp only [exec, op_STA, get_address, CPU.store, framebuffer_shim_PC, framebuffer_shim_A,
    framebuffer_shim_mem, framebuffer_shim_P, fetch_byte_PC, fetch_byte_mem, fetch_byte_P,
    fetch_byte_A, h1, hz]
  exact ⟨rfl, trivial, trivial, trivial⟩

/-- `ORA zp` away from the zero page and the top of memory. -/
theorem step_ORA_zp (ord : EvalOrder) (cpu : CPU) (hlo : 0x100 ≤ cpu.PC)
    (hhi : cpu.PC + 1 < 65536) (hop : cpu.mem cpu.PC = 0x05) :
    (execute_instruction ord cpu).PC = (cpu.PC + 2) % 65536 ∧
    (execute_instruction ord cpu).A = u8 (cpu.A ||| cpu.mem (cpu.mem (cpu.PC + 1))) ∧
    (execute_instruction ord cpu).mem = cpu.mem ∧
    (execute_instruction ord cpu).P =
      snzP cpu.P (u8 (cpu.A ||| cpu.mem (cpu.mem (cpu.PC + 1)))) := by
  have h1 : u16 (cpu.PC + 1) = cpu.PC + 1 := Nat.mod_eq_of_lt hhi
  have hd : decode (fetch_byte cpu).1 = Instr.ORA Mode.AM_ZP := by
    rw [fetch_byte_fst cpu hlo, hop]; rfl
  have hz : (fetch_byte (fetch_byte cpu).2).1 = cpu.mem (cpu.PC + 1) := by
    rw [fetch_byte_fst _ (by rw [fetch_byte_PC, h1]; omega), fetch_byte_mem, fetch_byte_PC, h1]
  rw [execute_instruction_eq, hd]
  simp only [exec, op_ORA, get_address, snz_eq, framebuffer_shim_PC, framebuffer_shim_A,
    framebuffer_shim_mem, framebuffer_shim_P, fetch_byte_PC, fetch_byte_mem, fetch_byte_P,
    fetch_byte_A, h1, hz]
  exact ⟨rfl, trivial, trivial, trivial⟩

/-- C18: the program `LDA #M ; STA $40 ; LDA #0 ; ORA $40`, placed anywhere above the
stack page and below the top of memory, ends after four instructions with `A = M`, with
`N` set exactly when `M ≥ 0x80` and `Z` set exactly when `M = 0`, and with `M` stored at
`0x0040`. -/
theorem store_then_ora_program (ord : EvalOrder) (cpu : CPU) (M : Nat) (hM : M < 256)
    (hlo : 0x100 ≤ cpu.PC) (hhi : cpu.PC + 8 ≤ 65536)
    (h0 : cpu.mem cpu.PC = 0xA9) (h1 : cpu.mem (cpu.PC + 1) = M)
    (h2 : cpu.mem (cpu.PC + 2) = 0x85) (h3 : cpu.mem (cpu.PC + 3) = 0x40)
    (h4 : cpu.mem (cpu.PC + 4) = 0xA9) (h5 : cpu.mem (cpu.PC + 5) = 0x00)
    (h6 : cpu.mem (cpu.PC + 6) = 0x05) (h7 : cpu.mem (cpu.PC + 7) = 0x40) :
    let cpu' := execute_instruction ord (execute_instruction ord
      (execute_instruction ord (execute_instruction ord cpu)))
    cpu'.A = M ∧ (cpu'.P &&& FLAG_N ≠ 0 ↔ M ≥ 0x80) ∧ (cpu'.P &&& FLAG_Z ≠ 0 ↔ M = 0) ∧
    cpu'.mem 0x40 = M := by
  intro cpu'
  -- LDA #M
  obtain ⟨p1, a1, m1, -⟩ := step_LDA_imm ord cpu hlo (by omega) h0
  rw [Nat.mod_eq_of_lt (by omega)] at p1
  rw [h1] at a1
  -- STA $40
  obtain ⟨p2, a2, m2, -⟩ := step_STA_zp ord (execute_instruction ord cpu)
    (by rw [p1]; omega) (by rw [p1]; omega) (by rw [m1, p1, h2])
  rw [p1, Nat.mod_eq_of_lt (by omega)] at p2
  rw [m1, p1, a1, h3, Nat.mod_eq_of_lt hM] at m2
  -- LDA #0
  have pc4 : (execute_instruction ord (execute_instruction ord cpu)).mem (cpu.PC + 2 + 2) = 0xA9 := by
    rw [m2]; simp only []; rw [if_neg (by omega)]; exact h4
  have pc5 : (execute_instruction ord (execute_instruction ord cpu)).mem (cpu.PC + 2 + 2 + 1) = 0 := by
    rw [m2]; simp only []; rw [if_neg (by omega)]; exact h5
  have pc6 : (execute_instruction ord (execute_instruction ord cpu)).mem (cpu.PC + 2 + 2 + 2) = 0x05 := by
    rw [m2]; simp only []; rw [if_neg (by omega)]; exact h6
  have pc7 : (execute_instruction ord (execute_instruction ord cpu)).mem (cpu.PC + 2 + 2 + 2 + 1) = 0x40 := by
    rw [m2]; simp only []; rw [if_neg (by omega)]; exact h7
  have z40 : (execute_instruction ord (execute_instruction ord cpu)).mem 0x40 = M := by
    rw [m2]; simp
  obtain ⟨p3, a3, m3, -⟩ := step_LDA_imm ord
    (execute_instruction ord (execute_instruction ord cpu))
    (by rw [p2]; omega) (by rw [p2]; omega) (by rw [p2]; exact pc4)
  rw [p2, Nat.mod_eq_of_lt (by omega)] at p3
  rw [p2, pc5] at a3
  -- ORA $40
  obtain ⟨-, a4, m4, f4⟩ := step_ORA_zp ord
    (execute_instruction ord (execute_instruction ord (execute_instruction ord cpu)))
    (by rw [p3]; omega) (by rw [p3]; omega) (by rw [p3, m3]; exact pc6)
  rw [p3, m3, pc7, z40, a3, Nat.zero_or] at a4 f4
  have hu : u8 M = M := Nat.mod_eq_of_lt hM
  rw [hu] at a4 f4
  have hN : (snzP (execute_instruction ord (execute_instruction ord
      (execute_instruction ord cpu))).P M) &&& FLAG_N ≠ 0 ↔ M ≥ 0x80 := by
    rw [FLAG_N, and_128_iff, snzP_testBit, ← testBit_7_iff_ge M hM]
    simp
  have hZ : (snzP (execute_instruction ord (execute_instruction ord
      (execute_instruction ord cpu))).P M) &&& FLAG_Z ≠ 0 ↔ M = 0 := by
    rw [FLAG_Z, and_2_iff, snzP_testBit]
    simp
  rw [← f4] at hN hZ
  exact ⟨a4, hN, hZ, by rw [m4, m3, z40]⟩

theorem store_then_ora_program_witness :
    (let cpu' := execute_instruction EvalOrder.callFirst (execute_instruction EvalOrder.callFirst
      (execute_instruction EvalOrder.callFirst
        (execute_instruction EvalOrder.callFirst (progDemo 0x80))))
    cpu'.A = 0x80 ∧ (cpu'.P &&& FLAG_N ≠ 0 ↔ 0x80 ≥ 0x80) ∧
    (cpu'.P &&& FLAG_Z ≠ 0 ↔ 0x80 = 0) ∧ cpu'.mem 0x40 = 0x80) :=
  store_then_ora_program EvalOrder.callFirst (progDemo 0x80) 0x80 (by decide) (by decide)
    (by decide) rfl rfl rfl rfl rfl rfl rfl rfl

/-! ## Reserved addresses and zero-page operands -/

theorem step_LDA_zp_A (ord : EvalOrder) (cpu : CPU)
    (hop : decode (fetch_byte cpu).1 = Instr.LDA Mode.AM_ZP) :
    (execute_instruction ord cpu).A = cpu.mem (fetch_byte (fetch_byte cpu).2).1 := by
  rw [execute_instruction_eq, hop]
  simp only [exec, op_LDA, get_address, snz_eq, framebuffer_shim_A, fetch_byte_mem]

theorem step_LDA_zp_mem (ord : EvalOrder) (cpu : CPU) (hlo : 0x100 ≤ cpu.PC)
    (hhi : cpu.PC + 1 < 65536) (hop : cpu.mem cpu.PC = 0xA5) :
    (execute_instruction ord cpu).A = cpu.mem (cpu.mem (cpu.PC + 1)) := by
  have h1 : u16 (cpu.PC + 1) = cpu.PC + 1 := Nat.mod_eq_of_lt hhi
  have hd : decode (fetch_byte cpu).1 = Instr.LDA Mode.AM_ZP := by
    rw [fetch_byte_fst cpu hlo, hop]; rfl
  rw [step_LDA_zp_A ord cpu hd,
    fetch_byte_fst _ (by rw [fetch_byte_PC, h1]; omega), fetch_byte_mem, fetch_byte_PC, h1]

/-- C21: the reserved addresses answer only the byte fetch that advances `PC`:
`fetch_byte` at `PC = 0x00FF` returns the keyboard latch (and at `0x00FE` a
random byte), while a step that fetches `LDA z` loads `A = mem[z]` for every
operand `z`, `0xFE` and `0xFF` included; with the instruction outside the zero
page the loaded value is the same whatever the latch and the random source
hold. -/
theorem reserved_addresses_fetch_only (ord : EvalOrder) (cpu : CPU) (z : Nat) :
    (cpu.PC = 0x00FF → (fetch_byte cpu).1 = cpu.keyboard_input) ∧
    (cpu.PC = 0x00FE → (fetch_byte cpu).1 = cpu.rand_seq cpu.rand_calls % 256) ∧
    (decode (fetch_byte cpu).1 = Instr.LDA Mode.AM_ZP →
      (fetch_byte (fetch_byte cpu).2).1 = z → (execute_instruction ord cpu).A = cpu.mem z) ∧
    (0x100 ≤ cpu.PC → cpu.PC + 1 < 65536 → cpu.mem cpu.PC = 0xA5 →
      cpu.mem (cpu.PC + 1) = z → ∀ k r n,
      (execute_instruction ord
        { cpu with keyboard_input := k, rand_seq := r, rand_calls := n }).A = cpu.mem z) := by
  refine ⟨?_, ?_, ?_, ?_⟩
  · intro h
    unfold fetch_byte
    simp only []
    rw [if_neg (by omega), if_pos h]
  · intro h
    unfold fetch_byte
    simp only []
    rw [if_pos h]
    show u8 (cpu.rand_seq cpu.rand_calls &&& 0xff) = _
    rw [and_0xFF]
    unfold u8
    omega
  · intro hop hz
    rw [step_LDA_zp_A ord cpu hop, hz]
  · intro hlo hhi h0 h1 k r n
    have h := step_LDA_zp_mem ord
      { cpu with keyboard_input := k, rand_seq := r, rand_calls := n } hlo hhi h0
    rw [h]
    show cpu.mem (cpu.mem (cpu.PC + 1)) = _
    rw [h1]

theorem reserved_addresses_fetch_only_witness :
    decode (fetch_byte (ldaPortDemo 0xFE)).1 = Instr.LDA Mode.AM_ZP ∧
    (fetch_byte (fetch_byte (ldaPortDemo 0xFE)).2).1 = 0xFE ∧
    (execute_instruction EvalOrder.callFirst (ldaPortDemo 0xFE)).A = (ldaPortDemo 0xFE).mem 0xFE ∧
    (execute_instruction EvalOrder.callFirst (ldaPortDemo 0xFE)).A = 0x42 :=
  ⟨rfl, rfl,
    (reserved_addresses_fetch_only EvalOrder.callFirst (ldaPortDemo 0xFE) 0xFE).2.2.1 rfl rfl,
    by decide⟩

/-- C22: with `z` the operand byte the resolver fetches, the `AM_ZPX`
effective address is `(z + X) mod 256` and the `AM_ZPY` one `(z + Y) mod 256`;
both lie in `0x0000..0x00FF`, whatever `z`, `X` and `Y`. -/
theorem zero_page_indexed_address (ord : EvalOrder) (cpu : CPU) :
    (get_address ord cpu Mode.AM_ZPX).1 = ((fetch_byte cpu).1 + cpu.X) % 256 ∧
    (get_address ord cpu Mode.AM_ZPY).1 = ((fetch_byte cpu).1 + cpu.Y) % 256 ∧
    (get_address ord cpu Mode.AM_ZPX).1 ≤ 0x00FF ∧
    (get_address ord cpu Mode.AM_ZPY).1 ≤ 0x00FF := by
  have hx : (get_address ord cpu Mode.AM_ZPX).1 = ((fetch_byte cpu).1 + cpu.X) % 256 := by
    simp only [get_address, fetch_byte_X, and_0xFF]
  have hy : (get_address ord cpu Mode.AM_ZPY).1 = ((fetch_byte cpu).1 + cpu.Y) % 256 := by
    simp only [get_address, fetch_byte_Y, and_0xFF]
  refine ⟨hx, hy, ?_, ?_⟩
  · rw [hx]; omega
  · rw [hy]; omega

/-- C23: with `z` the operand byte the resolver fetches and
`p = (z + X) mod 256`, the `AM_IZX` effective address is
`mem[p] + 256 * mem[(p + 1) mod 256]`: both pointer bytes come from the zero
page, the high byte from `0x0000` when `p = 0xFF`. -/
theorem izx_address (ord : EvalOrder) (cpu : CPU) (hmem : ∀ a, cpu.mem a < 256) :
    let p := ((fetch_byte cpu).1 + cpu.X) % 256
    (get_address ord cpu Mode.AM_IZX).1 = cpu.mem p + 256 * cpu.mem ((p + 1) % 256) ∧
    p ≤ 0x00FF ∧ (p + 1) % 256 ≤ 0x00FF ∧
    (p = 0xFF → (get_address ord cpu Mode.AM_IZX).1 = cpu.mem 0x00FF + 256 * cpu.mem 0x0000) := by
  intro p
  have hp : u8 (((fetch_byte cpu).1 + cpu.X) % 256) = p := Nat.mod_mod _ _
  have h : (get_address ord cpu Mode.AM_IZX).1 = cpu.mem p + 256 * cpu.mem ((p + 1) % 256) := by
    simp only [get_address, fetch_byte_X, fetch_byte_mem, and_0xFF, hp]
    exact u16_word _ _ (hmem _) (hmem _)
  refine ⟨h, by omega, by omega, ?_⟩
  intro h255
  rw [h, h255]

theorem izx_address_witness :
    ((fetch_byte zpDemo).1 + zpDemo.X) % 256 = 0xFF ∧
    (get_address EvalOrder.callFirst zpDemo Mode.AM_IZX).1 = 0x1234 := by
  have h := izx_address EvalOrder.callFirst zpDemo
    (by intro a; simp only [zpDemo]; split_ifs <;> decide)
  refine ⟨by decide, ?_⟩
  rw [h.1]; decide

/-- C24: with `p` the operand byte the resolver fetches, the `AM_IZY` effective
address is `(mem[p] + 256 * mem[(p + 1) mod 256] + Y) mod 65536`: the high
pointer byte comes from the zero page (from `0x0000` when `p = 0xFF`) and the
sum with `Y` wraps at 16 bits. -/
theorem izy_address (ord : EvalOrder) (cpu : CPU) (hmem : ∀ a, cpu.mem a < 256) :
    let p := (fetch_byte cpu).1
    (get_address ord cpu Mode.AM_IZY).1 =
      (cpu.mem p + 256 * cpu.mem ((p + 1) % 256) + cpu.Y) % 65536 ∧
    (p + 1) % 256 ≤ 0x00FF ∧
    (p = 0xFF → (get_address ord cpu Mode.AM_IZY).1 =
      (cpu.mem 0x00FF + 256 * cpu.mem 0x0000 + cpu.Y) % 65536) := by
  intro p
  have h : (get_address ord cpu Mode.AM_IZY).1 =
      (cpu.mem p + 256 * cpu.mem ((p + 1) % 256) + cpu.Y) % 65536 := by
    simp only [get_address, fetch_byte_Y, fetch_byte_mem, and_0xFF]
    rw [u16_word _ _ (hmem _) (hmem _)]
    rfl
  refine ⟨h, by omega, ?_⟩
  intro h255
  rw [h, h255]

theorem izy_address_witness :
    (fetch_byte izyDemo).1 = 0xFF ∧
    (get_address EvalOrder.callFirst izyDemo Mode.AM_IZY).1 = 0x0020 := by
  have h := izy_address EvalOrder.callFirst izyDemo
    (by intro a; simp only [izyDemo]; split_ifs <;> decide)
  refine ⟨by decide, ?_⟩
  rw [h.1]; decide

/-! ## Read-modify-write instructions -/

theorem carry_from_carryP (cpu : CPU) (v b : Nat) :
    carry_from cpu v b = { cpu with P := carryP cpu.P v b } := by
  unfold carry_from carryP CPU.orP CPU.andNotP
  simp only []
  split_ifs <;> rfl

theorem carryP_testBit (p v b i : Nat) :
    (carryP p v b).testBit i =
      (decide (i < 8) && (if i = 0 then decide (v &&& b ≠ 0) else p.testBit i)) := by
  have h1 : ∀ j, Nat.testBit 1 j = decide (j = 0) := by
    intro j
    have : (1 : Nat) = 2 ^ 0 := by decide
    rw [this, Nat.testBit_two_pow]; simp [eq_comm]
  have hm : (1 : Nat) < 2 ^ 32 := by decide
  unfold carryP
  simp only [FLAG_C]
  by_cases h0 : i = 0
  · subst h0
    split_ifs <;> simp only [testBit_u8_or, testBit_u8_and_cnot _ _ _ hm, h1] <;> simp_all
  · split_ifs <;> simp only [testBit_u8_or, testBit_u8_and_cnot _ _ _ hm, h1] <;> simp_all

theorem temp_carry_le (cpu : CPU) : temp_carry_of cpu ≤ 1 := by
  unfold temp_carry_of
  split_ifs <;> omega

theorem step_RLA (ord : EvalOrder) (cpu : CPU) (mode : Mode)
    (hop : decode (fetch_byte cpu).1 = Instr.RLA mode) :
    (execute_instruction ord cpu).mem =
      (fun b => if b = (get_address ord (fetch_byte cpu).2 mode).1
        then ((cpu.mem (get_address ord (fetch_byte cpu).2 mode).1 <<< 1) |||
          temp_carry_of cpu) % 256 else cpu.mem b) ∧
    (execute_instruction ord cpu).A =
      u8 (cpu.A &&& ((cpu.mem (get_address ord (fetch_byte cpu).2 mode).1 <<< 1) |||
          temp_carry_of cpu) % 256) ∧
    (execute_instruction ord cpu).P =
      snzP (carryP cpu.P (cpu.mem (get_address ord (fetch_byte cpu).2 mode).1) 0x80)
        (u8 (cpu.A &&& ((cpu.mem (get_address ord (fetch_byte cpu).2 mode).1 <<< 1) |||
          temp_carry_of cpu) % 256)) := by
  rw [execute_instruction_eq, hop]
  simp only [exec, op_RLA, carry_from_carryP, snz_eq, CPU.store, temp_carry_of,
    framebuffer_shim_mem, framebuffer_shim_A, framebuffer_shim_P, get_address_mem,
    get_address_A, get_address_P, fetch_byte_mem, fetch_byte_A, fetch_byte_P, if_true]
  exact ⟨trivial, trivial, trivial⟩

theorem rlaDemo_wf : rlaDemo.WF :=
  ⟨by decide, by decide, by decide, by decide, by decide, by decide,
   by intro a; simp only [rlaDemo]; split_ifs <;> decide, by decide⟩

/-- C25: every RLA instruction, with `m` the byte at the effective address `a`
and `c` the carry-in, leaves `mem[a] = ((m << 1) | c) mod 256` and no other
byte changed, `C` = bit 7 of `m`, `A` = old `A` and the new `mem[a]`, and `Z`,
`N` from the new `A`; with `m = 0x81`, `A = 0x0F`, `c = 0` it leaves
`mem[a] = 0x02`, `C = 1`, `A = 0x02`, `N = 0`, `Z = 0`. -/
theorem rla_step (ord : EvalOrder) (cpu : CPU) (mode : Mode) (hwf : cpu.WF)
    (hop : decode (fetch_byte cpu).1 = Instr.RLA mode) :
    let a := (get_address ord (fetch_byte cpu).2 mode).1
    let m := cpu.mem a
    let c := if cpu.P &&& FLAG_C ≠ 0 then 1 else 0
    let cpu' := execute_instruction ord cpu
    cpu'.mem a = ((m <<< 1) ||| c) % 256 ∧
    (∀ b, b ≠ a → cpu'.mem b = cpu.mem b) ∧
    (cpu'.P &&& FLAG_C ≠ 0 ↔ m ≥ 128) ∧
    cpu'.A = cpu.A &&& cpu'.mem a ∧
    (cpu'.P &&& FLAG_Z ≠ 0 ↔ cpu'.A = 0) ∧
    (cpu'.P &&& FLAG_N ≠ 0 ↔ cpu'.A ≥ 128) ∧
    (cpu.A = 0x0F → m = 0x81 → c = 0 →
      cpu'.mem a = 0x02 ∧ cpu'.P &&& FLAG_C ≠ 0 ∧ cpu'.A = 0x02 ∧
      cpu'.P &&& FLAG_N = 0 ∧ cpu'.P &&& FLAG_Z = 0) := by
  intro a m c cpu'
  obtain ⟨hmem, hA, hP⟩ := step_RLA ord cpu mode hop
  have hma : cpu'.mem a = ((m <<< 1) ||| c) % 256 := by
    show (execute_instruction ord cpu).mem a = _
    rw [hmem]
    simp only [if_true]
    rfl
  have hlt : cpu'.mem a < 256 := by rw [hma]; exact Nat.mod_lt _ (by decide)
  have hA' : cpu'.A = cpu.A &&& cpu'.mem a := by
    show (execute_instruction ord cpu).A = _
    rw [hA, hma]
    exact Nat.mod_eq_of_lt (Nat.lt_of_le_of_lt Nat.and_le_right (Nat.mod_lt _ (by decide)))
  have hA256 : cpu'.A < 256 := by rw [hA']; exact Nat.lt_of_le_of_lt Nat.and_le_right hlt
  have hP' : cpu'.P = snzP (carryP cpu.P m 0x80) cpu'.A := by
    show (execute_instruction ord cpu).P = snzP _ (execute_instruction ord cpu).A
    rw [hP, hA]
  have hC : cpu'.P &&& FLAG_C ≠ 0 ↔ m ≥ 128 := by
    have h := (and_128_iff m).trans (testBit_7_iff_ge m (hwf.hmem _))
    rw [hP', FLAG_C, and_1_iff, snzP_testBit, carryP_testBit]
    simpa using h
  have hZ : cpu'.P &&& FLAG_Z ≠ 0 ↔ cpu'.A = 0 := by
    rw [hP', FLAG_Z, and_2_iff, snzP_testBit]
    simp
  have hN : cpu'.P &&& FLAG_N ≠ 0 ↔ cpu'.A ≥ 128 := by
    rw [hP', FLAG_N, and_128_iff, snzP_testBit, ← testBit_7_iff_ge _ hA256]
    simp
  refine ⟨hma, ?_, hC, hA', hZ, hN, ?_⟩
  · intro b hb
    show (execute_instruction ord cpu).mem b = _
    rw [hmem]
    simp only []
    rw [if_neg hb]
  · intro h0F h81 hc0
    have e2 : cpu'.mem a = 0x02 := by rw [hma, h81, hc0]; decide
    have eA : cpu'.A = 0x02 := by rw [hA', e2, h0F]; decide
    refine ⟨e2, hC.mpr (by rw [h81]; decide), eA, ?_, ?_⟩
    · by_contra hcon; exact absurd (hN.mp hcon) (by rw [eA]; decide)
    · by_contra hcon; exact absurd (hZ.mp hcon) (by rw [eA]; decide)

theorem rla_step_witness :
    rlaDemo.WF ∧ decode (fetch_byte rlaDemo).1 = Instr.RLA Mode.AM_ZP ∧
    (execute_instruction EvalOrder.callFirst rlaDemo).mem 0x10 = 0x02 ∧
    (execute_instruction EvalOrder.callFirst rlaDemo).P &&& FLAG_C ≠ 0 ∧
    (execute_instruction EvalOrder.callFirst rlaDemo).A = 0x02 ∧
    (execute_instruction EvalOrder.callFirst rlaDemo).P &&& FLAG_N = 0 ∧
    (execute_instruction EvalOrder.callFirst rlaDemo).P &&& FLAG_Z = 0 :=
  ⟨rlaDemo_wf, rfl,
    (rla_step EvalOrder.callFirst rlaDemo Mode.AM_ZP rlaDemo_wf rfl).2.2.2.2.2.2 rfl rfl rfl⟩

/-! ## RRA -/

theorem carryP_bit0 (p m : Nat) : carryP p m 0x01 &&& FLAG_C ≠ 0 ↔ m % 2 = 1 := by
  rw [FLAG_C, and_1_iff, carryP_testBit]
  simp

theorem carryP_carry_in (p m : Nat) :
    (if carryP p m 0x01 &&& FLAG_C ≠ 0 then 1 else 0) = m % 2 := by
  have h := carryP_bit0 p m
  split_ifs with hc
  · exact (h.mp hc).symm
  · have : ¬ m % 2 = 1 := fun h1 => hc (h.mpr h1)
    omega

theorem ror_byte_lt (m c : Nat) (hm : m < 256) (hc : c ≤ 1) :
    (m >>> 1) ||| (c <<< 7) < 256 := by
  have h1 : m >>> 1 < 2 ^ 8 := by
    rw [Nat.shiftRight_eq_div_pow]; omega
  have h2 : c <<< 7 < 2 ^ 8 := by
    rw [Nat.shiftLeft_eq]; omega
  exact Nat.or_lt_two_pow h1 h2

theorem step_RRA (ord : EvalOrder) (cpu : CPU) (mode : Mode)
    (hop : decode (fetch_byte cpu).1 = Instr.RRA mode) :
    (execute_instruction ord cpu).mem =
      (fun b => if b = (get_address ord (fetch_byte cpu).2 mode).1
        then ((cpu.mem (get_address ord (fetch_byte cpu).2 mode).1 >>> 1) |||
          (temp_carry_of cpu <<< 7)) % 256 else cpu.mem b) ∧
    (execute_instruction ord cpu).A =
      (adc_core { cpu with P := carryP cpu.P (cpu.mem (get_address ord (fetch_byte cpu).2 mode).1) 0x01 }
        (((cpu.mem (get_address ord (fetch_byte cpu).2 mode).1 >>> 1) |||
          (temp_carry_of cpu <<< 7)) % 256)).A ∧
    (execute_instruction ord cpu).P =
      (adc_core { cpu with P := carryP cpu.P (cpu.mem (get_address ord (fetch_byte cpu).2 mode).1) 0x01 }
        (((cpu.mem (get_address ord (fetch_byte cpu).2 mode).1 >>> 1) |||
          (temp_carry_of cpu <<< 7)) % 256)).P := by
  rw [execute_instruction_eq, hop]
  simp only [exec, op_RRA, carry_from_carryP, adc_core_eq, CPU.store, temp_carry_of,
    framebuffer_shim_mem, framebuffer_shim_A, framebuffer_shim_P, get_address_mem,
    get_address_A, get_address_P, fetch_byte_mem, fetch_byte_A, fetch_byte_P, if_true]
  exact ⟨trivial, trivial, trivial⟩

theorem rraDemo_wf : rraDemo.WF :=
  ⟨by decide, by decide, by decide, by decide, by decide, by decide,
   by intro a; simp only [rraDemo]; split_ifs <;> decide, by decide⟩

/-- C26: every RRA instruction, with `m` the byte at the effective address `a`
and `c` the carry-in, leaves `mem[a] = (m >> 1) | (c << 7)` and no other byte
changed, and then adds as ADC does with operand the new `mem[a]` and carry-in
bit 0 of `m`: with `r = A + mem'[a] + (m mod 2)` it leaves `A = r mod 256`,
`C = (r > 0xFF)`, `V = ((A ^ r) & (mem'[a] ^ r) & 0x80) != 0`, `Z = (A' = 0)`,
`N = (A' >= 128)`, which are the accumulator and flags the ADC tail computes
from any state with the same `A` and with carry equal to bit 0 of `m`. -/
theorem rra_step (ord : EvalOrder) (cpu : CPU) (mode : Mode) (hwf : cpu.WF)
    (hop : decode (fetch_byte cpu).1 = Instr.RRA mode) :
    let a := (get_address ord (fetch_byte cpu).2 mode).1
    let m := cpu.mem a
    let c := if cpu.P &&& FLAG_C ≠ 0 then 1 else 0
    let r := cpu.A + ((m >>> 1) ||| (c <<< 7)) + m % 2
    let cpu' := execute_instruction ord cpu
    cpu'.mem a = (m >>> 1) ||| (c <<< 7) ∧
    (∀ b, b ≠ a → cpu'.mem b = cpu.mem b) ∧
    cpu'.A = r % 256 ∧
    (cpu'.P &&& FLAG_C ≠ 0 ↔ r > 0xFF) ∧
    (cpu'.P &&& FLAG_V ≠ 0 ↔ (cpu.A ^^^ r) &&& (cpu'.mem a ^^^ r) &&& 0x80 ≠ 0) ∧
    (cpu'.P &&& FLAG_Z ≠ 0 ↔ cpu'.A = 0) ∧
    (cpu'.P &&& FLAG_N ≠ 0 ↔ cpu'.A ≥ 128) ∧
    (∀ s : CPU, s.A = cpu.A → (s.P &&& FLAG_C ≠ 0 ↔ m % 2 = 1) →
      (adc_core s (cpu'.mem a)).A = cpu'.A ∧
      ((adc_core s (cpu'.mem a)).P &&& FLAG_C ≠ 0 ↔ cpu'.P &&& FLAG_C ≠ 0) ∧
      ((adc_core s (cpu'.mem a)).P &&& FLAG_V ≠ 0 ↔ cpu'.P &&& FLAG_V ≠ 0) ∧
      ((adc_core s (cpu'.mem a)).P &&& FLAG_Z ≠ 0 ↔ cpu'.P &&& FLAG_Z ≠ 0) ∧
      ((adc_core s (cpu'.mem a)).P &&& FLAG_N ≠ 0 ↔ cpu'.P &&& FLAG_N ≠ 0)) := by
  intro a m c r cpu'
  obtain ⟨hmem, hA, hP⟩ := step_RRA ord cpu mode hop
  have hc1 : c ≤ 1 := carry_in_le cpu.P
  have hlt : (m >>> 1) ||| (c <<< 7) < 256 := ror_byte_lt m c (hwf.hmem _) hc1
  have hu : ((m >>> 1) ||| (temp_carry_of cpu <<< 7)) % 256 = (m >>> 1) ||| (c <<< 7) :=
    Nat.mod_eq_of_lt hlt
  have hma : cpu'.mem a = (m >>> 1) ||| (c <<< 7) := by
    show (execute_instruction ord cpu).mem a = _
    rw [hmem]
    simp only [if_true]
    exact hu
  have hs := adc_core_spec { cpu with P := carryP cpu.P m 0x01 } ((m >>> 1) ||| (c <<< 7))
    hwf.hA hlt
  simp only [carryP_carry_in] at hs
  have eA : cpu'.A = (adc_core { cpu with P := carryP cpu.P m 0x01 }
      ((m >>> 1) ||| (c <<< 7))).A := by
    show (execute_instruction ord cpu).A = _
    rw [hA]; exact congrArg (fun v => (adc_core _ v).A) hu
  have eP : cpu'.P = (adc_core { cpu with P := carryP cpu.P m 0x01 }
      ((m >>> 1) ||| (c <<< 7))).P := by
    show (execute_instruction ord cpu).P = _
    rw [hP]; exact congrArg (fun v => (adc_core _ v).P) hu
  obtain ⟨h1, h2, h3, h4, h5⟩ := hs
  rw [← eA] at h1 h4 h5
  rw [← eP] at h2 h3 h4 h5
  refine ⟨hma, ?_, h1, h2, by rw [hma]; exact h3, h4, h5, ?_⟩
  · intro b hb
    show (execute_instruction ord cpu).mem b = _
    rw [hmem]
    simp only []
    rw [if_neg hb]
  · intro s hsA hsC
    have hcs : (if s.P &&& FLAG_C ≠ 0 then 1 else 0) = m % 2 := by
      split_ifs with hc
      · exact (hsC.mp hc).symm
      · have : ¬ m % 2 = 1 := fun h => hc (hsC.mpr h)
        omega
    have hs2 := adc_core_spec s ((m >>> 1) ||| (c <<< 7)) (by rw [hsA]; exact hwf.hA) hlt
    simp only [hcs, hsA] at hs2
    obtain ⟨g1, g2, g3, g4, g5⟩ := hs2
    rw [hma]
    refine ⟨g1.trans h1.symm, g2.trans h2.symm, g3.trans h3.symm, ?_, ?_⟩
    · rw [g4, h4, g1, h1]
    · rw [g5, h5, g1, h1]

theorem rra_step_witness :
    rraDemo.WF ∧ decode (fetch_byte rraDemo).1 = Instr.RRA Mode.AM_ZP ∧
    (execute_instruction EvalOrder.callFirst rraDemo).mem 0x10 = 0x81 ∧
    (execute_instruction EvalOrder.callFirst rraDemo).A = 0x92 := by
  have h := rra_step EvalOrder.callFirst rraDemo Mode.AM_ZP rraDemo_wf rfl
  exact ⟨rraDemo_wf, rfl, h.1.trans (by decide), h.2.2.1.trans (by decide)⟩

/-! ## DCP and ISC -/

theorem u8i_lt (i : Int) : u8i i < 256 := by
  unfold u8i
  omega

theorem u8i_cast (i : Int) : ((u8i i : Nat) : Int) = i % 256 := by
  unfold u8i
  omega

theorem step_DCP (ord : EvalOrder) (cpu : CPU) (mode : Mode)
    (hop : decode (fetch_byte cpu).1 = Instr.DCP mode) :
    (execute_instruction ord cpu).mem =
      (fun b => if b = (get_address ord (fetch_byte cpu).2 mode).1
        then u8i ((cpu.mem (get_address ord (fetch_byte cpu).2 mode).1 : Int) - 1) % 256
        else cpu.mem b) ∧
    (execute_instruction ord cpu).A = cpu.A ∧
    (execute_instruction ord cpu).P =
      cmpP cpu.P cpu.A (u8i ((cpu.mem (get_address ord (fetch_byte cpu).2 mode).1 : Int) - 1)) := by
  rw [execute_instruction_eq, hop]
  simp only [exec, op_DCP, framebuffer_shim_mem, framebuffer_shim_A, framebuffer_shim_P,
    cmp_core_P]
  refine ⟨?_, ?_, ?_⟩
  · rw [cmp_core_eq]
    simp only [CPU.store, get_address_mem, fetch_byte_mem]
  · rw [cmp_core_eq]
    simp only [CPU.store, get_address_A, fetch_byte_A]
  · simp only [CPU.store, get_address_A, get_address_P, get_address_mem, fetch_byte_A,
      fetch_byte_P, fetch_byte_mem]

theorem dcpDemo_wf : dcpDemo.WF :=
  ⟨by decide, by decide, by decide, by decide, by decide, by decide,
   by intro a; simp only [dcpDemo]; split_ifs <;> decide, by decide⟩

/-- C27: every DCP instruction, with `m` the byte at the effective address `a`,
leaves `mem[a] = (m - 1) mod 256` and no other byte changed, and sets the flags
as a compare of `A` with the new `mem[a]`: `C = (A >= mem'[a])`,
`Z = (A = mem'[a])`, `N` = bit 7 of `(A - mem'[a]) mod 256`, with `A` and `V`
unchanged; these are the flags the compare tail computes from any state with
the same `A`. -/
theorem dcp_step (ord : EvalOrder) (cpu : CPU) (mode : Mode) (hwf : cpu.WF)
    (hop : decode (fetch_byte cpu).1 = Instr.DCP mode) :
    let a := (get_address ord (fetch_byte cpu).2 mode).1
    let m := cpu.mem a
    let cpu' := execute_instruction ord cpu
    (cpu'.mem a : Int) = ((m : Int) - 1) % 256 ∧
    (∀ b, b ≠ a → cpu'.mem b = cpu.mem b) ∧
    (cpu'.P &&& FLAG_C ≠ 0 ↔ cpu.A ≥ cpu'.mem a) ∧
    (cpu'.P &&& FLAG_Z ≠ 0 ↔ cpu.A = cpu'.mem a) ∧
    (cpu'.P &&& FLAG_N ≠ 0 ↔ ((cpu.A : Int) - cpu'.mem a) % 256 ≥ 128) ∧
    cpu'.A = cpu.A ∧
    cpu'.P &&& FLAG_V = cpu.P &&& FLAG_V ∧
    (∀ s : CPU, s.A = cpu.A →
      ((cmp_core s s.A (cpu'.mem a)).P &&& FLAG_C ≠ 0 ↔ cpu'.P &&& FLAG_C ≠ 0) ∧
      ((cmp_core s s.A (cpu'.mem a)).P &&& FLAG_Z ≠ 0 ↔ cpu'.P &&& FLAG_Z ≠ 0) ∧
      ((cmp_core s s.A (cpu'.mem a)).P &&& FLAG_N ≠ 0 ↔ cpu'.P &&& FLAG_N ≠ 0)) := by
  intro a m cpu'
  obtain ⟨hmem, hA, hP⟩ := step_DCP ord cpu mode hop
  have hma : cpu'.mem a = u8i ((m : Int) - 1) := by
    show (execute_instruction ord cpu).mem a = _
    rw [hmem]
    simp only [if_true]
    exact Nat.mod_eq_of_lt (u8i_lt _)
  have hs := cmpP_spec cpu.P cpu.A (u8i ((m : Int) - 1)) hwf.hA (u8i_lt _)
  have eP : cpu'.P = cmpP cpu.P cpu.A (u8i ((m : Int) - 1)) := hP
  rw [← eP, ← hma] at hs
  obtain ⟨h1, h2, h3, h4⟩ := hs
  refine ⟨by rw [hma]; exact u8i_cast _, ?_, h1, h2, h3, hA, h4, ?_⟩
  · intro b hb
    show (execute_instruction ord cpu).mem b = _
    rw [hmem]
    simp only []
    rw [if_neg hb]
  · intro s hsA
    have hs2 := cmpP_spec s.P s.A (cpu'.mem a) (by rw [hsA]; exact hwf.hA)
      (by rw [hma]; exact u8i_lt _)
    rw [← cmp_core_P, hsA] at hs2
    rw [hsA]
    exact ⟨hs2.1.trans h1.symm, hs2.2.1.trans h2.symm, hs2.2.2.1.trans h3.symm⟩

theorem dcp_step_witness :
    dcpDemo.WF ∧ decode (fetch_byte dcpDemo).1 = Instr.DCP Mode.AM_ZP ∧
    ((execute_instruction EvalOrder.callFirst dcpDemo).mem 0x10 : Int) = ((0 : Int) - 1) % 256 ∧
    (execute_instruction EvalOrder.callFirst dcpDemo).mem 0x10 = 0xFF ∧
    (execute_instruction EvalOrder.callFirst dcpDemo).A = 0x40 ∧
    (execute_instruction EvalOrder.callFirst dcpDemo).P = 0x60 := by
  have h := dcp_step EvalOrder.callFirst dcpDemo Mode.AM_ZP dcpDemo_wf rfl
  exact ⟨dcpDemo_wf, rfl, h.1, by decide, h.2.2.2.2.2.1, by decide⟩

theorem step_ISC (ord : EvalOrder) (cpu : CPU) (mode : Mode)
    (hop : decode (fetch_byte cpu).1 = Instr.ISC mode) :
    (execute_instruction ord cpu).mem =
      (fun b => if b = (get_address ord (fetch_byte cpu).2 mode).1
        then u8 (cpu.mem (get_address ord (fetch_byte cpu).2 mode).1 + 1) % 256
        else cpu.mem b) ∧
    (execute_instruction ord cpu).A =
      (sbc_core cpu (u8 (cpu.mem (get_address ord (fetch_byte cpu).2 mode).1 + 1))).A ∧
    (execute_instruction ord cpu).P =
      (sbc_core cpu (u8 (cpu.mem (get_address ord (fetch_byte cpu).2 mode).1 + 1))).P := by
  rw [execute_instruction_eq, hop]
  simp only [exec, op_ISC, sbc_core_eq, CPU.store, framebuffer_shim_mem, framebuffer_shim_A,
    framebuffer_shim_P, get_address_mem, get_address_A, get_address_P, fetch_byte_mem,
    fetch_byte_A, fetch_byte_P]
  exact ⟨trivial, trivial, trivial⟩

theorem iscDemo_wf : iscDemo.WF :=
  ⟨by decide, by decide, by decide, by decide, by decide, by decide,
   by intro a; simp only [iscDemo]; split_ifs <;> decide, by decide⟩

/-- C28: every ISC instruction, with `m` the byte at the effective address `a`
and `c` the carry-in, leaves `mem[a] = (m + 1) mod 256` and no other byte
changed, and then subtracts as SBC does with operand the new `mem[a]` and
carry-in `c`: with `r = A - mem'[a] - (1 - c)` as a 16-bit value it leaves
`A = r & 0xFF`, `C = ((r & 0x100) = 0)`,
`V = ((A ^ r) & (~mem'[a] ^ r) & 0x80) != 0`, `Z = (A' = 0)`, `N = (A' >= 128)`,
which are the accumulator and flags the SBC tail computes from any state with
the same `A` and carry. -/
theorem isc_step (ord : EvalOrder) (cpu : CPU) (mode : Mode)
    (hop : decode (fetch_byte cpu).1 = Instr.ISC mode) :
    let a := (get_address ord (fetch_byte cpu).2 mode).1
    let m := cpu.mem a
    let c : Int := if cpu.P &&& FLAG_C ≠ 0 then 1 else 0
    let r := u16i ((cpu.A : Int) - ((m + 1) % 256 : Nat) - (1 - c))
    let cpu' := execute_instruction ord cpu
    cpu'.mem a = (m + 1) % 256 ∧
    (∀ b, b ≠ a → cpu'.mem b = cpu.mem b) ∧
    cpu'.A = r &&& 0xFF ∧
    (cpu'.P &&& FLAG_C ≠ 0 ↔ r &&& 0x100 = 0) ∧
    (cpu'.P &&& FLAG_V ≠ 0 ↔ (cpu.A ^^^ r) &&& ((cpu'.mem a ^^^ 0xFF) ^^^ r) &&& 0x80 ≠ 0) ∧
    (cpu'.P &&& FLAG_Z ≠ 0 ↔ cpu'.A = 0) ∧
    (cpu'.P &&& FLAG_N ≠ 0 ↔ cpu'.A ≥ 128) ∧
    (∀ s : CPU, s.A = cpu.A → (s.P &&& FLAG_C ≠ 0 ↔ cpu.P &&& FLAG_C ≠ 0) →
      (sbc_core s (cpu'.mem a)).A = cpu'.A ∧
      ((sbc_core s (cpu'.mem a)).P &&& FLAG_C ≠ 0 ↔ cpu'.P &&& FLAG_C ≠ 0) ∧
      ((sbc_core s (cpu'.mem a)).P &&& FLAG_V ≠ 0 ↔ cpu'.P &&& FLAG_V ≠ 0) ∧
      ((sbc_core s (cpu'.mem a)).P &&& FLAG_Z ≠ 0 ↔ cpu'.P &&& FLAG_Z ≠ 0) ∧
      ((sbc_core s (cpu'.mem a)).P &&& FLAG_N ≠ 0 ↔ cpu'.P &&& FLAG_N ≠ 0)) := by
  intro a m c r cpu'
  obtain ⟨hmem, hA, hP⟩ := step_ISC ord cpu mode hop
  have hlt : (m + 1) % 256 < 256 := Nat.mod_lt _ (by decide)
  have hma : cpu'.mem a = (m + 1) % 256 := by
    show (execute_instruction ord cpu).mem a = _
    rw [hmem]
    simp only [if_true]
    exact Nat.mod_mod _ _
  have hr : u16i ((cpu.A : Int) - ((m + 1) % 256 : Nat) -
      (if cpu.P &&& FLAG_C ≠ 0 then 0 else 1)) = r := by
    show _ = u16i ((cpu.A : Int) - ((m + 1) % 256 : Nat) - (1 - c))
    congr 2
    show _ = (1 : Int) - (if cpu.P &&& FLAG_C ≠ 0 then 1 else 0)
    split_ifs <;> rfl
  have hlow : r &&& 0xFF = r % 256 := and_0xFF r
  have hs := sbc_core_spec cpu ((m + 1) % 256)
  simp only [hr] at hs
  have eA : cpu'.A = (sbc_core cpu ((m + 1) % 256)).A := hA
  have eP : cpu'.P = (sbc_core cpu ((m + 1) % 256)).P := hP
  obtain ⟨h1, h2, h3, h4, h5⟩ := hs
  rw [sbc_overflow_test cpu.A _ r hlt] at h3
  rw [← eA] at h1 h4 h5
  rw [← eP] at h2 h3 h4 h5
  refine ⟨hma, ?_, by rw [h1, hlow], h2, by rw [hma]; exact h3, h4, h5, ?_⟩
  · intro b hb
    show (execute_instruction ord cpu).mem b = _
    rw [hmem]
    simp only []
    rw [if_neg hb]
  · intro s hsA hsC
    have hcs : (if s.P &&& FLAG_C ≠ 0 then (0 : Int) else 1) =
        (if cpu.P &&& FLAG_C ≠ 0 then 0 else 1) := by
      by_cases hc : cpu.P &&& FLAG_C ≠ 0
      · rw [if_pos hc, if_pos (hsC.mpr hc)]
      · rw [if_neg hc, if_neg (fun h => hc (hsC.mp h))]
    have hs2 := sbc_core_spec s ((m + 1) % 256)
    simp only [hsA, hcs, hr] at hs2
    obtain ⟨g1, g2, g3, g4, g5⟩ := hs2
    rw [sbc_overflow_test cpu.A _ r hlt] at g3
    rw [hma]
    refine ⟨g1.trans h1.symm, g2.trans h2.symm, g3.trans h3.symm, ?_, ?_⟩
    · rw [g4, h4, g1, h1]
    · rw [g5, h5, g1, h1]

theorem isc_step_witness :
    iscDemo.WF ∧ decode (fetch_byte iscDemo).1 = Instr.ISC Mode.AM_ZP ∧
    (execute_instruction EvalOrder.callFirst iscDemo).mem 0x10 = 0x00 ∧
    (execute_instruction EvalOrder.callFirst iscDemo).A = 0x50 := by
  have h := isc_step EvalOrder.callFirst iscDemo Mode.AM_ZP rfl
  exact ⟨iscDemo_wf, rfl, h.1.trans (by decide), h.2.2.1.trans (by decide)⟩

/-! ## ARR and AXS -/

/-- C29 at `ARR #$02` with `A = 0x02` and the carry set: `A & imm = 0x02`, and
the byte rotated into bit 7 is the carry the instruction has just taken from
bit 0 of `A & imm`, 0, not the carry-in 1 that `ROR A` saves: `A` ends as
`0x01`, where `((A & imm) >> 1) | (c << 7)` is `0x81`.  At `ARR #$FF` with
`A = 0x3F` and the carry set both carries are 1 and `A` ends as `0x9F`, whose
bits 6 and 5 are both clear, yet `V` is set. -/
theorem arr_rotates_in_new_carry (ord : EvalOrder) :
    decode (fetch_byte (arrDemo 0x02 0x02 0x21)).1 = Instr.ARR Mode.AM_IMM ∧
    (arrDemo 0x02 0x02 0x21).P &&& FLAG_C ≠ 0 ∧
    (execute_instruction ord (arrDemo 0x02 0x02 0x21)).A = 0x01 ∧
    (((0x02 &&& 0x02) >>> 1) ||| (1 <<< 7) : Nat) = 0x81 ∧
    (execute_instruction ord (arrDemo 0x02 0x02 0x21)).A ≠
      ((0x02 &&& 0x02) >>> 1) ||| (1 <<< 7) ∧
    (arrDemo 0x3F 0xFF 0x21).P &&& FLAG_C ≠ 0 ∧
    (execute_instruction ord (arrDemo 0x3F 0xFF 0x21)).A = 0x9F ∧
    (((0x3F &&& 0xFF) >>> 1) ||| (1 <<< 7) : Nat) = 0x9F ∧
    Nat.testBit 0x9F 6 = false ∧ Nat.testBit 0x9F 5 = false ∧
    (execute_instruction ord (arrDemo 0x3F 0xFF 0x21)).P &&& FLAG_V ≠ 0 := by
  cases ord <;>
    exact ⟨rfl, by decide, by decide, by decide, by decide, by decide, by decide, by decide,
      by decide, by decide, by decide⟩

/-- C30 at `AXS #$03` with `A = 0xFF`, `X = 0x05`: `X` becomes
`(A & X) - 3 = 0x02` and `A` stays, but the carry test reads `X` after the
assignment, `(0xFF & 0x02) >= 3`, so `C` ends clear although `A & X = 5 >= 3`
for the `X` before the instruction. -/
theorem axs_carry_from_new_x (ord : EvalOrder) :
    decode (fetch_byte axsDemo).1 = Instr.AXS Mode.AM_IMM ∧
    (execute_instruction ord axsDemo).X = 0x02 ∧
    (execute_instruction ord axsDemo).A = 0xFF ∧
    axsDemo.A &&& axsDemo.X ≥ axsDemo.mem 0x8001 ∧
    (execute_instruction ord axsDemo).P &&& FLAG_C = 0 ∧
    ¬ (axsDemo.A &&& (execute_instruction ord axsDemo).X ≥ axsDemo.mem 0x8001) := by
  cases ord <;> exact ⟨rfl, by decide, by decide, by decide, by decide, by decide⟩

/-! ## Stores -/

/-- C31 at the address `0x5010`, high byte `0x50`, with all-ones registers:
`SHX`, `SHY`, both `AHX` labels and `TAS` store the register value masked with
`address >> 8`, `0x50`, where a mask of the high byte plus one gives `0x51`;
`TAS` sets `SP = A & X` and no flag changes. -/
theorem high_byte_stores_mask_without_increment (ord : EvalOrder) :
    (decode (fetch_byte (shDemo 0x9E 0 0xFF 0)).1 = Instr.SHX Mode.AM_ABY ∧
      (execute_instruction ord (shDemo 0x9E 0 0xFF 0)).mem 0x5010 = 0x50) ∧
    (decode (fetch_byte (shDemo 0x9C 0 0 0xFF)).1 = Instr.SHY Mode.AM_ABX ∧
      (execute_instruction ord (shDemo 0x9C 0 0 0xFF)).mem 0x5010 = 0x50) ∧
    (decode (fetch_byte (shDemo 0x9F 0xFF 0xFF 0)).1 = Instr.AHX Mode.AM_ABY ∧
      (execute_instruction ord (shDemo 0x9F 0xFF 0xFF 0)).mem 0x5010 = 0x50) ∧
    (decode (fetch_byte (shDemo 0x93 0xFF 0xFF 0)).1 = Instr.AHX Mode.AM_IZY ∧
      (execute_instruction ord (shDemo 0x93 0xFF 0xFF 0)).mem 0x5010 = 0x50) ∧
    (decode (fetch_byte (shDemo 0x9B 0xFF 0xFF 0)).1 = Instr.TAS Mode.AM_ABY ∧
      (execute_instruction ord (shDemo 0x9B 0xFF 0xFF 0)).mem 0x5010 = 0x50 ∧
      (execute_instruction ord (shDemo 0x9B 0xFF 0xFF 0)).SP = 0xFF ∧
      (execute_instruction ord (shDemo 0x9B 0xFF 0xFF 0)).P = 0x20) ∧
    ((0xFF &&& ((0x5010 >>> 8) + 1) : Nat) % 256 = 0x51) := by
  cases ord <;>
    exact ⟨⟨rfl, by decide⟩, ⟨rfl, by decide⟩, ⟨rfl, by decide⟩, ⟨rfl, by decide⟩,
      ⟨rfl, by decide, by decide, by decide⟩, by decide⟩

theorem step_store (ord : EvalOrder) (cpu : CPU) (mode : Mode) (i : Instr) (R : Nat)
    (hi : (i = Instr.STA mode ∧ R = cpu.A) ∨ (i = Instr.STX mode ∧ R = cpu.X) ∨
      (i = Instr.STY mode ∧ R = cpu.Y))
    (hop : decode (fetch_byte cpu).1 = i) :
    execute_instruction ord cpu =
      framebuffer_shim (get_address ord (fetch_byte cpu).2 mode).1
        ((get_address ord (fetch_byte cpu).2 mode).2.store
          (get_address ord (fetch_byte cpu).2 mode).1 R) := by
  rw [execute_instruction_eq, hop]
  rcases hi with ⟨rfl, rfl⟩ | ⟨rfl, rfl⟩ | ⟨rfl, rfl⟩ <;>
    simp only [exec, op_STA, op_STX, op_STY, get_address_A, get_address_X, get_address_Y,
      fetch_byte_A, fetch_byte_X, fetch_byte_Y]

theorem stxDemo_wf : stxDemo.WF :=
  ⟨by decide, by decide, by decide, by decide, by decide, by decide,
   by intro a; simp only [stxDemo]; split_ifs <;> decide, by decide⟩

/-- C35: a store instruction on the register `R` (`STA` on `A`, `STX` on `X`,
`STY` on `Y`, any of their opcodes) writes `R` at the effective address,
changes no other memory byte and leaves `P`, `A`, `X`, `Y` and `SP` as they
were; `PC` advances past the opcode and its operand bytes. -/
theorem store_step (ord : EvalOrder) (cpu : CPU) (mode : Mode) (i : Instr) (R : Nat)
    (hwf : cpu.WF)
    (hi : (i = Instr.STA mode ∧ R = cpu.A) ∨ (i = Instr.STX mode ∧ R = cpu.X) ∨
      (i = Instr.STY mode ∧ R = cpu.Y))
    (hop : decode (fetch_byte cpu).1 = i) :
    let a := (get_address ord (fetch_byte cpu).2 mode).1
    let cpu' := execute_instruction ord cpu
    cpu'.mem a = R ∧
    (∀ b, b ≠ a → cpu'.mem b = cpu.mem b) ∧
    cpu'.P = cpu.P ∧ cpu'.A = cpu.A ∧ cpu'.X = cpu.X ∧ cpu'.Y = cpu.Y ∧ cpu'.SP = cpu.SP ∧
    cpu'.PC = (cpu.PC + (1 + operand_bytes mode)) % 65536 := by
  intro a cpu'
  have hstep : cpu' = _ := step_store ord cpu mode i R hi hop
  have hR : R < 256 := by
    rcases hi with ⟨_, rfl⟩ | ⟨_, rfl⟩ | ⟨_, rfl⟩
    · exact hwf.hA
    · exact hwf.hX
    · exact hwf.hY
  refine ⟨?_, ?_, ?_, ?_, ?_, ?_, ?_, ?_⟩
  · rw [hstep]
    simp only [framebuffer_shim_mem, CPU.store, if_true]
    exact Nat.mod_eq_of_lt hR
  · intro b hb
    rw [hstep]
    simp only [framebuffer_shim_mem, CPU.store, get_address_mem, fetch_byte_mem]
    rw [if_neg hb]
  · rw [hstep]; simp [CPU.store]
  · rw [hstep]; simp [CPU.store]
  · rw [hstep]; simp [CPU.store]
  · rw [hstep]; simp [CPU.store]
  · rw [hstep]; simp [CPU.store]
  · rw [hstep, framebuffer_shim_PC]
    show (get_address ord (fetch_byte cpu).2 mode).2.PC = _
    rw [get_address_PC ord _ _ (by rw [fetch_byte_PC]; exact Nat.mod_lt _ (by decide)),
      fetch_byte_PC]
    unfold u16
    omega

theorem store_step_witness :
    stxDemo.WF ∧ decode (fetch_byte stxDemo).1 = Instr.STX Mode.AM_ABS ∧
    (execute_instruction EvalOrder.callFirst stxDemo).mem 0x1234 = 0x22 ∧
    (execute_instruction EvalOrder.callFirst stxDemo).P = 0xE3 ∧
    (execute_instruction EvalOrder.callFirst stxDemo).PC = 0x8003 := by
  have h := store_step EvalOrder.callFirst stxDemo Mode.AM_ABS (Instr.STX Mode.AM_ABS)
    stxDemo.X stxDemo_wf (Or.inr (Or.inl ⟨rfl, rfl⟩)) rfl
  exact ⟨stxDemo_wf, rfl, h.1.trans (by decide), h.2.2.1, h.2.2.2.2.2.2.2.trans (by decide)⟩

/-! ## Push then pull -/

theorem framebuffer_shim_zero (cpu : CPU) : framebuffer_shim 0 cpu = cpu := by
  simp [framebuffer_shim]

theorem pull_push_fst (cpu : CPU) (v : Nat) (hSP : cpu.SP < 256) (hv : v < 256) :
    (pull_byte (push_byte cpu v)).1 = v := by
  have e : u8 (u8i ((cpu.SP : Int) - 1) + 1) = cpu.SP := by
    unfold u8 u8i
    omega
  simp only [pull_byte, push_byte, CPU.store]
  rw [e, if_pos rfl]
  unfold u8
  omega

theorem pull_push_SP (cpu : CPU) (v : Nat) (hSP : cpu.SP < 256) :
    (pull_byte (push_byte cpu v)).2.SP = cpu.SP := by
  simp only [pull_byte, push_byte, CPU.store]
  unfold u8 u8i
  omega

theorem step_PHA (ord : EvalOrder) (cpu : CPU) (hop : decode (fetch_byte cpu).1 = Instr.PHA) :
    execute_instruction ord cpu = push_byte (fetch_byte cpu).2 cpu.A := by
  rw [execute_instruction_eq, hop]
  simp only [exec, framebuffer_shim_zero, fetch_byte_A]

theorem step_PLA (ord : EvalOrder) (cpu : CPU) (hop : decode (fetch_byte cpu).1 = Instr.PLA) :
    (execute_instruction ord cpu).A = (pull_byte (fetch_byte cpu).2).1 ∧
    (execute_instruction ord cpu).SP = (pull_byte (fetch_byte cpu).2).2.SP := by
  rw [execute_instruction_eq, hop]
  simp only [exec, op_PLA, framebuffer_shim_zero, snz_eq]
  exact ⟨trivial, trivial⟩

theorem pull_byte_fetch (cpu : CPU) :
    (pull_byte (fetch_byte cpu).2).1 = (pull_byte cpu).1 ∧
    (pull_byte (fetch_byte cpu).2).2.SP = (pull_byte cpu).2.SP := by
  simp [pull_byte]

theorem push_byte_fetch (cpu : CPU) (v : Nat) :
    (pull_byte (push_byte (fetch_byte cpu).2 v)).1 = (pull_byte (push_byte cpu v)).1 ∧
    (pull_byte (push_byte (fetch_byte cpu).2 v)).2.SP = (pull_byte (push_byte cpu v)).2.SP := by
  simp [pull_byte, push_byte, CPU.store]

theorem phaPlaDemo_wf : phaPlaDemo.WF :=
  ⟨by decide, by decide, by decide, by decide, by decide, by decide,
   by intro a; simp only [phaPlaDemo]; split_ifs <;> decide, by decide⟩

/-- C40: `pull_byte` after `push_byte(v)` returns `v` and leaves `SP` as it was
before the push, for every `SP`; at `SP = 0x00` the push writes `0x0100` and
leaves `SP = 0xFF`.  Hence a `PHA` step followed by a `PLA` step restores `A`
and `SP`. -/
theorem pull_after_push (ord : EvalOrder) (cpu : CPU) (v : Nat) (hwf : cpu.WF)
    (hv : v < 256) :
    (pull_byte (push_byte cpu v)).1 = v ∧
    (pull_byte (push_byte cpu v)).2.SP = cpu.SP ∧
    (cpu.SP = 0x00 → (push_byte cpu v).mem 0x0100 = v ∧ (push_byte cpu v).SP = 0xFF) ∧
    (decode (fetch_byte cpu).1 = Instr.PHA →
      decode (fetch_byte (execute_instruction ord cpu)).1 = Instr.PLA →
      (execute_instruction ord (execute_instruction ord cpu)).A = cpu.A ∧
      (execute_instruction ord (execute_instruction ord cpu)).SP = cpu.SP) := by
  refine ⟨pull_push_fst cpu v hwf.hSP hv, pull_push_SP cpu v hwf.hSP, ?_, ?_⟩
  · intro h0
    constructor
    · simp [push_byte, CPU.store, h0, u8, Nat.mod_eq_of_lt hv]
    · simp only [push_byte, CPU.store, h0]
      decide
  · intro h1 h2
    obtain ⟨hA, hS⟩ := step_PLA ord _ h2
    rw [hA, hS, (pull_byte_fetch _).1, (pull_byte_fetch _).2, step_PHA ord cpu h1,
      (push_byte_fetch _ _).1, (push_byte_fetch _ _).2]
    exact ⟨pull_push_fst cpu cpu.A hwf.hSP hwf.hA, pull_push_SP cpu cpu.A hwf.hSP⟩

theorem pull_after_push_witness :
    phaPlaDemo.WF ∧
    (pull_byte (push_byte phaPlaDemo 0x5A)).1 = 0x5A ∧
    (pull_byte (push_byte phaPlaDemo 0x5A)).2.SP = 0x00 ∧
    (push_byte phaPlaDemo 0x5A).mem 0x0100 = 0x5A ∧ (push_byte phaPlaDemo 0x5A).SP = 0xFF ∧
    (execute_instruction EvalOrder.callFirst
      (execute_instruction EvalOrder.callFirst phaPlaDemo)).A = 0xAB ∧
    (execute_instruction EvalOrder.callFirst
      (execute_instruction EvalOrder.callFirst phaPlaDemo)).SP = 0x00 := by
  have h := pull_after_push EvalOrder.callFirst phaPlaDemo 0x5A phaPlaDemo_wf (by decide)
  exact ⟨phaPlaDemo_wf, h.1, h.2.1, (h.2.2.1 rfl).1, (h.2.2.1 rfl).2,
    (h.2.2.2 rfl rfl).1, (h.2.2.2 rfl rfl).2⟩

/-! ## ANC and BIT -/

theorem step_ANC (ord : EvalOrder) (cpu : CPU) (mode : Mode)
    (hop : decode (fetch_byte cpu).1 = Instr.ANC mode) :
    (execute_instruction ord cpu).A =
      u8 (cpu.A &&& cpu.mem (get_address ord (fetch_byte cpu).2 mode).1) ∧
    (execute_instruction ord cpu).P =
      ancP cpu.P (u8 (cpu.A &&& cpu.mem (get_address ord (fetch_byte cpu).2 mode).1)) := by
  rw [execute_instruction_eq, hop]
  simp only [exec, op_ANC, ancP, snz_eq, CPU.orP, CPU.andNotP, framebuffer_shim_A,
    framebuffer_shim_P, get_address_mem, get_address_A, get_address_P, fetch_byte_mem,
    fetch_byte_A, fetch_byte_P]
  constructor
  · split_ifs <;> rfl
  · split_ifs <;> rfl

theorem ancDemo_wf : ancDemo.WF :=
  ⟨by decide, by decide, by decide, by decide, by decide, by decide,
   by intro a; simp only [ancDemo]; split_ifs <;> decide, by decide⟩

/-- C32: every ANC instruction (the labels `0x0B` and `0x2B`), with `M` the
immediate byte, leaves `A = A & M`, `Z = (A' = 0)`, `N` = bit 7 of `A'`, and
`C` equal to `N`. -/
theorem anc_step (ord : EvalOrder) (cpu : CPU) (mode : Mode) (hwf : cpu.WF)
    (hop : decode (fetch_byte cpu).1 = Instr.ANC mode) :
    let M := cpu.mem (get_address ord (fetch_byte cpu).2 mode).1
    let cpu' := execute_instruction ord cpu
    (decode 0x0B = Instr.ANC Mode.AM_IMM ∧ decode 0x2B = Instr.ANC Mode.AM_IMM) ∧
    (mode = Mode.AM_IMM → M = cpu.mem (u16 (cpu.PC + 1))) ∧
    cpu'.A = cpu.A &&& M ∧
    (cpu'.P &&& FLAG_Z ≠ 0 ↔ cpu'.A = 0) ∧
    (cpu'.P &&& FLAG_N ≠ 0 ↔ cpu'.A ≥ 128) ∧
    (cpu'.P &&& FLAG_C ≠ 0 ↔ cpu'.A ≥ 128) ∧
    (cpu'.P &&& FLAG_C ≠ 0 ↔ cpu'.P &&& FLAG_N ≠ 0) := by
  intro M cpu'
  obtain ⟨hA, hP⟩ := step_ANC ord cpu mode hop
  have hlt : cpu.A &&& M < 256 := Nat.lt_of_le_of_lt Nat.and_le_left hwf.hA
  have hA' : cpu'.A = cpu.A &&& M := by
    show (execute_instruction ord cpu).A = _
    rw [hA]; exact Nat.mod_eq_of_lt hlt
  have hA256 : cpu'.A < 256 := by rw [hA']; exact hlt
  have hP' : cpu'.P = ancP cpu.P cpu'.A := by
    show (execute_instruction ord cpu).P = ancP cpu.P (execute_instruction ord cpu).A
    rw [hP, hA]
  have h7 := testBit_7_iff_ge cpu'.A hA256
  have hm : (1 : Nat) < 2 ^ 32 := by decide
  have h1 : Nat.testBit 1 0 = true := by decide
  have hZ : cpu'.P &&& FLAG_Z ≠ 0 ↔ cpu'.A = 0 := by
    rw [hP', ancP, FLAG_Z, and_2_iff, snzP_testBit]
    simp
  have hN : cpu'.P &&& FLAG_N ≠ 0 ↔ cpu'.A ≥ 128 := by
    rw [hP', ancP, FLAG_N, and_128_iff, snzP_testBit, ← h7]
    simp
  have hC : cpu'.P &&& FLAG_C ≠ 0 ↔ cpu'.A ≥ 128 := by
    rw [hP', ancP, FLAG_C, and_1_iff, snzP_testBit, ← h7, ← and_128_iff]
    simp only [Nat.reduceEqDiff, Nat.reduceLT, decide_True, Bool.true_and, if_true, if_false,
      Nat.zero_ne_one, reduceIte]
    split_ifs with h <;> simp only [testBit_u8_or, testBit_u8_and_cnot _ _ _ hm, h1] <;>
      simp_all
  refine ⟨⟨rfl, rfl⟩, ?_, hA', hZ, hN, hC, hC.trans hN.symm⟩
  intro hmode
  subst hmode
  simp [M, get_address]

theorem anc_step_witness :
    ancDemo.WF ∧ decode (fetch_byte ancDemo).1 = Instr.ANC Mode.AM_IMM ∧
    (execute_instruction EvalOrder.callFirst ancDemo).A = 0x80 ∧
    (execute_instruction EvalOrder.callFirst ancDemo).P = 0xA1 := by
  have h := anc_step EvalOrder.callFirst ancDemo Mode.AM_IMM ancDemo_wf rfl
  exact ⟨ancDemo_wf, rfl, h.2.2.1.trans (by decide), by decide⟩

theorem op_BIT_eq (ord : EvalOrder) (mode : Mode) (cpu : CPU) :
    (op_BIT ord mode cpu).2 =
      { (get_address ord cpu mode).2 with
        P := bitP cpu.P cpu.A (cpu.mem (get_address ord cpu mode).1) } := by
  unfold op_BIT bitP CPU.orP CPU.andNotP
  simp only [get_address_P, get_address_A, get_address_mem]
  split_ifs <;> rfl

theorem bitP_testBit (p a v i : Nat) :
    (bitP p a v).testBit i =
      (decide (i < 8) && (if i = 7 then v.testBit 7 else if i = 6 then v.testBit 6
        else if i = 1 then decide (a &&& v = 0) else p.testBit i)) := by
  have hC2 : ∀ j, Nat.testBit 0xC2 j = (decide (j = 1) || decide (j = 6) || decide (j = 7)) := by
    intro j
    have : (0xC2 : Nat) = 2 ^ 1 ||| 2 ^ 6 ||| 2 ^ 7 := by decide
    rw [this, Nat.testBit_or, Nat.testBit_or, Nat.testBit_two_pow, Nat.testBit_two_pow,
      Nat.testBit_two_pow]
    simp [eq_comm]
  have h2 : ∀ j, Nat.testBit 2 j = decide (j = 1) := by
    intro j
    have : (2 : Nat) = 2 ^ 1 := by decide
    rw [this, Nat.testBit_two_pow]; simp [eq_comm]
  have h40 : ∀ j, Nat.testBit 0x40 j = decide (j = 6) := by
    intro j
    have : (0x40 : Nat) = 2 ^ 6 := by decide
    rw [this, Nat.testBit_two_pow]; simp [eq_comm]
  have h80 : ∀ j, Nat.testBit 0x80 j = decide (j = 7) := by
    intro j
    have : (0x80 : Nat) = 2 ^ 7 := by decide
    rw [this, Nat.testBit_two_pow]; simp [eq_comm]
  have hm : (0xC2 : Nat) < 2 ^ 32 := by decide
  unfold bitP
  simp only [and_128_iff, and_64_iff, FLAG_N, FLAG_V, FLAG_Z, Nat.reduceOr]
  by_cases h7 : i = 7
  · subst h7
    split_ifs <;> simp only [testBit_u8_or, testBit_u8_and_cnot _ _ _ hm, hC2, h2, h40, h80] <;>
      simp_all
  · by_cases h6 : i = 6
    · subst h6
      split_ifs <;> simp only [testBit_u8_or, testBit_u8_and_cnot _ _ _ hm, hC2, h2, h40, h80] <;>
        simp_all
    · by_cases h1 : i = 1
      · subst h1
        split_ifs <;>
          simp only [testBit_u8_or, testBit_u8_and_cnot _ _ _ hm, hC2, h2, h40, h80] <;>
          simp_all
      · split_ifs <;>
          simp only [testBit_u8_or, testBit_u8_and_cnot _ _ _ hm, hC2, h2, h40, h80] <;>
          simp_all

/-- The bits of `P` other than `N`, `V` and `Z` pass through the BIT body. -/
theorem bitP_other_bits (p a v : Nat) (hp : p < 256) : bitP p a v &&& 0x3D = p &&& 0x3D := by
  apply Nat.eq_of_testBit_eq
  intro i
  rw [Nat.testBit_and, Nat.testBit_and, bitP_testBit]
  by_cases h7 : i = 7
  · subst h7
    have : Nat.testBit 0x3D 7 = false := by decide
    simp [this]
  · by_cases h6 : i = 6
    · subst h6
      have : Nat.testBit 0x3D 6 = false := by decide
      simp [this]
    · by_cases h1 : i = 1
      · subst h1
        have : Nat.testBit 0x3D 1 = false := by decide
        simp [this]
      · by_cases hi : i < 8
        · simp [h1, h6, h7, hi]
        · simp [h1, h6, h7, hi, testBit_of_lt_256 p i hp hi]

theorem bitDemo_wf : bitDemo.WF :=
  ⟨by decide, by decide, by decide, by decide, by decide, by decide,
   by intro a; simp only [bitDemo]; split_ifs <;> decide, by decide⟩

/-- C33: every BIT instruction (the labels `0x24` and `0x2C`), with `M` the
byte at the effective address, sets `N` = bit 7 of `M`, `V` = bit 6 of `M`,
`Z = ((A & M) = 0)`, and leaves the other bits of `P` (C, I, D, B, bit 5), the
registers and memory as they were. -/
theorem bit_step (ord : EvalOrder) (cpu : CPU) (mode : Mode) (hwf : cpu.WF)
    (hop : decode (fetch_byte cpu).1 = Instr.BIT mode) :
    let M := cpu.mem (get_address ord (fetch_byte cpu).2 mode).1
    let cpu' := execute_instruction ord cpu
    (decode 0x24 = Instr.BIT Mode.AM_ZP ∧ decode 0x2C = Instr.BIT Mode.AM_ABS) ∧
    (cpu'.P &&& FLAG_N ≠ 0 ↔ M.testBit 7 = true) ∧
    (cpu'.P &&& FLAG_V ≠ 0 ↔ M.testBit 6 = true) ∧
    (cpu'.P &&& FLAG_Z ≠ 0 ↔ cpu.A &&& M = 0) ∧
    cpu'.P &&& (FLAG_C ||| FLAG_I ||| FLAG_D ||| FLAG_B ||| 0x20) =
      cpu.P &&& (FLAG_C ||| FLAG_I ||| FLAG_D ||| FLAG_B ||| 0x20) ∧
    (cpu'.P &&& FLAG_C ≠ 0 ↔ cpu.P &&& FLAG_C ≠ 0) ∧
    cpu'.A = cpu.A ∧ cpu'.X = cpu.X ∧ cpu'.Y = cpu.Y ∧ cpu'.SP = cpu.SP ∧
    cpu'.mem = cpu.mem := by
  intro M cpu'
  have hstep : cpu' = framebuffer_shim (op_BIT ord mode (fetch_byte cpu).2).1
      (op_BIT ord mode (fetch_byte cpu).2).2 := by
    show execute_instruction ord cpu = _
    rw [execute_instruction_eq, hop]
    rfl
  have hP : cpu'.P = bitP cpu.P cpu.A M := by
    rw [hstep, framebuffer_shim_P, op_BIT_eq]
    simp only [fetch_byte_P, fetch_byte_A, fetch_byte_mem]
  refine ⟨⟨rfl, rfl⟩, ?_, ?_, ?_, ?_, ?_, ?_, ?_, ?_, ?_, ?_⟩
  · rw [hP, FLAG_N, and_128_iff, bitP_testBit]
    simp
  · rw [hP, FLAG_V, and_64_iff, bitP_testBit]
    simp
  · rw [hP, FLAG_Z, and_2_iff, bitP_testBit]
    simp
  · rw [hP]
    exact bitP_other_bits cpu.P cpu.A M hwf.hP
  · rw [hP, FLAG_C, and_1_iff, and_1_iff, bitP_testBit]
    simp
  · rw [hstep, framebuffer_shim_A, op_BIT_eq]; simp
  · rw [hstep, framebuffer_shim_X, op_BIT_eq]; simp
  · rw [hstep, framebuffer_shim_Y, op_BIT_eq]; simp
  · rw [hstep, framebuffer_shim_SP, op_BIT_eq]; simp
  · rw [hstep, framebuffer_shim_mem, op_BIT_eq]; simp

theorem bit_step_witness :
    bitDemo.WF ∧ decode (fetch_byte bitDemo).1 = Instr.BIT Mode.AM_ZP ∧
    (execute_instruction EvalOrder.callFirst bitDemo).P = 0xEF ∧
    (execute_instruction EvalOrder.callFirst bitDemo).A = 0x0F := by
  have h := bit_step EvalOrder.callFirst bitDemo Mode.AM_ZP bitDemo_wf rfl
  exact ⟨bitDemo_wf, rfl, by decide, h.2.2.2.2.2.2.1⟩

/-! ## Signed overflow, and SBC as ADC of the complement -/

theorem testBit_7_eq (x : Nat) : x.testBit 7 = decide (128 ≤ x % 256) := by
  rw [Nat.testBit_to_div_mod]
  congr 1
  apply propext
  omega

/-- The overflow test of the ADC tail is the signed overflow of the sum. -/
theorem adc_overflow_iff_signed (a m c : Nat) (ha : a < 256) (hm : m < 256) (hc : c ≤ 1) :
    ((a ^^^ (a + m + c)) &&& (m ^^^ (a + m + c)) &&& 0x80 ≠ 0) ↔
      (int8 a + int8 m + c < -128 ∨ int8 a + int8 m + c > 127) := by
  rw [and_128_iff, Nat.testBit_and, Nat.testBit_xor, Nat.testBit_xor]
  simp only [testBit_7_eq]
  have ha' : a % 256 = a := Nat.mod_eq_of_lt ha
  have hm' : m % 256 = m := Nat.mod_eq_of_lt hm
  unfold int8
  rw [ha', hm']
  by_cases hA : 128 ≤ a <;> by_cases hM : 128 ≤ m <;>
    by_cases hR : 128 ≤ (a + m + c) % 256 <;>
    simp only [hA, hM, hR, decide_True, decide_False, Bool.xor_true, Bool.xor_false,
      Bool.not_true, Bool.not_false, Bool.and_true, Bool.and_false, Bool.and_self,
      Bool.false_eq_true, true_iff, false_iff, not_or, not_lt] <;>
    split_ifs <;> omega

/-- The overflow test reads the result only through its low byte. -/
theorem overflow_test_congr (a b r r' : Nat) (h : r % 256 = r' % 256) :
    ((a ^^^ r) &&& (b ^^^ r) &&& 0x80 ≠ 0) ↔ ((a ^^^ r') &&& (b ^^^ r') &&& 0x80 ≠ 0) := by
  have hr : r.testBit 7 = r'.testBit 7 := by rw [testBit_7_eq, testBit_7_eq, h]
  rw [and_128_iff, and_128_iff]
  simp only [Nat.testBit_and, Nat.testBit_xor, hr]

theorem xor_0xFF (m : Nat) (hm : m < 256) : m ^^^ 0xFF = 255 - m := by
  have key : m ^^^ (2 ^ 8 - 1) = 2 ^ 8 - (m + 1) := by
    apply Nat.eq_of_testBit_eq
    intro i
    rw [Nat.testBit_xor, Nat.testBit_two_pow_sub_one,
      Nat.testBit_two_pow_sub_succ (by omega : m < 2 ^ 8)]
    by_cases hi : i < 8
    · simp [hi]
    · simp [hi, testBit_of_lt_256 m i hm hi]
  calc m ^^^ 0xFF = m ^^^ (2 ^ 8 - 1) := rfl
    _ = 2 ^ 8 - (m + 1) := key
    _ = 255 - m := by omega

/-- C37: after every ADC instruction the `V` flag is set exactly when the sum
of the accumulator and the operand, read as two's-complement bytes, plus the
carry-in lies outside `-128..127`. -/
theorem adc_overflow_signed (ord : EvalOrder) (cpu : CPU) (mode : Mode) (hwf : cpu.WF)
    (hop : decode (fetch_byte cpu).1 = Instr.ADC mode) :
    let M := cpu.mem (get_address ord (fetch_byte cpu).2 mode).1
    let c : Nat := if cpu.P &&& FLAG_C ≠ 0 then 1 else 0
    let cpu' := execute_instruction ord cpu
    (cpu'.P &&& FLAG_V ≠ 0 ↔
      (int8 cpu.A + int8 M + c < -128 ∨ int8 cpu.A + int8 M + c > 127)) := by
  intro M c cpu'
  have hs := adc_core_spec (get_address ord (fetch_byte cpu).2 mode).2 M
    (by simpa using hwf.hA) (hwf.hmem _)
  simp only [get_address_A, get_address_P, fetch_byte_A, fetch_byte_P] at hs
  have eP : cpu'.P = (adc_core (get_address ord (fetch_byte cpu).2 mode).2 M).P := by
    show (execute_instruction ord cpu).P = _
    rw [step_ADC ord cpu mode hop, framebuffer_shim_P]
  rw [eP, hs.2.2.1]
  exact adc_overflow_iff_signed cpu.A M c hwf.hA (hwf.hmem _) (carry_in_le cpu.P)

theorem adc_overflow_signed_witness :
    adcDemo.WF ∧ decode (fetch_byte adcDemo).1 = Instr.ADC Mode.AM_IMM ∧
    int8 adcDemo.A + int8 (adcDemo.mem 0x8001) + (0 : Nat) = 160 ∧
    (execute_instruction EvalOrder.callFirst adcDemo).P &&& FLAG_V ≠ 0 :=
  ⟨adcDemo_wf, rfl, by decide,
    (adc_overflow_signed EvalOrder.callFirst adcDemo Mode.AM_IMM adcDemo_wf rfl).mpr
      (Or.inr (by decide))⟩

theorem adcComplDemo_wf : adcComplDemo.WF :=
  ⟨by decide, by decide, by decide, by decide, by decide, by decide,
   by intro a; simp only [adcComplDemo]; split_ifs <;> decide, by decide⟩

theorem sbc_low_byte (a m c : Nat) (hm : m < 256) :
    u16i ((a : Int) - m - (1 - (c : Int))) % 256 = (a + (255 - m) + c) % 256 := by
  unfold u16i
  omega

theorem sbc_carry_iff (a m c : Nat) (ha : a < 256) (hm : m < 256) (hc : c ≤ 1) :
    u16i ((a : Int) - m - (1 - (c : Int))) / 256 % 2 = 0 ↔ a ≥ m + (1 - c) := by
  unfold u16i
  omega

theorem adc_complement_carry_iff (a m c : Nat) (hm : m < 256) (hc : c ≤ 1) :
    a + (255 - m) + c > 0xFF ↔ a ≥ m + (1 - c) := by
  omega

/-- C38: an SBC instruction with operand `M` and an ADC instruction with
operand `M xor 0xFF`, run from states with the same accumulator and carry,
leave the same `A`, `C`, `V`, `N` and `Z`; the carry after the SBC is set
exactly when `A >= M + (1 - c)`. -/
theorem sbc_is_adc_of_complement (ord : EvalOrder) (cpu s : CPU) (mode mode2 : Mode)
    (hwf : cpu.WF) (hswf : s.WF)
    (hsbc : decode (fetch_byte cpu).1 = Instr.SBC mode)
    (hadc : decode (fetch_byte s).1 = Instr.ADC mode2)
    (hA : s.A = cpu.A)
    (hC : s.P &&& FLAG_C ≠ 0 ↔ cpu.P &&& FLAG_C ≠ 0)
    (hM : s.mem (get_address ord (fetch_byte s).2 mode2).1 =
      cpu.mem (get_address ord (fetch_byte cpu).2 mode).1 ^^^ 0xFF) :
    let M := cpu.mem (get_address ord (fetch_byte cpu).2 mode).1
    let c : Nat := if cpu.P &&& FLAG_C ≠ 0 then 1 else 0
    let cpu' := execute_instruction ord cpu
    let s' := execute_instruction ord s
    cpu'.A = s'.A ∧
    (cpu'.P &&& FLAG_C ≠ 0 ↔ s'.P &&& FLAG_C ≠ 0) ∧
    (cpu'.P &&& FLAG_V ≠ 0 ↔ s'.P &&& FLAG_V ≠ 0) ∧
    (cpu'.P &&& FLAG_N ≠ 0 ↔ s'.P &&& FLAG_N ≠ 0) ∧
    (cpu'.P &&& FLAG_Z ≠ 0 ↔ s'.P &&& FLAG_Z ≠ 0) ∧
    (cpu'.P &&& FLAG_C ≠ 0 ↔ cpu.A ≥ M + (1 - c)) := by
  intro M c cpu' s'
  have hMlt : M < 256 := hwf.hmem _
  have h1 := sbc_core_spec (get_address ord (fetch_byte cpu).2 mode).2 M
  have h2 := adc_core_spec (get_address ord (fetch_byte s).2 mode2).2
    (s.mem (get_address ord (fetch_byte s).2 mode2).1) (by simpa using hswf.hA) (hswf.hmem _)
  simp only [get_address_A, get_address_P, fetch_byte_A, fetch_byte_P] at h1 h2
  have eP : cpu'.P = (sbc_core (get_address ord (fetch_byte cpu).2 mode).2 M).P := by
    show (execute_instruction ord cpu).P = _
    rw [step_SBC ord cpu mode hsbc, framebuffer_shim_P]
  have eA : cpu'.A = (sbc_core (get_address ord (fetch_byte cpu).2 mode).2 M).A := by
    show (execute_instruction ord cpu).A = _
    rw [step_SBC ord cpu mode hsbc, framebuffer_shim_A]
  have fP : s'.P = (adc_core (get_address ord (fetch_byte s).2 mode2).2
      (s.mem (get_address ord (fetch_byte s).2 mode2).1)).P := by
    show (execute_instruction ord s).P = _
    rw [step_ADC ord s mode2 hadc, framebuffer_shim_P]
  have fA : s'.A = (adc_core (get_address ord (fetch_byte s).2 mode2).2
      (s.mem (get_address ord (fetch_byte s).2 mode2).1)).A := by
    show (execute_instruction ord s).A = _
    rw [step_ADC ord s mode2 hadc, framebuffer_shim_A]
  rw [← eP, ← eA] at h1
  rw [← fP, ← fA] at h2
  obtain ⟨g1, g2, g3, g4, g5⟩ := h1
  obtain ⟨k1, k2, k3, k4, k5⟩ := h2
  rw [sbc_overflow_test cpu.A M _ hMlt] at g3
  have hcs : (if s.P &&& FLAG_C ≠ 0 then 1 else 0 : Nat) = c := by
    show _ = (if cpu.P &&& FLAG_C ≠ 0 then 1 else 0 : Nat)
    by_cases hc : cpu.P &&& FLAG_C ≠ 0
    · rw [if_pos hc, if_pos (hC.mpr hc)]
    · rw [if_neg hc, if_neg (fun h => hc (hC.mp h))]
  have hci : (if cpu.P &&& FLAG_C ≠ 0 then (0 : Int) else 1) = 1 - (c : Int) := by
    show _ = 1 - ((if cpu.P &&& FLAG_C ≠ 0 then 1 else 0 : Nat) : Int)
    split_ifs <;> rfl
  have hc1 : c ≤ 1 := carry_in_le cpu.P
  rw [hcs, hM, hA, xor_0xFF M hMlt] at k1 k2 k3
  rw [hci] at g1 g2 g3
  rw [xor_0xFF M hMlt] at g3
  have hAlt := hwf.hA
  have hlow := sbc_low_byte cpu.A M c hMlt
  have hAA : cpu'.A = s'.A := by rw [g1, k1, hlow]
  have hCs : cpu'.P &&& FLAG_C ≠ 0 ↔ cpu.A ≥ M + (1 - c) := by
    rw [g2, and_256_eq_zero_iff]
    exact sbc_carry_iff cpu.A M c hAlt hMlt hc1
  have hCa : s'.P &&& FLAG_C ≠ 0 ↔ cpu.A ≥ M + (1 - c) := by
    rw [k2]
    exact adc_complement_carry_iff cpu.A M c hMlt hc1
  refine ⟨hAA, hCs.trans hCa.symm, ?_, ?_, ?_, hCs⟩
  · rw [g3, k3]
    exact overflow_test_congr _ _ _ _ hlow
  · rw [g5, k5, hAA]
  · rw [g4, k4, hAA]

theorem sbc_is_adc_of_complement_witness :
    sbcDemo.WF ∧ adcComplDemo.WF ∧
    decode (fetch_byte sbcDemo).1 = Instr.SBC Mode.AM_IMM ∧
    decode (fetch_byte adcComplDemo).1 = Instr.ADC Mode.AM_IMM ∧
    (execute_instruction EvalOrder.callFirst sbcDemo).A =
      (execute_instruction EvalOrder.callFirst adcComplDemo).A ∧
    (execute_instruction EvalOrder.callFirst sbcDemo).A = 0x60 := by
  have h := sbc_is_adc_of_complement EvalOrder.callFirst sbcDemo adcComplDemo Mode.AM_IMM
    Mode.AM_IMM sbcDemo_wf adcComplDemo_wf rfl rfl rfl (by decide) (by decide)
  exact ⟨sbcDemo_wf, adcComplDemo_wf, rfl, rfl, h.1, by decide⟩

/-! ## The framebuffer -/

@[simp] theorem snz_pixels (cpu : CPU) (v : Nat) :
    (set_zero_and_negative_flags cpu v).pixels = cpu.pixels := by rw [snz_eq]

@[simp] theorem adc_core_pixels (cpu : CPU) (v : Nat) :
    (adc_core cpu v).pixels = cpu.pixels := by rw [adc_core_eq]

@[simp] theorem sbc_core_pixels (cpu : CPU) (v : Nat) :
    (sbc_core cpu v).pixels = cpu.pixels := by rw [sbc_core_eq]

@[simp] theorem cmp_core_pixels (cpu : CPU) (r v : Nat) :
    (cmp_core cpu r v).pixels = cpu.pixels := by rw [cmp_core_eq]

@[simp] theorem carry_from_pixels (cpu : CPU) (v b : Nat) :
    (carry_from cpu v b).pixels = cpu.pixels := by rw [carry_from_eq]

@[simp] theorem store_pixels (cpu : CPU) (a v : Nat) : (cpu.store a v).pixels = cpu.pixels := rfl

@[simp] theorem orP_pixels (cpu : CPU) (m : Nat) : (cpu.orP m).pixels = cpu.pixels := rfl

@[simp] theorem andNotP_pixels (cpu : CPU) (m : Nat) : (cpu.andNotP m).pixels = cpu.pixels := rfl

@[simp] theorem push_byte_pixels (cpu : CPU) (v : Nat) :
    (push_byte cpu v).pixels = cpu.pixels := rfl

@[simp] theorem pull_byte_pixels (cpu : CPU) : (pull_byte cpu).2.pixels = cpu.pixels := rfl

/-- No body of the switch writes the framebuffer. -/
theorem exec_pixels (ord : EvalOrder) (op : Nat) (i : Instr) (cpu : CPU) :
    (exec ord op i cpu).2.pixels = cpu.pixels := by
  cases i
  all_goals
    (simp only [exec, op_BRK, op_KIL, op_unknown, op_JSR, op_RTS, op_RTI, op_JMP, op_branch,
        op_NOP_mode, op_ORA, op_AND, op_EOR, op_ADC, op_SBC,
        op_CMP, op_CPX, op_CPY, op_BIT, op_ASL, op_ROL, op_LSR, op_ROR, op_INC, op_DEC, op_LDA,
        op_LDX, op_LDY, op_STA, op_STX, op_STY, op_SLO, op_RLA, op_SRE, op_RRA, op_DCP, op_ISC,
        op_LAX, op_SAX, op_ANC, op_ALR, op_ARR, op_XAA, op_AXS, op_LAS, op_AHX, op_TAS, op_SHY,
        op_SHX, op_DEY, op_DEX, op_INY, op_INX, op_TXA, op_TYA, op_TAY, op_TAX, op_TSX,
        op_ASL_A, op_ROL_A, op_LSR_A, op_ROR_A, op_PLA, op_PLP,
        snz_pixels, adc_core_pixels, sbc_core_pixels, cmp_core_pixels, carry_from_pixels,
        store_pixels, orP_pixels, andNotP_pixels, push_byte_pixels, pull_byte_pixels,
        get_address_pixels, apply_ite CPU.pixels, apply_ite Prod.snd, ite_self])

/-- The value a body leaves in the local `address`. -/
theorem exec_fst (ord : EvalOrder) (op : Nat) (i : Instr) (cpu : CPU) :
    (exec ord op i cpu).1 =
      match i.addressMode with
      | some m => (get_address ord cpu m).1
      | none => 0 := by
  cases i
  all_goals
    (simp only [exec, Instr.addressMode, op_BRK, op_KIL, op_unknown, op_JSR, op_RTS, op_RTI,
      op_JMP, op_branch,
      op_NOP_mode, op_ORA, op_AND, op_EOR, op_ADC, op_SBC,
      op_CMP, op_CPX, op_CPY, op_BIT, op_ASL, op_ROL, op_LSR, op_ROR, op_INC, op_DEC, op_LDA,
      op_LDX, op_LDY, op_STA, op_STX, op_STY, op_SLO, op_RLA, op_SRE, op_RRA, op_DCP, op_ISC,
      op_LAX, op_SAX, op_ANC, op_ALR, op_ARR, op_XAA, op_AXS, op_LAS, op_AHX, op_TAS, op_SHY,
      op_SHX, op_DEY, op_DEX, op_INY, op_INX, op_TXA, op_TYA, op_TAY, op_TAX, op_TSX,
      op_ASL_A, op_ROL_A, op_LSR_A, op_ROR_A, op_PLA, op_PLP, apply_ite Prod.fst, ite_self])

theorem framebuffer_shim_pixels_in (a : Nat) (cpu : CPU) (h : 0x0200 ≤ a ∧ a ≤ 0x41FF) :
    (framebuffer_shim a cpu).pixels =
      fun j => if j = a - 0x200 then palette[cpu.mem a]? else cpu.pixels j := by
  unfold framebuffer_shim
  rw [if_pos (by simp only [SCREEN_WIDTH, SCREEN_HEIGHT]; omega)]

theorem framebuffer_shim_pixels_out (a : Nat) (cpu : CPU) (h : ¬ (0x0200 ≤ a ∧ a ≤ 0x41FF)) :
    (framebuffer_shim a cpu).pixels = cpu.pixels := by
  unfold framebuffer_shim
  rw [if_neg (by simp only [SCREEN_WIDTH, SCREEN_HEIGHT]; omega)]

theorem ldaFbDemo_step :
    (exec EvalOrder.callFirst (fetch_byte ldaFbDemo).1 (decode (fetch_byte ldaFbDemo).1)
      (fetch_byte ldaFbDemo).2).1 = 0x0205 := by
  decide

/-- C36: a step changes at most one framebuffer entry.  With `a` the value the
body leaves in `address` (the address its `get_address` call resolved, read or
written, or 0 when the body assigns none): if `a` lies in `0x0200..0x41FF`
every entry other than `pixels[a - 0x0200]` is as before and that entry holds
the palette lookup of `mem[a]`; if `a` lies outside the window, and so for
every body that assigns no address (implied instructions, the NOPs, `JMP`,
`JSR`), the framebuffer is unchanged. -/
theorem framebuffer_at_most_one_entry (ord : EvalOrder) (cpu : CPU) :
    let i := decode (fetch_byte cpu).1
    let a := (exec ord (fetch_byte cpu).1 i (fetch_byte cpu).2).1
    let cpu' := execute_instruction ord cpu
    (a = match i.addressMode with
      | some m => (get_address ord (fetch_byte cpu).2 m).1
      | none => 0) ∧
    (0x0200 ≤ a ∧ a ≤ 0x41FF →
      (∀ j, j ≠ a - 0x0200 → cpu'.pixels j = cpu.pixels j) ∧
      cpu'.pixels (a - 0x0200) = palette[cpu'.mem a]?) ∧
    (¬ (0x0200 ≤ a ∧ a ≤ 0x41FF) → cpu'.pixels = cpu.pixels) ∧
    (i.addressMode = none → cpu'.pixels = cpu.pixels) ∧
    (Instr.NOP.addressMode = none ∧ Instr.JSR.addressMode = none ∧
      ∀ m, (Instr.NOPm m).addressMode = none ∧ (Instr.JMP m).addressMode = none ∧
        (Instr.LDA m).addressMode = some m) := by
  intro i a cpu'
  have hstep : cpu' = framebuffer_shim a (exec ord (fetch_byte cpu).1 i (fetch_byte cpu).2).2 :=
    execute_instruction_eq ord cpu
  have hpx : (exec ord (fetch_byte cpu).1 i (fetch_byte cpu).2).2.pixels = cpu.pixels := by
    rw [exec_pixels, fetch_byte_pixels]
  have hout : ¬ (0x0200 ≤ a ∧ a ≤ 0x41FF) → cpu'.pixels = cpu.pixels := by
    intro h
    rw [hstep, framebuffer_shim_pixels_out _ _ h]
    exact hpx
  refine ⟨exec_fst ord _ i _, ?_, hout, ?_, rfl, rfl, fun m => ⟨rfl, rfl, rfl⟩⟩
  · intro h
    have hpix : cpu'.pixels = fun j => if j = a - 0x200
        then palette[(exec ord (fetch_byte cpu).1 i (fetch_byte cpu).2).2.mem a]?
        else (exec ord (fetch_byte cpu).1 i (fetch_byte cpu).2).2.pixels j := by
      rw [hstep]
      exact framebuffer_shim_pixels_in _ _ h
    have hmem : cpu'.mem = (exec ord (fetch_byte cpu).1 i (fetch_byte cpu).2).2.mem := by
      rw [hstep, framebuffer_shim_mem]
    constructor
    · intro j hj
      rw [hpix]
      beta_reduce
      rw [if_neg hj, hpx]
    · rw [hpix, hmem]
      beta_reduce
      rw [if_pos rfl]
  · intro hnone
    apply hout
    have ha : a = 0 := by
      have h := exec_fst ord (fetch_byte cpu).1 i (fetch_byte cpu).2
      rw [hnone] at h
      exact h
    omega

theorem framebuffer_at_most_one_entry_witness :
    decode (fetch_byte ldaFbDemo).1 = Instr.LDA Mode.AM_ABS ∧
    (execute_instruction EvalOrder.callFirst ldaFbDemo).mem 0x0205 = 0x03 ∧
    (execute_instruction EvalOrder.callFirst ldaFbDemo).pixels 5 = palette[(3 : Nat)]? ∧
    (execute_instruction EvalOrder.callFirst ldaFbDemo).pixels 6 = ldaFbDemo.pixels 6 := by
  have h := (framebuffer_at_most_one_entry EvalOrder.callFirst ldaFbDemo).2.1
    (by rw [ldaFbDemo_step]; decide)
  rw [ldaFbDemo_step] at h
  exact ⟨rfl, by decide, h.2.trans (by decide), h.1 6 (by decide)⟩

/-! ## Rotations of the accumulator -/

theorem step_ROL_A (ord : EvalOrder) (cpu : CPU)
    (hop : decode (fetch_byte cpu).1 = Instr.ROL_A) :
    (execute_instruction ord cpu).A = u8 ((cpu.A <<< 1) ||| temp_carry_of cpu) ∧
    (execute_instruction ord cpu).P =
      snzP (carryP cpu.P cpu.A 0x80) (u8 ((cpu.A <<< 1) ||| temp_carry_of cpu)) := by
  rw [execute_instruction_eq, hop]
  simp only [exec, op_ROL_A, carry_from_carryP, snz_eq, temp_carry_of, framebuffer_shim_A,
    framebuffer_shim_P, fetch_byte_A, fetch_byte_P]
  exact ⟨trivial, trivial⟩

theorem step_ROR_A (ord : EvalOrder) (cpu : CPU)
    (hop : decode (fetch_byte cpu).1 = Instr.ROR_A) :
    (execute_instruction ord cpu).A = u8 ((cpu.A >>> 1) ||| (temp_carry_of cpu <<< 7)) ∧
    (execute_instruction ord cpu).P =
      snzP (carryP cpu.P cpu.A 0x01) (u8 ((cpu.A >>> 1) ||| (temp_carry_of cpu <<< 7))) := by
  rw [execute_instruction_eq, hop]
  simp only [exec, op_ROR_A, carry_from_carryP, snz_eq, temp_carry_of, framebuffer_shim_A,
    framebuffer_shim_P, fetch_byte_A, fetch_byte_P]
  exact ⟨trivial, trivial⟩

theorem rol_byte (a c : Nat) (hc : c ≤ 1) : u8 ((a <<< 1) ||| c) = (2 * a + c) % 256 := by
  have h : 2 ^ 1 * a + c = 2 ^ 1 * a ||| c := Nat.mul_add_lt_is_or (by omega) a
  rw [Nat.shiftLeft_eq, Nat.mul_comm a, ← h]
  rfl

theorem ror_byte (a c : Nat) (ha : a < 256) (hc : c ≤ 1) :
    u8 ((a >>> 1) ||| (c <<< 7)) = a / 2 + 128 * c := by
  have h : 2 ^ 7 * c + a / 2 = 2 ^ 7 * c ||| a / 2 := Nat.mul_add_lt_is_or (by omega) c
  rw [Nat.shiftLeft_eq, Nat.shiftRight_eq_div_pow, Nat.mul_comm c, Nat.or_comm, ← h]
  unfold u8
  omega

theorem carry_after_snz (p v a b : Nat) :
    snzP (carryP p v b) a &&& FLAG_C ≠ 0 ↔ v &&& b ≠ 0 := by
  rw [FLAG_C, and_1_iff, snzP_testBit, carryP_testBit]
  simp

theorem temp_carry_after (cpu : CPU) (p v a b : Nat) (h : cpu.P = snzP (carryP p v b) a) :
    temp_carry_of cpu = if v &&& b ≠ 0 then 1 else 0 := by
  unfold temp_carry_of
  rw [h]
  by_cases hv : v &&& b ≠ 0
  · rw [if_pos ((carry_after_snz p v a b).mpr hv), if_pos hv]
  · rw [if_neg (fun hc => hv ((carry_after_snz p v a b).mp hc)), if_neg hv]

theorem and_0x80_iff (a : Nat) (ha : a < 256) : a &&& 0x80 ≠ 0 ↔ 128 ≤ a :=
  (and_128_iff a).trans (testBit_7_iff_ge a ha)

theorem and_0x01_iff (a : Nat) : a &&& 0x01 ≠ 0 ↔ a % 2 = 1 := by
  rw [and_1_iff, Nat.testBit_zero]
  simp

/-- C39: a `ROL A` step followed by a `ROR A` step, and a `ROR A` step
followed by a `ROL A` step, leave the accumulator and the carry flag as they
were before the pair. -/
theorem rol_ror_inverse (ord : EvalOrder) (cpu : CPU) (hwf : cpu.WF) :
    (decode 0x2A = Instr.ROL_A ∧ decode 0x6A = Instr.ROR_A) ∧
    (decode (fetch_byte cpu).1 = Instr.ROL_A →
      decode (fetch_byte (execute_instruction ord cpu)).1 = Instr.ROR_A →
      (execute_instruction ord (execute_instruction ord cpu)).A = cpu.A ∧
      ((execute_instruction ord (execute_instruction ord cpu)).P &&& FLAG_C ≠ 0 ↔
        cpu.P &&& FLAG_C ≠ 0)) ∧
    (decode (fetch_byte cpu).1 = Instr.ROR_A →
      decode (fetch_byte (execute_instruction ord cpu)).1 = Instr.ROL_A →
      (execute_instruction ord (execute_instruction ord cpu)).A = cpu.A ∧
      ((execute_instruction ord (execute_instruction ord cpu)).P &&& FLAG_C ≠ 0 ↔
        cpu.P &&& FLAG_C ≠ 0)) := by
  have hA := hwf.hA
  have hc1 : temp_carry_of cpu ≤ 1 := temp_carry_le cpu
  have hc : cpu.P &&& FLAG_C ≠ 0 ↔ temp_carry_of cpu = 1 := by
    unfold temp_carry_of
    by_cases h : cpu.P &&& FLAG_C ≠ 0
    · rw [if_pos h]
      exact ⟨fun _ => rfl, fun _ => h⟩
    · rw [if_neg h]
      exact ⟨fun hh => absurd hh h, fun hh => absurd hh (by decide)⟩
  refine ⟨⟨rfl, rfl⟩, ?_, ?_⟩
  · intro h1 h2
    obtain ⟨a1, p1⟩ := step_ROL_A ord cpu h1
    obtain ⟨a2, p2⟩ := step_ROR_A ord _ h2
    have t1 := temp_carry_after _ _ _ _ _ p1
    rw [rol_byte _ _ hc1] at a1
    have hlt : (execute_instruction ord cpu).A < 256 := by rw [a1]; omega
    have ht : temp_carry_of (execute_instruction ord cpu) ≤ 1 := temp_carry_le _
    rw [ror_byte _ _ hlt ht] at a2
    have t1' : temp_carry_of (execute_instruction ord cpu) = if 128 ≤ cpu.A then 1 else 0 := by
      rw [t1]
      by_cases h : 128 ≤ cpu.A
      · rw [if_pos ((and_0x80_iff _ hA).mpr h), if_pos h]
      · rw [if_neg (fun hh => h ((and_0x80_iff _ hA).mp hh)), if_neg h]
    constructor
    · rw [a2, t1', a1]
      split_ifs <;> omega
    · rw [p2, carry_after_snz, and_0x01_iff, a1, hc]
      omega
  · intro h1 h2
    obtain ⟨a1, p1⟩ := step_ROR_A ord cpu h1
    obtain ⟨a2, p2⟩ := step_ROL_A ord _ h2
    have t1 := temp_carry_after _ _ _ _ _ p1
    rw [ror_byte _ _ hA hc1] at a1
    have hlt : (execute_instruction ord cpu).A < 256 := by rw [a1]; omega
    have ht : temp_carry_of (execute_instruction ord cpu) ≤ 1 := temp_carry_le _
    rw [rol_byte _ _ ht] at a2
    have t1' : temp_carry_of (execute_instruction ord cpu) = cpu.A % 2 := by
      rw [t1]
      by_cases h : cpu.A % 2 = 1
      · rw [if_pos ((and_0x01_iff _).mpr h), h]
      · rw [if_neg (fun hh => h ((and_0x01_iff _).mp hh))]
        omega
    constructor
    · rw [a2, t1', a1]
      omega
    · rw [p2, carry_after_snz, and_0x80_iff _ hlt, a1, hc]
      omega

theorem rol_ror_inverse_witness :
    (rotateDemo 0x2A 0x6A 0x81 0x20).WF ∧
    (execute_instruction EvalOrder.callFirst (rotateDemo 0x2A 0x6A 0x81 0x20)).A = 0x02 ∧
    (execute_instruction EvalOrder.callFirst
      (execute_instruction EvalOrder.callFirst (rotateDemo 0x2A 0x6A 0x81 0x20))).A = 0x81 ∧
    ((execute_instruction EvalOrder.callFirst
      (execute_instruction EvalOrder.callFirst (rotateDemo 0x2A 0x6A 0x81 0x20))).P &&& FLAG_C ≠ 0 ↔
      (rotateDemo 0x2A 0x6A 0x81 0x20).P &&& FLAG_C ≠ 0) := by
  have hwf : (rotateDemo 0x2A 0x6A 0x81 0x20).WF :=
    ⟨by decide, by decide, by decide, by decide, by decide, by decide,
     by intro a; simp only [rotateDemo]; split_ifs <;> decide, by decide⟩
  have h := (rol_ror_inverse EvalOrder.callFirst (rotateDemo 0x2A 0x6A 0x81 0x20) hwf).2.1
    rfl rfl
  exact ⟨hwf, by decide, h.1, h.2⟩

/-! ## The decimal flag -/

theorem fetch_byte_with_P (cpu : CPU) (p : Nat) :
    fetch_byte { cpu with P := p } = ((fetch_byte cpu).1, { (fetch_byte cpu).2 with P := p }) := by
  unfold fetch_byte
  simp only []
  split_ifs <;> rfl

theorem get_address_with_P (ord : EvalOrder) (cpu : CPU) (p : Nat) (mode : Mode) :
    (get_address ord { cpu with P := p } mode).1 = (get_address ord cpu mode).1 := by
  cases mode <;> cases ord <;> simp [get_address, fetch_byte_with_P, fetch_word]

theorem and_two_pow_congr (x y k : Nat) (h : x.testBit k = y.testBit k) :
    x &&& 2 ^ k = y &&& 2 ^ k := by
  apply Nat.eq_of_testBit_eq
  intro i
  rw [Nat.testBit_and, Nat.testBit_and, Nat.testBit_two_pow]
  by_cases hi : k = i
  · subst hi; simp [h]
  · simp [hi]

theorem adcP_bit3 (p a v : Nat) : (adcP p a v).testBit 3 = p.testBit 3 := by
  have hm : (0xC3 : Nat) < 2 ^ 32 := by decide
  have h1 : Nat.testBit 1 3 = false := by decide
  have h64 : Nat.testBit 64 3 = false := by decide
  have h195 : Nat.testBit 195 3 = false := by decide
  unfold adcP
  simp only [snzP_testBit, FLAG_N, FLAG_V, FLAG_Z, FLAG_C, Nat.reduceOr]
  simp only [Nat.reduceEqDiff, Nat.reduceLT, decide_True, Bool.true_and, if_true, if_false,
    reduceIte]
  split_ifs <;> simp only [testBit_u8_or, testBit_u8_and_cnot _ _ _ hm, h1, h64, h195] <;> simp

theorem sbcP_bit3 (p a v : Nat) : (sbcP p a v).testBit 3 = p.testBit 3 := by
  have hm : (0xC3 : Nat) < 2 ^ 32 := by decide
  have h1 : Nat.testBit 1 3 = false := by decide
  have h64 : Nat.testBit 64 3 = false := by decide
  have h195 : Nat.testBit 195 3 = false := by decide
  unfold sbcP
  simp only [snzP_testBit, FLAG_N, FLAG_V, FLAG_Z, FLAG_C, Nat.reduceOr]
  simp only [Nat.reduceEqDiff, Nat.reduceLT, decide_True, Bool.true_and, if_true, if_false,
    reduceIte]
  split_ifs <;> simp only [testBit_u8_or, testBit_u8_and_cnot _ _ _ hm, h1, h64, h195] <;> simp

theorem carry_of_xor_D (p : Nat) : (p ^^^ FLAG_D) &&& FLAG_C ≠ 0 ↔ p &&& FLAG_C ≠ 0 := by
  have h8 : Nat.testBit 8 0 = false := by decide
  rw [FLAG_C, and_1_iff, and_1_iff, FLAG_D, Nat.testBit_xor, h8]
  simp

theorem adcDecimalDemo_wf : adcDecimalDemo.WF :=
  ⟨by decide, by decide, by decide, by decide, by decide, by decide,
   by intro a; simp only [adcDecimalDemo]; split_ifs <;> decide, by decide⟩

/-- C34: for a state about to run an ADC or SBC instruction and the state that
differs from it only in the `D` flag, the two steps leave the same `A` and the
same `C`, `V`, `N` and `Z`, and each leaves its own `D` flag as it was. -/
theorem decimal_flag_ignored (ord : EvalOrder) (cpu : CPU) (mode : Mode) (i : Instr)
    (hwf : cpu.WF) (hi : i = Instr.ADC mode ∨ i = Instr.SBC mode)
    (hop : decode (fetch_byte cpu).1 = i) :
    let cpuD : CPU := { cpu with P := cpu.P ^^^ FLAG_D }
    let cpu' := execute_instruction ord cpu
    let cpuD' := execute_instruction ord cpuD
    cpu'.A = cpuD'.A ∧
    (cpu'.P &&& FLAG_C ≠ 0 ↔ cpuD'.P &&& FLAG_C ≠ 0) ∧
    (cpu'.P &&& FLAG_V ≠ 0 ↔ cpuD'.P &&& FLAG_V ≠ 0) ∧
    (cpu'.P &&& FLAG_N ≠ 0 ↔ cpuD'.P &&& FLAG_N ≠ 0) ∧
    (cpu'.P &&& FLAG_Z ≠ 0 ↔ cpuD'.P &&& FLAG_Z ≠ 0) ∧
    cpu'.P &&& FLAG_D = cpu.P &&& FLAG_D ∧
    cpuD'.P &&& FLAG_D = cpuD.P &&& FLAG_D := by
  intro cpuD cpu' cpuD'
  have hfD : (fetch_byte cpuD).1 = (fetch_byte cpu).1 := by
    show (fetch_byte { cpu with P := cpu.P ^^^ FLAG_D }).1 = _
    rw [fetch_byte_with_P]
  have hopD : decode (fetch_byte cpuD).1 = i := by rw [hfD]; exact hop
  have haddr : (get_address ord (fetch_byte cpuD).2 mode).1 =
      (get_address ord (fetch_byte cpu).2 mode).1 := by
    show (get_address ord (fetch_byte { cpu with P := cpu.P ^^^ FLAG_D }).2 mode).1 = _
    rw [fetch_byte_with_P]
    exact get_address_with_P ord _ _ mode
  have hcin : (if cpuD.P &&& FLAG_C ≠ 0 then 1 else 0 : Nat) =
      (if cpu.P &&& FLAG_C ≠ 0 then 1 else 0) := by
    show (if (cpu.P ^^^ FLAG_D) &&& FLAG_C ≠ 0 then 1 else 0 : Nat) = _
    by_cases hc : cpu.P &&& FLAG_C ≠ 0
    · rw [if_pos hc, if_pos ((carry_of_xor_D _).mpr hc)]
    · rw [if_neg hc, if_neg (fun h => hc ((carry_of_xor_D _).mp h))]
  have hcinI : (if cpuD.P &&& FLAG_C ≠ 0 then 0 else 1 : Int) =
      (if cpu.P &&& FLAG_C ≠ 0 then 0 else 1) := by
    show (if (cpu.P ^^^ FLAG_D) &&& FLAG_C ≠ 0 then 0 else 1 : Int) = _
    by_cases hc : cpu.P &&& FLAG_C ≠ 0
    · rw [if_pos hc, if_pos ((carry_of_xor_D _).mpr hc)]
    · rw [if_neg hc, if_neg (fun h => hc ((carry_of_xor_D _).mp h))]
  have hMD : cpuD.mem (get_address ord (fetch_byte cpuD).2 mode).1 =
      cpu.mem (get_address ord (fetch_byte cpu).2 mode).1 := by
    rw [haddr]
  rcases hi with rfl | rfl
  · have e1 := step_ADC ord cpu mode hop
    have e2 := step_ADC ord cpuD mode hopD
    rw [hMD] at e2
    have s1 := adc_core_spec (get_address ord (fetch_byte cpu).2 mode).2
      (cpu.mem (get_address ord (fetch_byte cpu).2 mode).1) (by simpa using hwf.hA) (hwf.hmem _)
    have s2 := adc_core_spec (get_address ord (fetch_byte cpuD).2 mode).2
      (cpu.mem (get_address ord (fetch_byte cpu).2 mode).1)
      (by simp only [get_address_A, fetch_byte_A]; exact hwf.hA) (hwf.hmem _)
    simp only [get_address_A, get_address_P, fetch_byte_A, fetch_byte_P, hcin] at s1 s2
    have eP : cpu'.P = _ := congrArg CPU.P e1
    have eA : cpu'.A = _ := congrArg CPU.A e1
    have fP : cpuD'.P = _ := congrArg CPU.P e2
    have fA : cpuD'.A = _ := congrArg CPU.A e2
    rw [framebuffer_shim_P] at eP fP
    rw [framebuffer_shim_A] at eA fA
    rw [← eP, ← eA] at s1
    rw [← fP, ← fA] at s2
    obtain ⟨g1, g2, g3, g4, g5⟩ := s1
    obtain ⟨k1, k2, k3, k4, k5⟩ := s2
    have hAA : cpu'.A = cpuD'.A := g1.trans k1.symm
    refine ⟨hAA, g2.trans k2.symm, g3.trans k3.symm, ?_, ?_, ?_, ?_⟩
    · rw [g5, k5, hAA]
    · rw [g4, k4, hAA]
    · rw [eP, adc_core_eq]
      exact and_two_pow_congr _ _ 3 (by
        simp only [get_address_P, get_address_A, fetch_byte_P, fetch_byte_A]
        exact adcP_bit3 _ _ _)
    · rw [fP, adc_core_eq]
      exact and_two_pow_congr _ _ 3 (by
        simp only [get_address_P, get_address_A, fetch_byte_P, fetch_byte_A]
        exact adcP_bit3 _ _ _)
  · have e1 := step_SBC ord cpu mode hop
    have e2 := step_SBC ord cpuD mode hopD
    rw [hMD] at e2
    have s1 := sbc_core_spec (get_address ord (fetch_byte cpu).2 mode).2
      (cpu.mem (get_address ord (fetch_byte cpu).2 mode).1)
    have s2 := sbc_core_spec (get_address ord (fetch_byte cpuD).2 mode).2
      (cpu.mem (get_address ord (fetch_byte cpu).2 mode).1)
    simp only [get_address_A, get_address_P, fetch_byte_A, fetch_byte_P, hcinI] at s1 s2
    have eP : cpu'.P = _ := congrArg CPU.P e1
    have eA : cpu'.A = _ := congrArg CPU.A e1
    have fP : cpuD'.P = _ := congrArg CPU.P e2
    have fA : cpuD'.A = _ := congrArg CPU.A e2
    rw [framebuffer_shim_P] at eP fP
    rw [framebuffer_shim_A] at eA fA
    rw [← eP, ← eA] at s1
    rw [← fP, ← fA] at s2
    obtain ⟨g1, g2, g3, g4, g5⟩ := s1
    obtain ⟨k1, k2, k3, k4, k5⟩ := s2
    have hAA : cpu'.A = cpuD'.A := g1.trans k1.symm
    refine ⟨hAA, g2.trans k2.symm, g3.trans k3.symm, ?_, ?_, ?_, ?_⟩
    · rw [g5, k5, hAA]
    · rw [g4, k4, hAA]
    · rw [eP, sbc_core_eq]
      exact and_two_pow_congr _ _ 3 (by
        simp only [get_address_P, get_address_A, fetch_byte_P, fetch_byte_A]
        exact sbcP_bit3 _ _ _)
    · rw [fP, sbc_core_eq]
      exact and_two_pow_congr _ _ 3 (by
        simp only [get_address_P, get_address_A, fetch_byte_P, fetch_byte_A]
        exact sbcP_bit3 _ _ _)

theorem decimal_flag_ignored_witness :
    adcDecimalDemo.WF ∧ decode (fetch_byte adcDecimalDemo).1 = Instr.ADC Mode.AM_IMM ∧
    adcDecimalDemo.P &&& FLAG_D ≠ 0 ∧
    (execute_instruction EvalOrder.callFirst adcDecimalDemo).A =
      (execute_instruction EvalOrder.callFirst
        { adcDecimalDemo with P := adcDecimalDemo.P ^^^ FLAG_D }).A ∧
    (execute_instruction EvalOrder.callFirst adcDecimalDemo).A = 0xA0 ∧
    (execute_instruction EvalOrder.callFirst adcDecimalDemo).P &&& FLAG_D =
      adcDecimalDemo.P &&& FLAG_D := by
  have h := decimal_flag_ignored EvalOrder.callFirst adcDecimalDemo Mode.AM_IMM
    (Instr.ADC Mode.AM_IMM) adcDecimalDemo_wf (Or.inl rfl) rfl
  exact ⟨adcDecimalDemo_wf, rfl, by decide, h.1, by decide, h.2.2.2.2.2.1⟩

/-! ## Branches when `cpu->PC` is read before the operand is fetched -/

/-- Under the order in which `cpu->PC` is read before the operand is fetched, a
branch opcode at address `a` with operand byte `d` leaves
`PC = (a + 1 + sign_extend(d)) mod 65536` when its condition on `P` holds, one
less than under the other order, and `PC = (a + 2) mod 65536` otherwise; it
changes no register, flag or memory byte. -/
theorem branch_step_readFirst (cpu : CPU) (hwf : cpu.WF) (op flag : Nat) (wanted : Bool)
    (hmem : (op, flag, wanted) ∈ branch_opcodes) (hop : (fetch_byte cpu).1 = op) :
    let a := cpu.PC
    let d := (fetch_byte (fetch_byte cpu).2).1
    let cpu' := execute_instruction EvalOrder.readFirst cpu
    (decide (cpu.P &&& flag ≠ 0) = wanted →
      (cpu'.PC : Int) = ((a : Int) + 1 + (if d < 128 then (d : Int) else (d : Int) - 256)) % 65536) ∧
    (decide (cpu.P &&& flag ≠ 0) ≠ wanted → cpu'.PC = (a + 2) % 65536) ∧
    cpu'.A = cpu.A ∧ cpu'.X = cpu.X ∧ cpu'.Y = cpu.Y ∧ cpu'.SP = cpu.SP ∧ cpu'.P = cpu.P ∧
    cpu'.mem = cpu.mem := by
  intro a d cpu'
  have hd : d < 256 := fetch_byte_fst_lt _ (by
    rw [fetch_byte_snd]
    exact ⟨hwf.hA, hwf.hX, hwf.hY, hwf.hSP, Nat.mod_lt _ (by decide), hwf.hP, hwf.hmem, hwf.hkey⟩)
  have hstep : cpu' = framebuffer_shim (op_branch EvalOrder.readFirst flag wanted (fetch_byte cpu).2).1
      (op_branch EvalOrder.readFirst flag wanted (fetch_byte cpu).2).2 := by
    show execute_instruction EvalOrder.readFirst cpu = _
    rw [execute_instruction_eq, hop, exec_branch_opcode _ op flag wanted _ hmem]
  have hpc := hwf.hPC
  unfold op_branch at hstep
  rw [get_address_rel_readFirst] at hstep
  simp only [fetch_byte_P] at hstep
  refine ⟨?_, ?_, ?_⟩
  · intro hc
    rw [hstep, if_pos hc, framebuffer_shim_PC]
    show ((u16i (((fetch_byte cpu).2.PC : Int) + int8 d) : Nat) : Int) = _
    rw [fetch_byte_PC]
    unfold u16i u16 int8
    split_ifs <;> omega
  · intro hc
    rw [hstep, if_neg hc, framebuffer_shim_PC, fetch_byte_PC, fetch_byte_PC]
    unfold u16
    omega
  · rw [hstep]
    split_ifs <;> simp

/-- C8 at the `BEQ +4` at `a = 0x8002` with `Z` set: the target is the sum
`cpu->PC + (int8_t)fetch_byte(cpu)`, and C does not say which operand is
evaluated first.  When `cpu->PC` is read before the call advances it, the step
ends at `0x8007 = a + 1 + d`; `a + 2 + d = 0x8008` is reached only when the call
comes first.  Likewise `BNE -2` at `0x1000` with `Z` clear, a branch to itself,
ends at `0x0FFF`. -/
theorem branch_target_one_short_when_pc_read_first :
    (decode (fetch_byte beqDemo).1 = Instr.BEQ ∧ beqDemo.PC = 0x8002 ∧
      (fetch_byte (fetch_byte beqDemo).2).1 = 0x04 ∧ beqDemo.P &&& FLAG_Z ≠ 0) ∧
    (execute_instruction EvalOrder.readFirst beqDemo).PC = 0x8007 ∧
    (execute_instruction EvalOrder.readFirst beqDemo).PC ≠ (0x8002 + 2 + 0x04) % 65536 ∧
    (execute_instruction EvalOrder.callFirst beqDemo).PC = 0x8008 ∧
    (decode (fetch_byte bneSelfDemo).1 = Instr.BNE ∧ bneSelfDemo.PC = 0x1000 ∧
      (fetch_byte (fetch_byte bneSelfDemo).2).1 = 0xFE ∧ bneSelfDemo.P &&& FLAG_Z = 0) ∧
    (execute_instruction EvalOrder.readFirst bneSelfDemo).PC = 0x0FFF ∧
    (execute_instruction EvalOrder.callFirst bneSelfDemo).PC = 0x1000 :=
  ⟨⟨rfl, rfl, by decide, by decide⟩, by decide, by decide, by decide,
    ⟨rfl, rfl, by decide, by decide⟩, by decide, by decide⟩

end Emu6502
